import Mathlib

/-!
3dTetris: game-state and piece-mechanics engine.

Shallow embedding of `src/C++/3dTetris` (`GameState.hpp`, `TetrisGame.hpp`,
`PieceMecahnics.hpp`, `Game.hpp`).

Modelling conventions.

* `int` is 32 bits wide.  The session counters `score`, `level` and `linesCleared` grow
  with the length of a game, so every `+` and `*` on them is followed by `wrapInt32`, the
  reduction to the two's-complement range `[-2^31, 2^31)`: signed overflow is undefined
  behaviour in the C++ standard, and wrap-around is what the x86/x64 targets of this Windows
  program compute.  The other `int` values (grid indices, loop counters, table indices) stay
  within a few units of the grid size and are plain `Int`.  `/` and `%` on `int` are
  `Int.tdiv` and `Int.tmod` (truncation).
* `float` fields that hold grid coordinates (`XMFLOAT3` positions and block offsets) only
  ever receive integer values in the source, so `XMFLOAT3` carries `Int` components and the
  conversions `int x = position.x + block.x` are the identity.  Timer and colour floats are
  exact rationals.
* The occupancy grid `bool grid[6][12][6]` is a function on `Fin 6 × Fin 12 × Fin 6`.
  Reading or writing it with `int` indices goes through `gridRead` / `gridWrite`, which
  return `none` when an index is out of range (undefined behaviour in the source).  The same
  convention is used for the fixed-size tables (`SCORES`, `ROTATION_MATRICES`).
* Loops whose trip count is not a constant take a fuel argument counting loop-body
  executions and return `none` when it runs out.
* Audio and visual-effect notifications are external collaborators and are left out.
-/

namespace Tetris

/-! ## GameState.hpp -/

abbrev GRID_WIDTH : Nat := 6
abbrev GRID_HEIGHT : Nat := 12
abbrev GRID_DEPTH : Nat := 6

/-- `XMFLOAT3` restricted to the integer values the game stores in it. -/
structure XMFLOAT3 where
  x : Int
  y : Int
  z : Int
  deriving DecidableEq, Repr

/-- `XMFLOAT4` colour, components as exact rationals. -/
structure XMFLOAT4 where
  x : ℚ
  y : ℚ
  z : ℚ
  w : ℚ
  deriving DecidableEq

/-- `GameState::GridType` / `bool grid[GRID_WIDTH][GRID_HEIGHT][GRID_DEPTH]`. -/
abbrev GridType := Fin GRID_WIDTH → Fin GRID_HEIGHT → Fin GRID_DEPTH → Bool

/-- The all-`false` grid (`GridType{}` / `memset(grid, 0, ..)`). -/
def emptyGrid : GridType := fun _ _ _ => false

/-- `GameState::IsValidPosition(x, y, z)` (GameState.hpp:134-138). -/
def GameState.IsValidPosition (x y z : Int) : Bool :=
  decide (x ≥ 0) && decide (x < (GRID_WIDTH : Int)) &&
  decide (y ≥ 0) && decide (y < (GRID_HEIGHT : Int)) &&
  decide (z ≥ 0) && decide (z < (GRID_DEPTH : Int))

/-- The read `grid[x][y][z]` with `int` indices; `none` when an index is out of range. -/
def gridRead (grid : GridType) (x y z : Int) : Option Bool :=
  if h : (0 ≤ x ∧ x < (GRID_WIDTH : Int)) ∧ (0 ≤ y ∧ y < (GRID_HEIGHT : Int)) ∧
      (0 ≤ z ∧ z < (GRID_DEPTH : Int)) then
    some (grid ⟨x.toNat, by omega⟩ ⟨y.toNat, by omega⟩ ⟨z.toNat, by omega⟩)
  else none

/-- The write `grid[x][y][z] = v` with `int` indices; `none` when an index is out of range. -/
def gridWrite (grid : GridType) (x y z : Int) (v : Bool) : Option GridType :=
  if (0 ≤ x ∧ x < (GRID_WIDTH : Int)) ∧ (0 ≤ y ∧ y < (GRID_HEIGHT : Int)) ∧
      (0 ≤ z ∧ z < (GRID_DEPTH : Int)) then
    some (fun i j k =>
      if (i.val : Int) = x ∧ (j.val : Int) = y ∧ (k.val : Int) = z then v else grid i j k)
  else none

/-- `struct TetrisPiece` (PieceMecahnics.hpp:115-121); also the anonymous
`GameState::currentPiece` struct, which has the same fields. -/
structure TetrisPiece where
  blocks : List XMFLOAT3
  position : XMFLOAT3
  color : XMFLOAT4
  rotation : Int
  type : Int
  deriving DecidableEq

/-- `GameState::PieceTemplate`; the `std::array<XMFLOAT3, 4>` is a list. -/
structure GameState.PieceTemplate where
  blocks : List XMFLOAT3
  rotationSymmetry : Int
  deriving DecidableEq, Repr

/-- `class GameState` (GameState.hpp:59-158), data members. -/
structure GameState where
  grid : GridType
  currentPiece : TetrisPiece
  score : Int
  level : Int
  linesCleared : Int
  isGameOver : Bool
  dropTimer : ℚ
  dropInterval : ℚ

/-- `GameState::LINE_CLEAR_SCORES` (GameState.hpp:71). -/
def GameState.LINE_CLEAR_SCORES : List Int := [100, 300, 500, 800]

/-- `GameState::PIECE_TEMPLATES` (GameState.hpp:90-105): I, L, J, O, S, T, Z. -/
def GameState.PIECE_TEMPLATES : List GameState.PieceTemplate :=
  [ ⟨[⟨0,0,0⟩, ⟨1,0,0⟩, ⟨2,0,0⟩, ⟨3,0,0⟩], 2⟩,
    ⟨[⟨0,0,0⟩, ⟨1,0,0⟩, ⟨2,0,0⟩, ⟨2,1,0⟩], 4⟩,
    ⟨[⟨0,0,0⟩, ⟨1,0,0⟩, ⟨2,0,0⟩, ⟨0,1,0⟩], 4⟩,
    ⟨[⟨0,0,0⟩, ⟨1,0,0⟩, ⟨0,1,0⟩, ⟨1,1,0⟩], 1⟩,
    ⟨[⟨1,0,0⟩, ⟨2,0,0⟩, ⟨0,1,0⟩, ⟨1,1,0⟩], 2⟩,
    ⟨[⟨1,0,0⟩, ⟨0,1,0⟩, ⟨1,1,0⟩, ⟨2,1,0⟩], 4⟩,
    ⟨[⟨0,0,0⟩, ⟨1,0,0⟩, ⟨1,1,0⟩, ⟨2,1,0⟩], 2⟩ ]

/-- Indexing a fixed-size table with an `int`; `none` when out of range. -/
def tableAt {α : Type} (table : List α) (i : Int) : Option α :=
  if 0 ≤ i then table[i.toNat]? else none

/-- The value a 32-bit `int` holds after an arithmetic result `x`: `x` reduced modulo `2^32`
to the range `[-2^31, 2^31)`. -/
def wrapInt32 (x : Int) : Int := (x + 2147483648) % 4294967296 - 2147483648

/-- `a + b` on `int`. -/
def addInt32 (a b : Int) : Int := wrapInt32 (a + b)

/-- `a * b` on `int`. -/
def mulInt32 (a b : Int) : Int := wrapInt32 (a * b)

/-- `GameState::CalculateScore(lines)` (GameState.hpp:145-147). -/
def GameState.CalculateScore (s : GameState) (lines : Int) : Option Int :=
  match tableAt GameState.LINE_CLEAR_SCORES (lines - 1) with
  | some base => some (mulInt32 base (addInt32 s.level 1))
  | none => none

/-! ## TetrisGame.hpp -/

/-- `class TetrisGame`, data members (audio system and random engine left out). -/
structure TetrisGame where
  m_gameState : GameState
  m_currentPiece : TetrisPiece
  m_nextPiece : TetrisPiece
  m_isInitialized : Bool
  m_previousLevel : Int

/-- The local table `SCORES` of `TetrisGame::CalculateScore` (TetrisGame.hpp:177). -/
def TetrisGame.SCORES : List Int := [100, 300, 500, 800]

/-- `TetrisGame::CalculateScore(lines)` (TetrisGame.hpp:176-179). -/
def TetrisGame.CalculateScore (s : TetrisGame) (lines : Int) : Option Int :=
  match tableAt TetrisGame.SCORES (lines - 1) with
  | some base => some (mulInt32 base (addInt32 s.m_gameState.level 1))
  | none => none

/-- `TetrisGame::CheckCollision(dx, dy, dz, piece)` (TetrisGame.hpp:96-113), the loop over
the blocks of `piece`. -/
def TetrisGame.CheckCollision.loop (grid : GridType) (dx dy dz : Int) (position : XMFLOAT3) :
    List XMFLOAT3 → Option Bool
  | [] => some false
  | block :: rest =>
    let newX := position.x + block.x + dx
    let newY := position.y + block.y + dy
    let newZ := position.z + block.z + dz
    if newX < 0 ∨ newX ≥ (GRID_WIDTH : Int) ∨
        newY < 0 ∨ newY ≥ (GRID_HEIGHT : Int) ∨
        newZ < 0 ∨ newZ ≥ (GRID_DEPTH : Int) then
      some true
    else
      match gridRead grid newX newY newZ with
      | none => none
      | some true => some true
      | some false => TetrisGame.CheckCollision.loop grid dx dy dz position rest

/-- `TetrisGame::CheckCollision(dx, dy, dz, piece)`; the default argument
`piece = m_currentPiece` is passed explicitly by the callers. -/
def TetrisGame.CheckCollision (s : TetrisGame) (dx dy dz : Int) (piece : TetrisPiece) :
    Option Bool :=
  TetrisGame.CheckCollision.loop s.m_gameState.grid dx dy dz piece.position piece.blocks

/-- `TetrisGame::MovePiece(dx, dz)` (TetrisGame.hpp:41-47). -/
def TetrisGame.MovePiece (s : TetrisGame) (dx dz : Int) : Option TetrisGame :=
  match s.CheckCollision dx 0 dz s.m_currentPiece with
  | none => none
  | some false =>
    some { s with m_currentPiece := { s.m_currentPiece with
      position := { s.m_currentPiece.position with
        x := s.m_currentPiece.position.x + dx
        z := s.m_currentPiece.position.z + dz } } }
  | some true => some s

/-- The block-writing loop shared by `TetrisGame::LockPiece` (TetrisGame.hpp:116-121) and
`Game::LockPiece` (Game.hpp:213-219): `grid[x][y][z] = true` for every block. -/
def lockBlocks (position : XMFLOAT3) : GridType → List XMFLOAT3 → Option GridType
  | grid, [] => some grid
  | grid, block :: rest =>
    let x := position.x + block.x
    let y := position.y + block.y
    let z := position.z + block.z
    match gridWrite grid x y z true with
    | none => none
    | some grid1 => lockBlocks position grid1 rest

/-- The write step of `TetrisGame::LockPiece` (TetrisGame.hpp:116-121), before
`CheckLines()` and `SpawnNewPiece()`. -/
def TetrisGame.LockPiece.write (s : TetrisGame) : Option TetrisGame :=
  match lockBlocks s.m_currentPiece.position s.m_gameState.grid s.m_currentPiece.blocks with
  | none => none
  | some grid1 => some { s with m_gameState := { s.m_gameState with grid := grid1 } }

/-- The write step of `Game::LockPiece` (Game.hpp:212-219), on `m_gameState.currentPiece`. -/
def Game.LockPiece.write (gs : GameState) : Option GameState :=
  match lockBlocks gs.currentPiece.position gs.grid gs.currentPiece.blocks with
  | none => none
  | some grid1 => some { gs with grid := grid1 }

/-- The completeness test of `CheckLines` (TetrisGame.hpp:131-139): `layerComplete` stays
`true` iff no cell `grid[x][y][z]` of layer `y` is `false`. -/
def layerComplete (grid : GridType) (y : Fin GRID_HEIGHT) : Bool :=
  (List.finRange GRID_WIDTH).all fun x => (List.finRange GRID_DEPTH).all fun z => grid x y z

/-- Body of the loop at TetrisGame.hpp:144-150 for one `y2`:
`grid[x][y2][z] = grid[x][y2 + 1][z]` for all `x`, `z`. -/
def copyLayerDown (grid : GridType) (y2 : Nat) (h : y2 < GRID_HEIGHT - 1) : GridType :=
  fun x j z => if j.val = y2 then grid x ⟨y2 + 1, by omega⟩ z else grid x j z

/-- The loop `for (y2 = y; y2 < GRID_HEIGHT - 1; y2++)` (TetrisGame.hpp:144-150). -/
def shiftLayersDown (grid : GridType) (y2 : Nat) : GridType :=
  if h : y2 < GRID_HEIGHT - 1 then shiftLayersDown (copyLayerDown grid y2 h) (y2 + 1) else grid
termination_by GRID_HEIGHT - 1 - y2
decreasing_by
  have h1 : y2 < 11 := h
  show 11 - (y2 + 1) < 11 - y2
  omega

/-- The loop at TetrisGame.hpp:152-156: `grid[x][GRID_HEIGHT - 1][z] = false`. -/
def clearTopLayer (grid : GridType) : GridType :=
  fun x j z => if j.val = GRID_HEIGHT - 1 then false else grid x j z

/-- The layer scan of `TetrisGame::CheckLines` (TetrisGame.hpp:130-160).  State: the grid,
the loop variable `y`, the local `linesCleared` and the number of loop-body executions so
far.  After a collapse the source runs `y--` and then the loop's `y++`, so the next
iteration sees the same `y`.  `fuel` bounds the number of loop-body executions. -/
def TetrisGame.CheckLines.scan :
    Nat → GridType → Nat → Int → Nat → Option (GridType × Int × Nat)
  | fuel, grid, y, linesCleared, iters =>
    if h : y < GRID_HEIGHT then
      match fuel with
      | 0 => none
      | fuel + 1 =>
        if layerComplete grid ⟨y, h⟩ then
          TetrisGame.CheckLines.scan fuel (clearTopLayer (shiftLayersDown grid y)) y
            (linesCleared + 1) (iters + 1)
        else
          TetrisGame.CheckLines.scan fuel grid (y + 1) linesCleared (iters + 1)
    else some (grid, linesCleared, iters)

/-- `TetrisGame::CheckLines()` (TetrisGame.hpp:127-174). -/
def TetrisGame.CheckLines (fuel : Nat) (s : TetrisGame) : Option TetrisGame :=
  match TetrisGame.CheckLines.scan fuel s.m_gameState.grid 0 0 0 with
  | none => none
  | some (grid, linesCleared, _) =>
    let s1 : TetrisGame := { s with m_gameState := { s.m_gameState with grid := grid } }
    if linesCleared > 0 then
      let s2 : TetrisGame := { s1 with m_gameState := { s1.m_gameState with
        linesCleared := addInt32 s1.m_gameState.linesCleared linesCleared } }
      match s2.CalculateScore linesCleared with
      | none => none
      | some delta =>
        let s3 : TetrisGame := { s2 with m_gameState := { s2.m_gameState with
          score := addInt32 s2.m_gameState.score delta } }
        let s4 : TetrisGame := { s3 with m_previousLevel := s3.m_gameState.level }
        let s5 : TetrisGame := { s4 with m_gameState := { s4.m_gameState with
          level := Int.tdiv s4.m_gameState.linesCleared 10 } }
        some { s5 with m_gameState := { s5.m_gameState with
          dropInterval := max (1 / 10 : ℚ) (1 - (s5.m_gameState.level : ℚ) * (1 / 10)) } }
    else some s1

/-! ## PieceMecahnics.hpp -/

/-- `PieceMechanics::WALL_KICK_TESTS` (PieceMecahnics.hpp:8-14). -/
def PieceMechanics.WALL_KICK_TESTS : List XMFLOAT3 :=
  [⟨0, 0, 0⟩, ⟨1, 0, 0⟩, ⟨-1, 0, 0⟩, ⟨0, 0, 1⟩, ⟨0, 0, -1⟩]

/-- `std::array<int, 9>`, a row-major 3×3 matrix. -/
structure Matrix9 where
  m0 : Int
  m1 : Int
  m2 : Int
  m3 : Int
  m4 : Int
  m5 : Int
  m6 : Int
  m7 : Int
  m8 : Int
  deriving DecidableEq

/-- `PieceMechanics::ROTATION_MATRICES` (PieceMecahnics.hpp:17-34). -/
def PieceMechanics.ROTATION_MATRICES : List Matrix9 :=
  [ ⟨1, 0, 0,
     0, 1, 0,
     0, 0, 1⟩,
    ⟨0, -1, 0,
     1, 0, 0,
     0, 0, 1⟩,
    ⟨-1, 0, 0,
     0, -1, 0,
     0, 0, 1⟩,
    ⟨0, 1, 0,
     -1, 0, 0,
     0, 0, 1⟩ ]

/-- `PieceMechanics::RotatePoint(point, matrix)` (PieceMecahnics.hpp:36-42). -/
def PieceMechanics.RotatePoint (point : XMFLOAT3) (matrix : Matrix9) : XMFLOAT3 :=
  ⟨point.x * matrix.m0 + point.y * matrix.m1 + point.z * matrix.m2,
   point.x * matrix.m3 + point.y * matrix.m4 + point.z * matrix.m5,
   point.x * matrix.m6 + point.y * matrix.m7 + point.z * matrix.m8⟩

/-- `PieceMechanics::IsValidPosition(piece, grid, position)` (PieceMecahnics.hpp:90-105),
the loop over the blocks. -/
def PieceMechanics.IsValidPosition.loop (grid : GridType) (position : XMFLOAT3) :
    List XMFLOAT3 → Option Bool
  | [] => some true
  | block :: rest =>
    let x := position.x + block.x
    let y := position.y + block.y
    let z := position.z + block.z
    if !GameState.IsValidPosition x y z then some false
    else
      match gridRead grid x y z with
      | none => none
      | some true => some false
      | some false => PieceMechanics.IsValidPosition.loop grid position rest

/-- `PieceMechanics::IsValidPosition(piece, grid, position)`. -/
def PieceMechanics.IsValidPosition (piece : GameState.PieceTemplate) (grid : GridType)
    (position : XMFLOAT3) : Option Bool :=
  PieceMechanics.IsValidPosition.loop grid position piece.blocks

/-- The wall-kick loop of `TryRotation` (PieceMecahnics.hpp:62-74). -/
def PieceMechanics.TryRotation.kicks (rotated : GameState.PieceTemplate) (grid : GridType)
    (position : XMFLOAT3) : List XMFLOAT3 → Option (Option GameState.PieceTemplate)
  | [] => some none
  | kick :: rest =>
    let testPos : XMFLOAT3 :=
      ⟨position.x + kick.x, position.y + kick.y, position.z + kick.z⟩
    match PieceMechanics.IsValidPosition rotated grid testPos with
    | none => none
    | some true => some (some rotated)
    | some false => PieceMechanics.TryRotation.kicks rotated grid position rest

/-- `PieceMechanics::TryRotation(piece, currentRotation, grid, position)`
(PieceMecahnics.hpp:44-75).  The outer `Option` is `none` on undefined behaviour (`% 0`, or
an index outside `ROTATION_MATRICES`); the inner one is the `std::optional` result. -/
def PieceMechanics.TryRotation (piece : GameState.PieceTemplate) (currentRotation : Int)
    (grid : GridType) (position : XMFLOAT3) : Option (Option GameState.PieceTemplate) :=
  if piece.rotationSymmetry = 1 then some none
  else if piece.rotationSymmetry = 0 then none
  else
    let nextRotation := Int.tmod (currentRotation + 1) piece.rotationSymmetry
    match tableAt PieceMechanics.ROTATION_MATRICES nextRotation with
    | none => none
    | some rotMatrix =>
      let rotated : GameState.PieceTemplate :=
        { piece with blocks := piece.blocks.map fun block =>
            PieceMechanics.RotatePoint block rotMatrix }
      PieceMechanics.TryRotation.kicks rotated grid position PieceMechanics.WALL_KICK_TESTS

/-! ## GameState.hpp: drop pacing and construction -/

/-- `GameState::INITIAL_DROP_INTERVAL` (GameState.hpp:65). -/
def GameState.INITIAL_DROP_INTERVAL : ℚ := 1

/-- `GameState::MIN_DROP_INTERVAL` (GameState.hpp:66). -/
def GameState.MIN_DROP_INTERVAL : ℚ := 1 / 10

/-- `GameState::DROP_SPEED_INCREASE` (GameState.hpp:67). -/
def GameState.DROP_SPEED_INCREASE : ℚ := 1 / 10

/-- `GameState::CalculateDropInterval()` (GameState.hpp:140-143). -/
def GameState.CalculateDropInterval (s : GameState) : ℚ :=
  max GameState.MIN_DROP_INTERVAL
    (GameState.INITIAL_DROP_INTERVAL - ((s.level : ℚ) * GameState.DROP_SPEED_INCREASE))

/-- A default-constructed `GameState()` (GameState.hpp:44-56 and the member initialisers at
116-131): empty grid, counters 0, not over, timer 0, interval 1.  The current piece is not
initialised by the constructor; its indeterminate value is the argument. -/
def GameState.construct (indeterminate : TetrisPiece) : GameState :=
  { grid := emptyGrid, currentPiece := indeterminate, score := 0, level := 0,
    linesCleared := 0, isGameOver := false, dropTimer := 0,
    dropInterval := GameState.INITIAL_DROP_INTERVAL }

/-- `GameState::Reset()` (GameState.hpp:149-157). -/
def GameState.Reset (s : GameState) : GameState :=
  { s with grid := emptyGrid, score := 0, level := 0, linesCleared := 0,
           isGameOver := false, dropTimer := 0,
           dropInterval := GameState.INITIAL_DROP_INTERVAL }

/-! ## TetrisGame.hpp: spawning, locking, dropping, rotating, resetting -/

/-- The local table `PIECES` of `TetrisGame::SpawnNewPiece` (TetrisGame.hpp:182-197). -/
def TetrisGame.PIECES : List (List XMFLOAT3) :=
  [ [⟨0,0,0⟩, ⟨1,0,0⟩, ⟨2,0,0⟩, ⟨3,0,0⟩],
    [⟨0,0,0⟩, ⟨1,0,0⟩, ⟨2,0,0⟩, ⟨2,1,0⟩],
    [⟨0,0,0⟩, ⟨1,0,0⟩, ⟨2,0,0⟩, ⟨0,1,0⟩],
    [⟨0,0,0⟩, ⟨1,0,0⟩, ⟨0,1,0⟩, ⟨1,1,0⟩],
    [⟨1,0,0⟩, ⟨2,0,0⟩, ⟨0,1,0⟩, ⟨1,1,0⟩],
    [⟨1,0,0⟩, ⟨0,1,0⟩, ⟨1,1,0⟩, ⟨2,1,0⟩],
    [⟨0,0,0⟩, ⟨1,0,0⟩, ⟨1,1,0⟩, ⟨2,1,0⟩] ]

/-- The local table `COLORS` of `TetrisGame::SpawnNewPiece` (TetrisGame.hpp:199-207). -/
def TetrisGame.COLORS : List XMFLOAT4 :=
  [ ⟨1, 0, 0, 1⟩, ⟨0, 1, 0, 1⟩, ⟨0, 0, 1, 1⟩, ⟨1, 1, 0, 1⟩,
    ⟨1, 0, 1, 1⟩, ⟨0, 1, 1, 1⟩, ⟨1, 1 / 2, 0, 1⟩ ]

/-- The spawn location `XMFLOAT3(GRID_WIDTH/2 - 1, GRID_HEIGHT - 1, GRID_DEPTH/2 - 1)`. -/
def spawnPosition : XMFLOAT3 :=
  ⟨Int.tdiv (GRID_WIDTH : Int) 2 - 1, (GRID_HEIGHT : Int) - 1, Int.tdiv (GRID_DEPTH : Int) 2 - 1⟩

/-- `TetrisGame::SpawnNewPiece()` (TetrisGame.hpp:181-225).  `pieceIndex` is the value drawn
from `uniform_int_distribution<int>(0, PIECES.size() - 1)`. -/
def TetrisGame.SpawnNewPiece (s : TetrisGame) (pieceIndex : Fin TetrisGame.PIECES.length) :
    Option TetrisGame :=
  let s1 : TetrisGame := { s with m_currentPiece := s.m_nextPiece }
  let s2 : TetrisGame := { s1 with m_nextPiece := { s1.m_nextPiece with
    blocks := TetrisGame.PIECES.get pieceIndex
    color := TetrisGame.COLORS.get ⟨pieceIndex.val, Nat.lt_of_lt_of_le pieceIndex.isLt
      (by decide)⟩
    position := spawnPosition } }
  match s2.CheckCollision 0 0 0 s2.m_currentPiece with
  | none => none
  | some true => some { s2 with m_gameState := { s2.m_gameState with isGameOver := true } }
  | some false => some s2

/-- `TetrisGame::LockPiece()` (TetrisGame.hpp:115-125): write the blocks, `CheckLines()`,
`SpawnNewPiece()`. -/
def TetrisGame.LockPiece (s : TetrisGame) (fuel : Nat)
    (pieceIndex : Fin TetrisGame.PIECES.length) : Option TetrisGame :=
  match TetrisGame.LockPiece.write s with
  | none => none
  | some s1 =>
    match s1.CheckLines fuel with
    | none => none
    | some s2 => s2.SpawnNewPiece pieceIndex

/-- `TetrisGame::MovePieceDown()` (TetrisGame.hpp:32-39). -/
def TetrisGame.MovePieceDown (s : TetrisGame) (fuel : Nat)
    (pieceIndex : Fin TetrisGame.PIECES.length) : Option TetrisGame :=
  match s.CheckCollision 0 (-1) 0 s.m_currentPiece with
  | none => none
  | some false =>
    some { s with m_currentPiece := { s.m_currentPiece with
      position := { s.m_currentPiece.position with y := s.m_currentPiece.position.y - 1 } } }
  | some true => s.LockPiece fuel pieceIndex

/-- `TetrisGame::Update(deltaTime)` (TetrisGame.hpp:21-30). -/
def TetrisGame.Update (s : TetrisGame) (fuel : Nat)
    (pieceIndex : Fin TetrisGame.PIECES.length) (deltaTime : ℚ) : Option TetrisGame :=
  if !s.m_isInitialized || s.m_gameState.isGameOver then some s
  else
    let s1 : TetrisGame := { s with m_gameState := { s.m_gameState with
      dropTimer := s.m_gameState.dropTimer + deltaTime } }
    if s1.m_gameState.dropTimer ≥ s1.m_gameState.dropInterval then
      let s2 : TetrisGame := { s1 with m_gameState := { s1.m_gameState with dropTimer := 0 } }
      s2.MovePieceDown fuel pieceIndex
    else some s1

/-- The `switch (axis)` of `TetrisGame::RotatePiece` (TetrisGame.hpp:53-70) on one block. -/
def TetrisGame.RotatePiece.rotateBlock (axis : Char) (block : XMFLOAT3) : XMFLOAT3 :=
  let x := block.x
  let y := block.y
  let z := block.z
  if axis = 'x' then { block with y := -z, z := y }
  else if axis = 'y' then { block with x := -z, z := x }
  else if axis = 'z' then { block with x := -y, y := x }
  else block

/-- `TetrisGame::RotatePiece(axis)` (TetrisGame.hpp:49-77). -/
def TetrisGame.RotatePiece (s : TetrisGame) (axis : Char) : Option TetrisGame :=
  let tempPiece : TetrisPiece := { s.m_currentPiece with
    blocks := s.m_currentPiece.blocks.map (TetrisGame.RotatePiece.rotateBlock axis) }
  match s.CheckCollision 0 0 0 tempPiece with
  | none => none
  | some false => some { s with m_currentPiece := tempPiece }
  | some true => some s

/-- The loop `while (!CheckCollision(0, -1, 0)) m_currentPiece.position.y -= 1;` of
`TetrisGame::InstantDrop` (TetrisGame.hpp:80-82); `fuel` bounds the loop-body executions
(with fuel 0 the loop may only exit). -/
def TetrisGame.InstantDrop.descend : Nat → TetrisGame → Option TetrisGame
  | 0, s =>
    match s.CheckCollision 0 (-1) 0 s.m_currentPiece with
    | none => none
    | some true => some s
    | some false => none
  | fuel + 1, s =>
    match s.CheckCollision 0 (-1) 0 s.m_currentPiece with
    | none => none
    | some true => some s
    | some false =>
      TetrisGame.InstantDrop.descend fuel { s with m_currentPiece := { s.m_currentPiece with
        position := { s.m_currentPiece.position with
          y := s.m_currentPiece.position.y - 1 } } }

/-- `TetrisGame::InstantDrop()` (TetrisGame.hpp:79-85). -/
def TetrisGame.InstantDrop (s : TetrisGame) (dropFuel fuel : Nat)
    (pieceIndex : Fin TetrisGame.PIECES.length) : Option TetrisGame :=
  match TetrisGame.InstantDrop.descend dropFuel s with
  | none => none
  | some s1 => s1.LockPiece fuel pieceIndex

/-- `TetrisGame::ResetGame()` (TetrisGame.hpp:227-237).  `indeterminate` is the value of the
uninitialised `currentPiece` member of the fresh `GameState()`; `pieceIndex1` and
`pieceIndex2` are the two random draws. -/
def TetrisGame.ResetGame (s : TetrisGame) (indeterminate : TetrisPiece)
    (pieceIndex1 pieceIndex2 : Fin TetrisGame.PIECES.length) : Option TetrisGame :=
  let s1 : TetrisGame := { s with m_gameState := GameState.construct indeterminate }
  let s2 : TetrisGame := { s1 with m_previousLevel := 0 }
  let s3 : TetrisGame := { s2 with m_gameState := { s2.m_gameState with grid := emptyGrid } }
  match s3.SpawnNewPiece pieceIndex1 with
  | none => none
  | some s4 => s4.SpawnNewPiece pieceIndex2

/-! ## PieceMecahnics.hpp: ghost position -/

/-- The loop of `PieceMechanics::GetGhostPosition` (PieceMecahnics.hpp:82-85); `fuel` bounds
the loop-body executions (with fuel 0 the loop may only exit). -/
def PieceMechanics.GetGhostPosition.loop (piece : GameState.PieceTemplate) (grid : GridType) :
    Nat → XMFLOAT3 → Option XMFLOAT3
  | 0, ghostPos =>
    match PieceMechanics.IsValidPosition piece grid ⟨ghostPos.x, ghostPos.y - 1, ghostPos.z⟩ with
    | none => none
    | some false => some ghostPos
    | some true => none
  | fuel + 1, ghostPos =>
    match PieceMechanics.IsValidPosition piece grid ⟨ghostPos.x, ghostPos.y - 1, ghostPos.z⟩ with
    | none => none
    | some false => some ghostPos
    | some true =>
      PieceMechanics.GetGhostPosition.loop piece grid fuel { ghostPos with y := ghostPos.y - 1 }

/-- `PieceMechanics::GetGhostPosition(piece, grid, position)` (PieceMecahnics.hpp:77-87).
The outer `Option` is `none` when the fuel runs out; the inner one is the `std::optional`
result, which always holds a value. -/
def PieceMechanics.GetGhostPosition (fuel : Nat) (piece : GameState.PieceTemplate)
    (grid : GridType) (position : XMFLOAT3) : Option (Option XMFLOAT3) :=
  match PieceMechanics.GetGhostPosition.loop piece grid fuel position with
  | none => none
  | some ghostPos => some (some ghostPos)

/-! ## HoldPieceSystem.h -/

/-- `class HoldPieceSystem`, data members. -/
structure HoldPieceSystem where
  m_heldPiece : Option TetrisPiece
  m_canHold : Bool
  deriving DecidableEq

/-- `HoldPieceSystem::Reset()` (HoldPieceSystem.h:9-12). -/
def HoldPieceSystem.Reset (_h : HoldPieceSystem) : HoldPieceSystem :=
  { m_heldPiece := none, m_canHold := true }

/-- The local table `PIECES` of `HoldPieceSystem::SpawnNewPiece` (HoldPieceSystem.h:55-70). -/
def HoldPieceSystem.PIECES : List (List XMFLOAT3) :=
  [ [⟨0,0,0⟩, ⟨1,0,0⟩, ⟨2,0,0⟩, ⟨3,0,0⟩],
    [⟨0,0,0⟩, ⟨1,0,0⟩, ⟨2,0,0⟩, ⟨2,1,0⟩],
    [⟨0,0,0⟩, ⟨1,0,0⟩, ⟨2,0,0⟩, ⟨0,1,0⟩],
    [⟨0,0,0⟩, ⟨1,0,0⟩, ⟨0,1,0⟩, ⟨1,1,0⟩],
    [⟨1,0,0⟩, ⟨2,0,0⟩, ⟨0,1,0⟩, ⟨1,1,0⟩],
    [⟨1,0,0⟩, ⟨0,1,0⟩, ⟨1,1,0⟩, ⟨2,1,0⟩],
    [⟨0,0,0⟩, ⟨1,0,0⟩, ⟨1,1,0⟩, ⟨2,1,0⟩] ]

/-- The local table `COLORS` of `HoldPieceSystem::SpawnNewPiece` (HoldPieceSystem.h:72-80). -/
def HoldPieceSystem.COLORS : List XMFLOAT4 :=
  [ ⟨1, 0, 0, 1⟩, ⟨0, 1, 0, 1⟩, ⟨0, 0, 1, 1⟩, ⟨1, 1, 0, 1⟩,
    ⟨1, 0, 1, 1⟩, ⟨0, 1, 1, 1⟩, ⟨1, 1 / 2, 0, 1⟩ ]

/-- `HoldPieceSystem::SpawnNewPiece(gameState)` (HoldPieceSystem.h:54-95).  `pieceIndex` is
the value drawn from `uniform_int_distribution<>(0, PIECES.size() - 1)`. -/
def HoldPieceSystem.SpawnNewPiece (gameState : GameState)
    (pieceIndex : Fin HoldPieceSystem.PIECES.length) : GameState :=
  let g1 : GameState := { gameState with currentPiece := { gameState.currentPiece with
    blocks := HoldPieceSystem.PIECES.get pieceIndex } }
  let g2 : GameState := { g1 with currentPiece := { g1.currentPiece with
    color := HoldPieceSystem.COLORS.get ⟨pieceIndex.val,
      Nat.lt_of_lt_of_le pieceIndex.isLt (by decide)⟩ } }
  let g3 : GameState := { g2 with currentPiece := { g2.currentPiece with
    position := spawnPosition } }
  { g3 with currentPiece := { g3.currentPiece with rotation := 0 } }

/-- The assignment `m_heldPiece->position = XMFLOAT3(-5.0f, GRID_HEIGHT - 2, 0.0f)`
(HoldPieceSystem.h:35) on the held piece. -/
def HoldPieceSystem.atDisplayPosition (held : TetrisPiece) : TetrisPiece :=
  { held with position := ⟨-5, (GRID_HEIGHT : Int) - 2, 0⟩ }

/-- `HoldPieceSystem::TryHoldPiece(gameState, audio)` (HoldPieceSystem.h:14-40): the returned
`bool`, the hold system afterwards and the game state afterwards. -/
def HoldPieceSystem.TryHoldPiece (h : HoldPieceSystem) (gameState : GameState)
    (pieceIndex : Fin HoldPieceSystem.PIECES.length) : Bool × HoldPieceSystem × GameState :=
  if !h.m_canHold then (false, h, gameState)
  else
    let currentPiece := gameState.currentPiece
    let gameState1 : GameState :=
      match h.m_heldPiece with
      | some held =>
        let g1 : GameState := { gameState with currentPiece := held }
        { g1 with currentPiece := { g1.currentPiece with position := spawnPosition } }
      | none => HoldPieceSystem.SpawnNewPiece gameState pieceIndex
    let h1 : HoldPieceSystem := { h with m_heldPiece := some currentPiece }
    let h2 : HoldPieceSystem :=
      { h1 with m_heldPiece := Option.map HoldPieceSystem.atDisplayPosition h1.m_heldPiece }
    (true, { h2 with m_canHold := false }, gameState1)

/-- `HoldPieceSystem::OnPieceLocked()` (HoldPieceSystem.h:42-44). -/
def HoldPieceSystem.OnPieceLocked (h : HoldPieceSystem) : HoldPieceSystem :=
  { h with m_canHold := true }

/-! ## GameState.cpp: the prototype's free functions over globals -/

/-- The global `g_gameState` (GameState.cpp:2-9); the camera angles are left out. -/
structure GameStateCpp.GameState where
  score : Int
  level : Int
  linesCleared : Int
  isGameOver : Bool
  deriving DecidableEq

/-- The free function `CheckCollision(x, y, z)` (GameState.cpp:86-96) over the global
`g_gameGrid`, on integer-valued coordinates. -/
def GameStateCpp.CheckCollision (g_gameGrid : GridType) (x y z : Int) : Option Bool :=
  if x < 0 ∨ x ≥ (GRID_WIDTH : Int) ∨ y < 0 ∨ z < 0 ∨ z ≥ (GRID_DEPTH : Int) then some true
  else if y < (GRID_HEIGHT : Int) then gridRead g_gameGrid x y z
  else some false

/-- The assignment `g_gameGrid[x][j][z] = g_gameGrid[x][j + 1][z]` (GameState.cpp:157). -/
def GameStateCpp.CheckLines.copyCellDown (grid : GridType) (x : Fin GRID_WIDTH)
    (z : Fin GRID_DEPTH) (j : Fin (GRID_HEIGHT - 1)) : GridType :=
  fun x' j' z' =>
    if x' = x ∧ j'.val = j.val ∧ z' = z then grid x ⟨j.val + 1, by omega⟩ z
    else grid x' j' z'

/-- The body of the `x`, `z` loops of the free `CheckLines` (GameState.cpp:156-159) for one
column: `for (j = y; j < GRID_HEIGHT - 1; j++)` copy the cell above, then clear the top
cell. -/
def GameStateCpp.CheckLines.clearColumn (grid : GridType) (y : Nat) (x : Fin GRID_WIDTH)
    (z : Fin GRID_DEPTH) : GridType :=
  let shifted := ((List.finRange (GRID_HEIGHT - 1)).filter (fun j => decide (y ≤ j.val))).foldl
    (fun g j => GameStateCpp.CheckLines.copyCellDown g x z j) grid
  fun x' j' z' =>
    if x' = x ∧ j'.val = GRID_HEIGHT - 1 ∧ z' = z then false else shifted x' j' z'

/-- The "clear layer" block of the free `CheckLines` (GameState.cpp:153-161). -/
def GameStateCpp.CheckLines.clearLayer (grid : GridType) (y : Nat) : GridType :=
  (List.finRange GRID_WIDTH).foldl
    (fun g x => (List.finRange GRID_DEPTH).foldl
      (fun g1 z => GameStateCpp.CheckLines.clearColumn g1 y x z) g) grid

/-- The loop `for (int y = 0; y < GRID_HEIGHT; y++)` of the free `CheckLines`
(GameState.cpp:141-163); `y` is not decremented after a clear. -/
def GameStateCpp.CheckLines.scan (g_gameGrid : GridType) : GridType × Int :=
  (List.finRange GRID_HEIGHT).foldl
    (fun (st : GridType × Int) y =>
      if layerComplete st.1 y then (GameStateCpp.CheckLines.clearLayer st.1 y.val, st.2 + 1)
      else st)
    (g_gameGrid, 0)

/-- The free function `CheckLines()` (GameState.cpp:138-171) over the globals `g_gameGrid`
and `g_gameState`. -/
def GameStateCpp.CheckLines (g_gameGrid : GridType) (g_gameState : GameStateCpp.GameState) :
    GridType × GameStateCpp.GameState :=
  let r := GameStateCpp.CheckLines.scan g_gameGrid
  let linesCleared := r.2
  if linesCleared > 0 then
    let g1 : GameStateCpp.GameState := { g_gameState with
      linesCleared := addInt32 g_gameState.linesCleared linesCleared }
    let g2 : GameStateCpp.GameState := { g1 with
      score := addInt32 g1.score
        (mulInt32 (mulInt32 (mulInt32 linesCleared linesCleared) 100) (addInt32 g1.level 1)) }
    (r.1, { g2 with level := Int.tdiv g2.linesCleared 10 })
  else (r.1, g_gameState)

/-! ## InputSystem.hpp -/

/-- `WPARAM`, an unsigned integer key code. -/
abbrev WPARAM := Nat

/-- `InputSystem::Action` (InputSystem.hpp:10-23). -/
inductive InputSystem.Action where
  | MOVE_LEFT
  | MOVE_RIGHT
  | MOVE_FORWARD
  | MOVE_BACKWARD
  | ROTATE_X
  | ROTATE_Y
  | ROTATE_Z
  | HARD_DROP
  | SOFT_DROP
  | HOLD_PIECE
  | PAUSE
  | NONE
  deriving DecidableEq, Repr

/-- `InputConfig::DEFAULT_REPEAT_DELAY` (InputSystem.hpp:26). -/
def InputSystem.InputConfig.DEFAULT_REPEAT_DELAY : ℚ := 1 / 5

/-- `InputConfig::DEFAULT_REPEAT_RATE` (InputSystem.hpp:27). -/
def InputSystem.InputConfig.DEFAULT_REPEAT_RATE : ℚ := 1 / 20

/-- `InputConfig::SLOW_REPEAT_RATE` (InputSystem.hpp:28). -/
def InputSystem.InputConfig.SLOW_REPEAT_RATE : ℚ := 1 / 5

/-- `InputSystem::KeyState` (InputSystem.hpp:31-36). -/
structure InputSystem.KeyState where
  isPressed : Bool
  timeHeld : ℚ
  repeatDelay : ℚ
  repeatRate : ℚ
  deriving DecidableEq

/-- A default-initialised `KeyState` (the member initialisers at InputSystem.hpp:32-35). -/
def InputSystem.KeyState.default : InputSystem.KeyState :=
  { isPressed := false, timeHeld := 0,
    repeatDelay := InputSystem.InputConfig.DEFAULT_REPEAT_DELAY,
    repeatRate := InputSystem.InputConfig.DEFAULT_REPEAT_RATE }

/-- Virtual-key code `VK_LEFT` of `Windows.h`. -/
def VK_LEFT : WPARAM := 0x25

/-- Virtual-key code `VK_UP` of `Windows.h`. -/
def VK_UP : WPARAM := 0x26

/-- Virtual-key code `VK_RIGHT` of `Windows.h`. -/
def VK_RIGHT : WPARAM := 0x27

/-- Virtual-key code `VK_DOWN` of `Windows.h`. -/
def VK_DOWN : WPARAM := 0x28

/-- Virtual-key code `VK_SPACE` of `Windows.h`. -/
def VK_SPACE : WPARAM := 0x20

/-- Virtual-key code `VK_ESCAPE` of `Windows.h`. -/
def VK_ESCAPE : WPARAM := 0x1B

/-- `InputSystem::KEY_MAPPINGS` (InputSystem.hpp:39-50); the character keys are their
character codes. -/
def InputSystem.KEY_MAPPINGS : List (WPARAM × InputSystem.Action) :=
  [ (VK_LEFT, .MOVE_LEFT),
    (VK_RIGHT, .MOVE_RIGHT),
    (VK_UP, .MOVE_FORWARD),
    (VK_DOWN, .MOVE_BACKWARD),
    (('X').toNat, .ROTATE_X),
    (('Y').toNat, .ROTATE_Y),
    (('Z').toNat, .ROTATE_Z),
    (VK_SPACE, .HARD_DROP),
    (('C').toNat, .HOLD_PIECE),
    (VK_ESCAPE, .PAUSE) ]

/-- `class InputSystem`, data members.  The queue has its front at the head of the list;
the `unordered_map` is the list of its entries in iteration order. -/
structure InputSystem where
  m_inputQueue : List InputSystem.Action
  m_keyStates : List (WPARAM × InputSystem.KeyState)

/-- The loop of `InputSystem::KeyToAction` (InputSystem.hpp:116-119). -/
def InputSystem.KeyToAction.loop (key : WPARAM) :
    List (WPARAM × InputSystem.Action) → Option InputSystem.Action
  | [] => none
  | (mappedKey, action) :: rest =>
    if mappedKey = key then some action else InputSystem.KeyToAction.loop key rest

/-- `InputSystem::KeyToAction(key)` (InputSystem.hpp:115-120). -/
def InputSystem.KeyToAction (key : WPARAM) : Option InputSystem.Action :=
  InputSystem.KeyToAction.loop key InputSystem.KEY_MAPPINGS

/-- The constructor `InputSystem()` (InputSystem.hpp:56-68); the entries are listed in the
order of `KEY_MAPPINGS`. -/
def InputSystem.construct : InputSystem :=
  { m_inputQueue := [],
    m_keyStates := InputSystem.KEY_MAPPINGS.map fun (key, action) =>
      let state := InputSystem.KeyState.default
      if action = .ROTATE_X ∨ action = .ROTATE_Y ∨ action = .ROTATE_Z then
        (key, { state with repeatRate := InputSystem.InputConfig.SLOW_REPEAT_RATE })
      else (key, state) }

/-- `std::fmod` on exact rationals: the remainder of the division truncated towards zero. -/
def fmod (a b : ℚ) : ℚ :=
  if 0 ≤ a / b then a - b * (⌊a / b⌋ : ℤ) else a - b * (⌈a / b⌉ : ℤ)

/-- The body of the loop of `InputSystem::Update` (InputSystem.hpp:72-84) for one entry:
the queue and the entry's state afterwards. -/
def InputSystem.Update.entry (deltaTime : ℚ) (queue : List InputSystem.Action) (key : WPARAM)
    (state : InputSystem.KeyState) : List InputSystem.Action × InputSystem.KeyState :=
  if state.isPressed then
    let state1 : InputSystem.KeyState := { state with timeHeld := state.timeHeld + deltaTime }
    if state1.timeHeld > state1.repeatDelay then
      let repeatTime := state1.timeHeld - state1.repeatDelay
      if repeatTime ≥ state1.repeatRate then
        let queue1 :=
          match InputSystem.KeyToAction key with
          | some action => queue ++ [action]
          | none => queue
        (queue1, { state1 with
          timeHeld := state1.repeatDelay + fmod repeatTime state1.repeatRate })
      else (queue, state1)
    else (queue, state1)
  else (queue, state)

/-- The loop `for (auto& [key, state] : m_keyStates)` of `InputSystem::Update`. -/
def InputSystem.Update.loop (deltaTime : ℚ) :
    List InputSystem.Action → List (WPARAM × InputSystem.KeyState) →
      List InputSystem.Action × List (WPARAM × InputSystem.KeyState)
  | queue, [] => (queue, [])
  | queue, (key, state) :: rest =>
    let r := InputSystem.Update.entry deltaTime queue key state
    let r2 := InputSystem.Update.loop deltaTime r.1 rest
    (r2.1, (key, r.2) :: r2.2)

/-- `InputSystem::Update(deltaTime)` (InputSystem.hpp:70-86). -/
def InputSystem.Update (sys : InputSystem) (deltaTime : ℚ) : InputSystem :=
  let r := InputSystem.Update.loop deltaTime sys.m_inputQueue sys.m_keyStates
  { m_inputQueue := r.1, m_keyStates := r.2 }

/-- The lookup `m_keyStates.find(key)`: the state stored under `key`, if any. -/
def InputSystem.find (key : WPARAM) :
    List (WPARAM × InputSystem.KeyState) → Option InputSystem.KeyState
  | [] => none
  | (k, state) :: rest => if k = key then some state else InputSystem.find key rest

/-- The assignment `it->second.isPressed = v`. -/
def InputSystem.KeyState.setPressed (v : Bool) (st : InputSystem.KeyState) :
    InputSystem.KeyState :=
  { st with isPressed := v }

/-- The assignment `it->second.timeHeld = v`. -/
def InputSystem.KeyState.setTimeHeld (v : ℚ) (st : InputSystem.KeyState) :
    InputSystem.KeyState :=
  { st with timeHeld := v }

/-- Assignment through the iterator returned by `m_keyStates.find(key)`: the entry with
that key gets the state `f state`. -/
def InputSystem.modifyEntry (key : WPARAM) (f : InputSystem.KeyState → InputSystem.KeyState)
    (entries : List (WPARAM × InputSystem.KeyState)) : List (WPARAM × InputSystem.KeyState) :=
  entries.map fun e => if e.1 = key then (e.1, f e.2) else e

/-- `InputSystem::KeyDown(key)` (InputSystem.hpp:88-98). -/
def InputSystem.KeyDown (sys : InputSystem) (key : WPARAM) : InputSystem :=
  match InputSystem.find key sys.m_keyStates with
  | none => sys
  | some state =>
    if !state.isPressed then
      let pressed := InputSystem.modifyEntry key (InputSystem.KeyState.setPressed true)
        sys.m_keyStates
      let sys1 : InputSystem := { sys with m_keyStates := pressed }
      let timed := InputSystem.modifyEntry key (InputSystem.KeyState.setTimeHeld 0)
        sys1.m_keyStates
      let sys2 : InputSystem := { sys1 with m_keyStates := timed }
      match InputSystem.KeyToAction key with
      | some action => { sys2 with m_inputQueue := sys2.m_inputQueue ++ [action] }
      | none => sys2
    else sys

/-- `InputSystem::KeyUp(key)` (InputSystem.hpp:100-105). -/
def InputSystem.KeyUp (sys : InputSystem) (key : WPARAM) : InputSystem :=
  match InputSystem.find key sys.m_keyStates with
  | none => sys
  | some _ =>
    let released := InputSystem.modifyEntry key (InputSystem.KeyState.setPressed false)
      sys.m_keyStates
    let sys1 : InputSystem := { sys with m_keyStates := released }
    let timed := InputSystem.modifyEntry key (InputSystem.KeyState.setTimeHeld 0)
      sys1.m_keyStates
    { sys1 with m_keyStates := timed }

/-- `InputSystem::GetNextAction()` (InputSystem.hpp:107-112): the returned optional and the
system afterwards. -/
def InputSystem.GetNextAction (sys : InputSystem) : Option InputSystem.Action × InputSystem :=
  match sys.m_inputQueue with
  | [] => (none, sys)
  | action :: rest => (some action, { sys with m_inputQueue := rest })

/-- The loop `while (auto action = m_input->GetNextAction())` of `Game::ProcessInput`
(Game.hpp:133), collecting the returned actions; `fuel` bounds the number of calls that
return an action. -/
def InputSystem.drain : Nat → InputSystem → List InputSystem.Action × InputSystem
  | 0, sys => ([], sys)
  | fuel + 1, sys =>
    match sys.GetNextAction with
    | (none, sys1) => ([], sys1)
    | (some action, sys1) =>
      let r := InputSystem.drain fuel sys1
      (action :: r.1, r.2)

/-! ## Specification-side predicates and concrete inputs -/

/-- The coordinate `(x, y, z)` addresses a cell of the grid. -/
def inBounds (x y z : Int) : Prop :=
  (0 ≤ x ∧ x < 6) ∧ (0 ≤ y ∧ y < 12) ∧ (0 ≤ z ∧ z < 6)

instance (x y z : Int) : Decidable (inBounds x y z) := by
  unfold inBounds; infer_instance

/-- The coordinate `(x, y, z)` addresses a cell of the grid and that cell is unoccupied. -/
def cellFree (grid : GridType) (x y z : Int) : Prop :=
  ∃ (i : Fin GRID_WIDTH) (j : Fin GRID_HEIGHT) (k : Fin GRID_DEPTH),
    (i.val : Int) = x ∧ (j.val : Int) = y ∧ (k.val : Int) = z ∧ grid i j k = false

/-- Every block of `blocks`, placed at `position` and translated by `(dx, dy, dz)`, is in
bounds and on an unoccupied cell. -/
def blocksFree (grid : GridType) (position : XMFLOAT3) (blocks : List XMFLOAT3)
    (dx dy dz : Int) : Prop :=
  ∀ b ∈ blocks,
    cellFree grid (position.x + b.x + dx) (position.y + b.y + dy) (position.z + b.z + dz)

/-- A red colour value used by the concrete inputs. -/
def sampleColor : XMFLOAT4 := ⟨1, 0, 0, 1⟩

/-- The I piece (catalog entry 0) as an active piece at `position`. -/
def samplePieceAt (position : XMFLOAT3) : TetrisPiece :=
  { blocks := [⟨0,0,0⟩, ⟨1,0,0⟩, ⟨2,0,0⟩, ⟨3,0,0⟩], position := position,
    color := sampleColor, rotation := 0, type := 0 }

/-- A `GameState` with the member initialisers of the class (score, level, lines 0, not
over, timer 0, interval 1) over a given grid and current piece. -/
def sampleGameState (grid : GridType) (piece : TetrisPiece) (level : Int) : GameState :=
  { grid := grid, currentPiece := piece, score := 0, level := level, linesCleared := 0,
    isGameOver := false, dropTimer := 0, dropInterval := 1 }

/-- A `TetrisGame` over a given grid and active piece. -/
def sampleGame (grid : GridType) (piece : TetrisPiece) (level : Int) : TetrisGame :=
  { m_gameState := sampleGameState grid piece level, m_currentPiece := piece,
    m_nextPiece := piece, m_isInitialized := true, m_previousLevel := 0 }

/-- A grid whose only occupied cell is `(0, 1, 0)`. -/
def kickGrid : GridType := fun i j k => decide (i.val = 0 ∧ j.val = 1 ∧ k.val = 0)

/-- The I piece of the catalog (`PIECE_TEMPLATES[0]`). -/
def pieceI : GameState.PieceTemplate := ⟨[⟨0,0,0⟩, ⟨1,0,0⟩, ⟨2,0,0⟩, ⟨3,0,0⟩], 2⟩

/-- The O piece of the catalog (`PIECE_TEMPLATES[3]`). -/
def pieceO : GameState.PieceTemplate := ⟨[⟨0,0,0⟩, ⟨1,0,0⟩, ⟨0,1,0⟩, ⟨1,1,0⟩], 1⟩

/-- One horizontal layer of the grid: the cells `(x, z)` at a fixed height. -/
abbrev Layer := Fin GRID_WIDTH → Fin GRID_DEPTH → Bool

/-- Layer `y` of a grid. -/
def layerOf (grid : GridType) (y : Fin GRID_HEIGHT) : Layer := fun x z => grid x y z

/-- The layers of a grid from bottom (`y = 0`) to top (`y = 11`). -/
def layers (grid : GridType) : List Layer := (List.finRange GRID_HEIGHT).map (layerOf grid)

/-- A layer is full iff every one of its cells is occupied. -/
def layerFull (l : Layer) : Bool :=
  (List.finRange GRID_WIDTH).all fun x => (List.finRange GRID_DEPTH).all fun z => l x z

/-- The layer with no occupied cell. -/
def emptyLayer : Layer := fun _ _ => false

/-- Number of full layers of a grid. -/
def fullLayerCount (grid : GridType) : Nat := (layers grid).countP layerFull

/-- A grid in which exactly the layers `y` with `full y = true` are full (all other cells
are empty). -/
def gridWithFullLayers (full : Fin GRID_HEIGHT → Bool) : GridType := fun _ y _ => full y

/-- A grid whose layer 3 is full and whose only other occupied cell is `(0, 4, 0)`. -/
def gridOneFull : GridType :=
  fun x y z => decide (y.val = 3) || decide (x.val = 0 ∧ y.val = 4 ∧ z.val = 0)

/-- Every block of `blocks`, placed at `(x, y, z)`, is in bounds and on an unoccupied cell. -/
def validAt (grid : GridType) (blocks : List XMFLOAT3) (x y z : Int) : Prop :=
  ∀ b ∈ blocks, cellFree grid (x + b.x) (y + b.y) (z + b.z)

/-- A `TetrisGame` whose `isGameOver` flag is set, with the I piece at `(0, 0, 0)` on the
empty grid. -/
def gameOverGame : TetrisGame :=
  { m_gameState := { sampleGameState emptyGrid (samplePieceAt ⟨0, 0, 0⟩) 0 with
      isGameOver := true },
    m_currentPiece := samplePieceAt ⟨0, 0, 0⟩, m_nextPiece := samplePieceAt ⟨2, 11, 2⟩,
    m_isInitialized := true, m_previousLevel := 0 }

/-- An empty hold system that allows holding. -/
def emptyHold : HoldPieceSystem := { m_heldPiece := none, m_canHold := true }

/-- Translation of a point by `t`. -/
def translate (t p : XMFLOAT3) : XMFLOAT3 := ⟨p.x + t.x, p.y + t.y, p.z + t.z⟩

/-- Two block lists occupy the same set of cells up to a translation. -/
def sameShape (A B : List XMFLOAT3) : Prop :=
  ∃ t : XMFLOAT3, (∀ p ∈ A.map (translate t), p ∈ B) ∧ (∀ p ∈ B, p ∈ A.map (translate t))

/-- The blocks of a piece turned by `q` quarter turns about z: `RotatePoint` with
`ROTATION_MATRICES[q mod 4]`. -/
def quarterTurns (q : Nat) (blocks : List XMFLOAT3) : List XMFLOAT3 :=
  match PieceMechanics.ROTATION_MATRICES[q % 4]? with
  | some M => blocks.map fun b => PieceMechanics.RotatePoint b M
  | none => blocks

/-- Decision procedure for `sameShape`: a translation carrying `A` onto `B` must send the
first block of `A` to some block of `B`, so only those translations are tried. -/
def sameShapeCheck (A B : List XMFLOAT3) : Bool :=
  match A with
  | [] => B.isEmpty
  | a0 :: _ =>
    B.any fun b =>
      let t : XMFLOAT3 := ⟨b.x - a0.x, b.y - a0.y, b.z - a0.z⟩
      (A.map (translate t)).all (fun p => decide (p ∈ B)) &&
        B.all (fun p => decide (p ∈ A.map (translate t)))

/-- One piece action of `TetrisGame` that returns: `Update`, `MovePiece`, `RotatePiece` or
`InstantDrop`, with any arguments, fuel and random draw. -/
inductive TetrisGame.Step : TetrisGame → TetrisGame → Prop
  | update (s s' : TetrisGame) (fuel : Nat) (pieceIndex : Fin TetrisGame.PIECES.length)
      (deltaTime : ℚ) : s.Update fuel pieceIndex deltaTime = some s' → TetrisGame.Step s s'
  | movePiece (s s' : TetrisGame) (dx dz : Int) :
      s.MovePiece dx dz = some s' → TetrisGame.Step s s'
  | rotatePiece (s s' : TetrisGame) (axis : Char) :
      s.RotatePiece axis = some s' → TetrisGame.Step s s'
  | instantDrop (s s' : TetrisGame) (dropFuel fuel : Nat)
      (pieceIndex : Fin TetrisGame.PIECES.length) :
      s.InstantDrop dropFuel fuel pieceIndex = some s' → TetrisGame.Step s s'

/-- The states reachable from a `ResetGame` (from any prior state) through piece actions. -/
inductive TetrisGame.Reachable : TetrisGame → Prop
  | reset (s0 s : TetrisGame) (indeterminate : TetrisPiece)
      (pieceIndex1 pieceIndex2 : Fin TetrisGame.PIECES.length) :
      s0.ResetGame indeterminate pieceIndex1 pieceIndex2 = some s → TetrisGame.Reachable s
  | step (s s' : TetrisGame) :
      TetrisGame.Reachable s → TetrisGame.Step s s' → TetrisGame.Reachable s'

/-- The states reachable from a `ResetGame` (from any prior state) through piece actions,
each of them started in a state with `linesCleared ≤ bound`. -/
inductive TetrisGame.ReachableWithin (bound : Int) : TetrisGame → Prop
  | reset (s0 s : TetrisGame) (indeterminate : TetrisPiece)
      (pieceIndex1 pieceIndex2 : Fin TetrisGame.PIECES.length) :
      s0.ResetGame indeterminate pieceIndex1 pieceIndex2 = some s →
      TetrisGame.ReachableWithin bound s
  | step (s s' : TetrisGame) :
      TetrisGame.ReachableWithin bound s → s.m_gameState.linesCleared ≤ bound →
      TetrisGame.Step s s' → TetrisGame.ReachableWithin bound s'

/-- The session invariant of C21. -/
def sessionInv (s : TetrisGame) : Prop :=
  0 ≤ s.m_gameState.score ∧ 0 ≤ s.m_gameState.level ∧ 0 ≤ s.m_gameState.linesCleared ∧
  s.m_gameState.level = s.m_gameState.linesCleared / 10

/-- The growth bound of C21: at most 14644 lines have been cleared and the score is at most
`10 * linesCleared^2 + 160 * linesCleared`, which is below `2^31` for these line counts. -/
def sessionBound (s : TetrisGame) : Prop :=
  s.m_gameState.linesCleared ≤ 14644 ∧
  s.m_gameState.score ≤
    10 * (s.m_gameState.linesCleared * s.m_gameState.linesCleared) +
      160 * s.m_gameState.linesCleared

/-- The structural invariant of C26: no full layer, and the active and the next piece have
4 blocks. -/
def lockInv (s : TetrisGame) : Prop :=
  fullLayerCount s.m_gameState.grid = 0 ∧ s.m_currentPiece.blocks.length = 4 ∧
  s.m_nextPiece.blocks.length = 4

/-- The effect of one returning action on the session counters: unchanged, or updated by a
clear of `1 ≤ k ≤ 4` layers with the table value `t` for `k` layers, on 32-bit `int`. -/
def counterTransition (s s' : TetrisGame) : Prop :=
  (s'.m_gameState.score = s.m_gameState.score ∧
      s'.m_gameState.level = s.m_gameState.level ∧
      s'.m_gameState.linesCleared = s.m_gameState.linesCleared) ∨
    (∃ (k : Nat) (t : Int), 1 ≤ k ∧ k ≤ 4 ∧
      ([100, 300, 500, 800] : List Int)[k - 1]? = some t ∧
      s'.m_gameState.score =
        wrapInt32 (s.m_gameState.score + t * (s.m_gameState.level + 1)) ∧
      s'.m_gameState.linesCleared = wrapInt32 (s.m_gameState.linesCleared + k) ∧
      s'.m_gameState.level = Int.tdiv (wrapInt32 (s.m_gameState.linesCleared + k)) 10)

/-- The keys of `m_keyStates` are exactly the keys of `KEY_MAPPINGS`, each once (what the
constructor establishes; no member function inserts or erases entries). -/
def InputSystem.WellFormed (sys : InputSystem) : Prop :=
  (sys.m_keyStates.map Prod.fst).Perm (InputSystem.KEY_MAPPINGS.map Prod.fst)

/-- A grid whose layers 0 to 3 are full and whose other layers are empty. -/
def gridFourFull : GridType := gridWithFullLayers fun y => decide (y.val < 4)

/-- The integer `x` is a value of the 32-bit `int` type. -/
def fitsInt32 (x : Int) : Prop := -2147483648 ≤ x ∧ x ≤ 2147483647

instance (x : Int) : Decidable (fitsInt32 x) := by
  unfold fitsInt32; infer_instance

/-- A `TetrisGame` over a given grid with given session counters; the active and the next
piece are the I piece at the spawn location. -/
def sessionGame (grid : GridType) (score level linesCleared : Int) : TetrisGame :=
  { m_gameState :=
      { grid := grid, currentPiece := samplePieceAt ⟨2, 11, 2⟩, score := score,
        level := level, linesCleared := linesCleared, isGameOver := false, dropTimer := 0,
        dropInterval := 1 },
    m_currentPiece := samplePieceAt ⟨2, 11, 2⟩, m_nextPiece := samplePieceAt ⟨2, 11, 2⟩,
    m_isInitialized := true, m_previousLevel := 0 }

/-- The blocks of the I piece (`PIECES[0]`). -/
def blocksI : List XMFLOAT3 := [⟨0, 0, 0⟩, ⟨1, 0, 0⟩, ⟨2, 0, 0⟩, ⟨3, 0, 0⟩]

/-- The blocks of the I piece after `RotatePiece('z')`: one column of four cells. -/
def blocksIUpright : List XMFLOAT3 := [⟨0, 0, 0⟩, ⟨0, 1, 0⟩, ⟨0, 2, 0⟩, ⟨0, 3, 0⟩]

/-- The grid in which the columns `(x, z)` with `6 * x + z < k` are occupied at the heights
0 to 3 and every other cell is empty; `columnsGrid 36` has the layers 0 to 3 full. -/
def columnsGrid (k : Nat) : GridType :=
  fun x y z => decide (y.val < 4 ∧ 6 * x.val + z.val < k)

/-- The state `s` with the blocks and the position of the active piece replaced. -/
def withPiece (s : TetrisGame) (blocks : List XMFLOAT3) (position : XMFLOAT3) : TetrisGame :=
  { s with m_currentPiece := { s.m_currentPiece with blocks := blocks, position := position } }

/-- A running game in which the first `k` columns are filled, the active and the next piece
are the I piece at the spawn location and the drop timer is 0. -/
def columnsReady (k : Nat) (s : TetrisGame) : Prop :=
  s.m_gameState.grid = columnsGrid k ∧
  s.m_currentPiece.blocks = blocksI ∧ s.m_currentPiece.position = ⟨2, 11, 2⟩ ∧
  s.m_nextPiece.blocks = blocksI ∧ s.m_nextPiece.position = ⟨2, 11, 2⟩ ∧
  s.m_isInitialized = true ∧ s.m_gameState.isGameOver = false ∧
  s.m_gameState.dropTimer = 0

/-! ## Theorems -/

/-! ### Scoring -/

/-- A value of the `int` range is left unchanged by the reduction to 32 bits. -/
theorem wrapInt32_of_fits (x : Int) (h : fitsInt32 x) : wrapInt32 x = x := by
  unfold fitsInt32 at h
  unfold wrapInt32
  omega

theorem wrapInt32_fits (x : Int) : fitsInt32 (wrapInt32 x) := by
  unfold fitsInt32 wrapInt32
  omega

theorem wrapInt32_emod (x : Int) : wrapInt32 x % 4294967296 = x % 4294967296 := by
  unfold wrapInt32
  omega

theorem wrapInt32_congr (a b : Int) (h : a % 4294967296 = b % 4294967296) :
    wrapInt32 a = wrapInt32 b := by
  unfold wrapInt32
  omega

/-- The product of `CalculateScore`, computed step by step on `int`, is the exact product
reduced once. -/
theorem mulInt32_addInt32 (t l : Int) :
    mulInt32 t (addInt32 l 1) = wrapInt32 (t * (l + 1)) := by
  unfold addInt32 mulInt32
  apply wrapInt32_congr
  rw [Int.mul_emod, wrapInt32_emod, ← Int.mul_emod]

/-- The score update `score += CalculateScore(lines)`, computed step by step on `int`, is
the exact sum reduced once. -/
theorem addInt32_mulInt32 (a t l : Int) :
    addInt32 a (mulInt32 t (addInt32 l 1)) = wrapInt32 (a + t * (l + 1)) := by
  unfold addInt32 mulInt32
  apply wrapInt32_congr
  rw [Int.add_emod, wrapInt32_emod, Int.mul_emod, wrapInt32_emod, ← Int.mul_emod,
    ← Int.add_emod]

/-- C3 (counterexample): at level 2684355, which is `≥ 0`, both `CalculateScore(4)` return
`-2147482496`, not `800 * (2684355 + 1) = 2147484800`: the product does not fit the 32-bit
`int` the functions compute in. -/
theorem C3_CalculateScore_overflow :
    (0 : Int) ≤ 2684355 ∧
    (sampleGameState emptyGrid (samplePieceAt ⟨2, 11, 2⟩) 2684355).CalculateScore 4 =
      some (-2147482496) ∧
    (sampleGame emptyGrid (samplePieceAt ⟨2, 11, 2⟩) 2684355).CalculateScore 4 =
      some (-2147482496) ∧
    (800 : Int) * (2684355 + 1) = 2147484800 ∧ (-2147482496 : Int) ≠ 800 * (2684355 + 1) := by
  decide

/-- C3 (amended): for `1 ≤ n ≤ 4` and level `L ≥ 0`, both `GameState::CalculateScore(n)` and
`TetrisGame::CalculateScore(n)` return `T[n-1] * (L + 1)` reduced to the 32-bit `int` range,
with `T = [100, 300, 500, 800]`; this is `T[n-1] * (L + 1)` itself whenever that product is
at most `2147483647`, in particular for every `L ≤ 2684353`; 2 lines at level 0 give 300
and 1 line at level 2 gives 300. -/
theorem C3_CalculateScore (gs : GameState) (tg : TetrisGame) (n : Int)
    (hn1 : 1 ≤ n) (hn4 : n ≤ 4) (hL : 0 ≤ gs.level) (hL' : 0 ≤ tg.m_gameState.level) :
    (∃ t, ([100, 300, 500, 800] : List Int)[(n - 1).toNat]? = some t ∧
      gs.CalculateScore n = some (wrapInt32 (t * (gs.level + 1))) ∧
      tg.CalculateScore n = some (wrapInt32 (t * (tg.m_gameState.level + 1))) ∧
      (t * (gs.level + 1) ≤ 2147483647 → gs.CalculateScore n = some (t * (gs.level + 1))) ∧
      (t * (tg.m_gameState.level + 1) ≤ 2147483647 →
        tg.CalculateScore n = some (t * (tg.m_gameState.level + 1))) ∧
      (gs.level ≤ 2684353 → gs.CalculateScore n = some (t * (gs.level + 1))) ∧
      (tg.m_gameState.level ≤ 2684353 →
        tg.CalculateScore n = some (t * (tg.m_gameState.level + 1)))) ∧
    (gs.level = 0 → gs.CalculateScore 2 = some 300) ∧
    (tg.m_gameState.level = 0 → tg.CalculateScore 2 = some 300) ∧
    (gs.level = 2 → gs.CalculateScore 1 = some 300) ∧
    (tg.m_gameState.level = 2 → tg.CalculateScore 1 = some 300) := by
  have hgs : ∀ (m t : Int), tableAt GameState.LINE_CLEAR_SCORES (m - 1) = some t →
      gs.CalculateScore m = some (wrapInt32 (t * (gs.level + 1))) := by
    intro m t ht
    simp only [GameState.CalculateScore, ht, mulInt32_addInt32]
  have htg : ∀ (m t : Int), tableAt TetrisGame.SCORES (m - 1) = some t →
      tg.CalculateScore m = some (wrapInt32 (t * (tg.m_gameState.level + 1))) := by
    intro m t ht
    simp only [TetrisGame.CalculateScore, ht, mulInt32_addInt32]
  refine ⟨?_, ?_, ?_, ?_, ?_⟩
  · have hcases : n = 1 ∨ n = 2 ∨ n = 3 ∨ n = 4 := by omega
    have key : ∀ t : Int, 0 < t → t ≤ 800 →
        tableAt GameState.LINE_CLEAR_SCORES (n - 1) = some t →
        tableAt TetrisGame.SCORES (n - 1) = some t →
        gs.CalculateScore n = some (wrapInt32 (t * (gs.level + 1))) ∧
        tg.CalculateScore n = some (wrapInt32 (t * (tg.m_gameState.level + 1))) ∧
        (t * (gs.level + 1) ≤ 2147483647 →
          gs.CalculateScore n = some (t * (gs.level + 1))) ∧
        (t * (tg.m_gameState.level + 1) ≤ 2147483647 →
          tg.CalculateScore n = some (t * (tg.m_gameState.level + 1))) ∧
        (gs.level ≤ 2684353 → gs.CalculateScore n = some (t * (gs.level + 1))) ∧
        (tg.m_gameState.level ≤ 2684353 →
          tg.CalculateScore n = some (t * (tg.m_gameState.level + 1))) := by
      intro t ht0 ht800 h1 h2
      have hpos1 : 0 ≤ t * (gs.level + 1) := mul_nonneg (le_of_lt ht0) (by omega)
      have hpos2 : 0 ≤ t * (tg.m_gameState.level + 1) := mul_nonneg (le_of_lt ht0) (by omega)
      have hfit1 : t * (gs.level + 1) ≤ 2147483647 →
          gs.CalculateScore n = some (t * (gs.level + 1)) := by
        intro hle
        rw [hgs n t h1, wrapInt32_of_fits _ ⟨by omega, hle⟩]
      have hfit2 : t * (tg.m_gameState.level + 1) ≤ 2147483647 →
          tg.CalculateScore n = some (t * (tg.m_gameState.level + 1)) := by
        intro hle
        rw [htg n t h2, wrapInt32_of_fits _ ⟨by omega, hle⟩]
      refine ⟨hgs n t h1, htg n t h2, hfit1, hfit2, ?_, ?_⟩
      · intro hle
        apply hfit1
        calc t * (gs.level + 1) ≤ 800 * (gs.level + 1) :=
              mul_le_mul_of_nonneg_right ht800 (by omega)
          _ ≤ 2147483647 := by omega
      · intro hle
        apply hfit2
        calc t * (tg.m_gameState.level + 1) ≤ 800 * (tg.m_gameState.level + 1) :=
              mul_le_mul_of_nonneg_right ht800 (by omega)
          _ ≤ 2147483647 := by omega
    rcases hcases with h | h | h | h <;> subst h
    · exact ⟨100, by decide, key 100 (by decide) (by decide) (by decide) (by decide)⟩
    · exact ⟨300, by decide, key 300 (by decide) (by decide) (by decide) (by decide)⟩
    · exact ⟨500, by decide, key 500 (by decide) (by decide) (by decide) (by decide)⟩
    · exact ⟨800, by decide, key 800 (by decide) (by decide) (by decide) (by decide)⟩
  · intro h
    rw [hgs 2 300 (by decide), h]
    decide
  · intro h
    rw [htg 2 300 (by decide), h]
    decide
  · intro h
    rw [hgs 1 100 (by decide), h]
    decide
  · intro h
    rw [htg 1 100 (by decide), h]
    decide

/-- Witness for C3 at 4 lines, level 3: both functions return `800 * 4`. -/
theorem C3_CalculateScore_witness :
    (sampleGameState emptyGrid (samplePieceAt ⟨2, 11, 2⟩) 3).CalculateScore 4 = some 3200 ∧
    (sampleGame emptyGrid (samplePieceAt ⟨2, 11, 2⟩) 3).CalculateScore 4 = some 3200 := by
  obtain ⟨⟨t, ht, -, -, -, -, h1, h2⟩, -⟩ :=
    C3_CalculateScore (sampleGameState emptyGrid (samplePieceAt ⟨2, 11, 2⟩) 3)
      (sampleGame emptyGrid (samplePieceAt ⟨2, 11, 2⟩) 3) 4 (by decide) (by decide)
      (by decide) (by decide)
  have ht' : t = 800 := by
    have : ([100, 300, 500, 800] : List Int)[((4 : Int) - 1).toNat]? = some 800 := by decide
    rw [this] at ht
    exact (Option.some.inj ht).symm
  subst ht'
  exact ⟨h1 (by decide), h2 (by decide)⟩

/-! ### Grid access -/

theorem gridRead_eq_none_iff (grid : GridType) (x y z : Int) :
    gridRead grid x y z = none ↔ ¬ inBounds x y z := by
  unfold gridRead inBounds
  simp only [GRID_WIDTH, GRID_HEIGHT, GRID_DEPTH, Nat.cast_ofNat]
  split
  · rename_i h
    simp only [reduceCtorEq, false_iff, not_not]
    exact h
  · rename_i h
    simp only [true_iff]
    exact h

theorem gridRead_isSome_of_inBounds (grid : GridType) (x y z : Int) (h : inBounds x y z) :
    ∃ v, gridRead grid x y z = some v := by
  cases hr : gridRead grid x y z with
  | none => exact absurd h ((gridRead_eq_none_iff grid x y z).mp hr)
  | some v => exact ⟨v, rfl⟩

theorem gridRead_eq_some_iff (grid : GridType) (x y z : Int) (v : Bool) :
    gridRead grid x y z = some v ↔
      ∃ (i : Fin GRID_WIDTH) (j : Fin GRID_HEIGHT) (k : Fin GRID_DEPTH),
        (i.val : Int) = x ∧ (j.val : Int) = y ∧ (k.val : Int) = z ∧ grid i j k = v := by
  unfold gridRead
  split
  · rename_i h
    constructor
    · intro hv
      refine ⟨⟨x.toNat, by omega⟩, ⟨y.toNat, by omega⟩, ⟨z.toNat, by omega⟩, ?_, ?_, ?_, ?_⟩
      · simp only []; omega
      · simp only []; omega
      · simp only []; omega
      · exact Option.some.inj hv
    · rintro ⟨i, j, k, hi, hj, hk, hv⟩
      subst hi hj hk
      simp only [Int.toNat_ofNat, Fin.eta]
      rw [hv]
  · rename_i h
    constructor
    · intro hv; cases hv
    · rintro ⟨i, j, k, hi, hj, hk, -⟩
      exfalso
      apply h
      have := i.isLt; have := j.isLt; have := k.isLt
      simp only [GRID_WIDTH, GRID_HEIGHT, GRID_DEPTH] at *
      omega

theorem gridRead_some_false_iff (grid : GridType) (x y z : Int) :
    gridRead grid x y z = some false ↔ cellFree grid x y z :=
  gridRead_eq_some_iff grid x y z false

theorem cellFree_inBounds {grid : GridType} {x y z : Int} (h : cellFree grid x y z) :
    inBounds x y z := by
  obtain ⟨i, j, k, hi, hj, hk, -⟩ := h
  have := i.isLt; have := j.isLt; have := k.isLt
  simp only [GRID_WIDTH, GRID_HEIGHT, GRID_DEPTH] at *
  unfold inBounds
  omega

theorem IsValidPosition_eq_true_iff (x y z : Int) :
    GameState.IsValidPosition x y z = true ↔ inBounds x y z := by
  unfold GameState.IsValidPosition inBounds
  simp only [Bool.and_eq_true, decide_eq_true_eq, GRID_WIDTH, GRID_HEIGHT, GRID_DEPTH,
    Nat.cast_ofNat]
  tauto

theorem IsValidPosition_eq_false_iff (x y z : Int) :
    GameState.IsValidPosition x y z = false ↔ ¬ inBounds x y z := by
  rw [← IsValidPosition_eq_true_iff]
  simp

/-! ### Collision predicates -/

theorem CheckCollision_loop_ne_none (grid : GridType) (dx dy dz : Int) (position : XMFLOAT3)
    (blocks : List XMFLOAT3) :
    TetrisGame.CheckCollision.loop grid dx dy dz position blocks ≠ none := by
  induction blocks with
  | nil => simp [TetrisGame.CheckCollision.loop]
  | cons b rest ih =>
    simp only [TetrisGame.CheckCollision.loop]
    split
    · simp
    · rename_i hb
      have hin : inBounds (position.x + b.x + dx) (position.y + b.y + dy)
          (position.z + b.z + dz) := by
        unfold inBounds
        simp only [GRID_WIDTH, GRID_HEIGHT, GRID_DEPTH, Nat.cast_ofNat] at hb
        omega
      obtain ⟨v, hv⟩ := gridRead_isSome_of_inBounds grid _ _ _ hin
      rw [hv]
      cases v
      · exact ih
      · simp

theorem CheckCollision_loop_false_iff (grid : GridType) (dx dy dz : Int)
    (position : XMFLOAT3) (blocks : List XMFLOAT3) :
    TetrisGame.CheckCollision.loop grid dx dy dz position blocks = some false ↔
      blocksFree grid position blocks dx dy dz := by
  induction blocks with
  | nil => simp [TetrisGame.CheckCollision.loop, blocksFree]
  | cons b rest ih =>
    have hsplit : blocksFree grid position (b :: rest) dx dy dz ↔
        cellFree grid (position.x + b.x + dx) (position.y + b.y + dy)
          (position.z + b.z + dz) ∧ blocksFree grid position rest dx dy dz := by
      simp [blocksFree]
    rw [hsplit]
    simp only [TetrisGame.CheckCollision.loop]
    split
    · rename_i hb
      constructor
      · intro h; cases h
      · rintro ⟨hfree, -⟩
        exfalso
        have hin := cellFree_inBounds hfree
        unfold inBounds at hin
        simp only [GRID_WIDTH, GRID_HEIGHT, GRID_DEPTH, Nat.cast_ofNat] at hb
        omega
    · cases hv : gridRead grid (position.x + b.x + dx) (position.y + b.y + dy)
          (position.z + b.z + dz) with
      | none =>
        constructor
        · intro h; cases h
        · rintro ⟨hfree, -⟩
          rw [(gridRead_some_false_iff _ _ _ _).mpr hfree] at hv
          cases hv
      | some v =>
        cases v
        · simp only []
          rw [ih]
          constructor
          · intro h; exact ⟨(gridRead_some_false_iff _ _ _ _).mp hv, h⟩
          · intro h; exact h.2
        · constructor
          · intro h; cases h
          · rintro ⟨hfree, -⟩
            rw [(gridRead_some_false_iff _ _ _ _).mpr hfree] at hv
            cases hv

theorem CheckCollision_loop_true_iff (grid : GridType) (dx dy dz : Int)
    (position : XMFLOAT3) (blocks : List XMFLOAT3) :
    TetrisGame.CheckCollision.loop grid dx dy dz position blocks = some true ↔
      ¬ blocksFree grid position blocks dx dy dz := by
  rw [← CheckCollision_loop_false_iff]
  have hne := CheckCollision_loop_ne_none grid dx dy dz position blocks
  cases h : TetrisGame.CheckCollision.loop grid dx dy dz position blocks with
  | none => exact absurd h hne
  | some v => cases v <;> simp

theorem IsValidPosition_loop_ne_none (grid : GridType) (position : XMFLOAT3)
    (blocks : List XMFLOAT3) :
    PieceMechanics.IsValidPosition.loop grid position blocks ≠ none := by
  induction blocks with
  | nil => simp [PieceMechanics.IsValidPosition.loop]
  | cons b rest ih =>
    simp only [PieceMechanics.IsValidPosition.loop]
    split
    · simp
    · rename_i hb
      have hin : inBounds (position.x + b.x) (position.y + b.y) (position.z + b.z) := by
        rw [← IsValidPosition_eq_true_iff]
        simpa using hb
      obtain ⟨v, hv⟩ := gridRead_isSome_of_inBounds grid _ _ _ hin
      rw [hv]
      cases v
      · exact ih
      · simp

theorem IsValidPosition_loop_true_iff (grid : GridType) (position : XMFLOAT3)
    (blocks : List XMFLOAT3) :
    PieceMechanics.IsValidPosition.loop grid position blocks = some true ↔
      ∀ b ∈ blocks, cellFree grid (position.x + b.x) (position.y + b.y)
        (position.z + b.z) := by
  induction blocks with
  | nil => simp [PieceMechanics.IsValidPosition.loop]
  | cons b rest ih =>
    simp only [PieceMechanics.IsValidPosition.loop, List.mem_cons, forall_eq_or_imp]
    split
    · rename_i hb
      constructor
      · intro h; cases h
      · rintro ⟨hfree, -⟩
        exfalso
        have hin := (IsValidPosition_eq_true_iff _ _ _).mpr (cellFree_inBounds hfree)
        rw [hin] at hb
        simp at hb
    · cases hv : gridRead grid (position.x + b.x) (position.y + b.y) (position.z + b.z) with
      | none =>
        constructor
        · intro h; cases h
        · rintro ⟨hfree, -⟩
          rw [(gridRead_some_false_iff _ _ _ _).mpr hfree] at hv
          cases hv
      | some v =>
        cases v
        · simp only []
          rw [ih]
          constructor
          · intro h; exact ⟨(gridRead_some_false_iff _ _ _ _).mp hv, h⟩
          · intro h; exact h.2
        · constructor
          · intro h; cases h
          · rintro ⟨hfree, -⟩
            rw [(gridRead_some_false_iff _ _ _ _).mpr hfree] at hv
            cases hv

theorem IsValidPosition_loop_false_iff (grid : GridType) (position : XMFLOAT3)
    (blocks : List XMFLOAT3) :
    PieceMechanics.IsValidPosition.loop grid position blocks = some false ↔
      ¬ ∀ b ∈ blocks, cellFree grid (position.x + b.x) (position.y + b.y)
        (position.z + b.z) := by
  rw [← IsValidPosition_loop_true_iff]
  have hne := IsValidPosition_loop_ne_none grid position blocks
  cases h : PieceMechanics.IsValidPosition.loop grid position blocks with
  | none => exact absurd h hne
  | some v => cases v <;> simp

/-- C6: if the target coordinate `position + block + offset` of some block lies outside
`[0,6) × [0,12) × [0,6)`, then `TetrisGame::CheckCollision` returns `true`,
`PieceMechanics::IsValidPosition` (at `position + offset`) returns `false`,
`GameState::IsValidPosition` rejects that coordinate, and neither predicate faults on an
out-of-range grid read (both results are `some _`). -/
theorem C6_out_of_bounds_is_blocked (s : TetrisGame) (piece : TetrisPiece)
    (rotationSymmetry : Int) (dx dy dz : Int) (b : XMFLOAT3) (hb : b ∈ piece.blocks)
    (hout : ¬ inBounds (piece.position.x + b.x + dx) (piece.position.y + b.y + dy)
      (piece.position.z + b.z + dz)) :
    s.CheckCollision dx dy dz piece = some true ∧
    PieceMechanics.IsValidPosition ⟨piece.blocks, rotationSymmetry⟩ s.m_gameState.grid
      ⟨piece.position.x + dx, piece.position.y + dy, piece.position.z + dz⟩ = some false ∧
    GameState.IsValidPosition (piece.position.x + b.x + dx) (piece.position.y + b.y + dy)
      (piece.position.z + b.z + dz) = false := by
  refine ⟨?_, ?_, (IsValidPosition_eq_false_iff _ _ _).mpr hout⟩
  · unfold TetrisGame.CheckCollision
    rw [CheckCollision_loop_true_iff]
    intro hfree
    exact hout (cellFree_inBounds (hfree b hb))
  · unfold PieceMechanics.IsValidPosition
    rw [IsValidPosition_loop_false_iff]
    intro hfree
    have h := cellFree_inBounds (hfree b hb)
    apply hout
    simp only [] at h
    unfold inBounds at h ⊢
    omega

/-- Witness for C6: the I piece at `(0, 11, 0)` moved up by one (target `y = 12`, above the
top of the grid). -/
theorem C6_out_of_bounds_is_blocked_witness :
    (sampleGame emptyGrid (samplePieceAt ⟨0, 11, 0⟩) 0).CheckCollision 0 1 0
        (samplePieceAt ⟨0, 11, 0⟩) = some true ∧
    PieceMechanics.IsValidPosition ⟨(samplePieceAt ⟨0, 11, 0⟩).blocks, 2⟩
        (sampleGame emptyGrid (samplePieceAt ⟨0, 11, 0⟩) 0).m_gameState.grid
        ⟨(0 : Int) + 0, (11 : Int) + 1, (0 : Int) + 0⟩ = some false ∧
    GameState.IsValidPosition ((0 : Int) + 0 + 0) ((11 : Int) + 0 + 1) ((0 : Int) + 0 + 0)
      = false :=
  C6_out_of_bounds_is_blocked (sampleGame emptyGrid (samplePieceAt ⟨0, 11, 0⟩) 0)
    (samplePieceAt ⟨0, 11, 0⟩) 2 0 1 0 ⟨0, 0, 0⟩ (by decide) (by decide)

/-! ### Moving -/

/-- C7: `TetrisGame::MovePiece(dx, dz)`.  If every block of the active piece translated by
`(dx, 0, dz)` is in bounds and on an unoccupied cell, only the piece position changes, to
`(x + dx, y, z + dz)`; otherwise the state is unchanged; and a piece that is
collision-free before the call is collision-free after it. -/
theorem C7_MovePiece (s : TetrisGame) (dx dz : Int) :
    (blocksFree s.m_gameState.grid s.m_currentPiece.position s.m_currentPiece.blocks dx 0 dz →
      s.MovePiece dx dz = some { s with m_currentPiece := { s.m_currentPiece with
        position := ⟨s.m_currentPiece.position.x + dx, s.m_currentPiece.position.y,
          s.m_currentPiece.position.z + dz⟩ } }) ∧
    (¬ blocksFree s.m_gameState.grid s.m_currentPiece.position s.m_currentPiece.blocks
        dx 0 dz → s.MovePiece dx dz = some s) ∧
    (s.CheckCollision 0 0 0 s.m_currentPiece = some false →
      ∃ s', s.MovePiece dx dz = some s' ∧
        s'.CheckCollision 0 0 0 s'.m_currentPiece = some false) := by
  have hmove : blocksFree s.m_gameState.grid s.m_currentPiece.position
      s.m_currentPiece.blocks dx 0 dz →
      s.MovePiece dx dz = some { s with m_currentPiece := { s.m_currentPiece with
        position := ⟨s.m_currentPiece.position.x + dx, s.m_currentPiece.position.y,
          s.m_currentPiece.position.z + dz⟩ } } := by
    intro hfree
    have hc : s.CheckCollision dx 0 dz s.m_currentPiece = some false :=
      (CheckCollision_loop_false_iff _ _ _ _ _ _).mpr hfree
    simp only [TetrisGame.MovePiece, hc]
  have hstay : ¬ blocksFree s.m_gameState.grid s.m_currentPiece.position
      s.m_currentPiece.blocks dx 0 dz → s.MovePiece dx dz = some s := by
    intro hfree
    have hc : s.CheckCollision dx 0 dz s.m_currentPiece = some true :=
      (CheckCollision_loop_true_iff _ _ _ _ _ _).mpr hfree
    simp only [TetrisGame.MovePiece, hc]
  refine ⟨hmove, hstay, ?_⟩
  intro h0
  by_cases hfree : blocksFree s.m_gameState.grid s.m_currentPiece.position
      s.m_currentPiece.blocks dx 0 dz
  · refine ⟨_, hmove hfree, ?_⟩
    unfold TetrisGame.CheckCollision
    rw [CheckCollision_loop_false_iff]
    intro b hb
    have h := hfree b hb
    simp only [add_zero] at h ⊢
    have e1 : s.m_currentPiece.position.x + dx + b.x = s.m_currentPiece.position.x + b.x + dx := by
      ring
    have e2 : s.m_currentPiece.position.z + dz + b.z = s.m_currentPiece.position.z + b.z + dz := by
      ring
    rw [e1, e2]
    exact h
  · exact ⟨s, hstay hfree, h0⟩

/-- Witness for C7: the I piece at `(0, 0, 0)` on the empty grid moves to `(1, 0, 1)`. -/
theorem C7_MovePiece_witness :
    (sampleGame emptyGrid (samplePieceAt ⟨0, 0, 0⟩) 0).MovePiece 1 1 =
      some { sampleGame emptyGrid (samplePieceAt ⟨0, 0, 0⟩) 0 with
        m_currentPiece := { samplePieceAt ⟨0, 0, 0⟩ with
          position := ⟨(0 : Int) + 1, 0, (0 : Int) + 1⟩ } } :=
  (C7_MovePiece (sampleGame emptyGrid (samplePieceAt ⟨0, 0, 0⟩) 0) 1 1).1
    ((CheckCollision_loop_false_iff _ _ _ _ _ _).mp (by decide))

/-! ### Locking -/

theorem lockBlocks_spec (position : XMFLOAT3) (blocks : List XMFLOAT3) :
    ∀ grid : GridType,
      (∀ b ∈ blocks, inBounds (position.x + b.x) (position.y + b.y) (position.z + b.z)) →
      ∃ grid1, lockBlocks position grid blocks = some grid1 ∧
        ∀ (i : Fin GRID_WIDTH) (j : Fin GRID_HEIGHT) (k : Fin GRID_DEPTH),
          grid1 i j k = true ↔
            (grid i j k = true ∨ ∃ b ∈ blocks, (i.val : Int) = position.x + b.x ∧
              (j.val : Int) = position.y + b.y ∧ (k.val : Int) = position.z + b.z) := by
  induction blocks with
  | nil =>
    intro grid _
    exact ⟨grid, rfl, by simp⟩
  | cons b rest ih =>
    intro grid hin
    have hb := hin b (List.mem_cons_self _ _)
    have hw : gridWrite grid (position.x + b.x) (position.y + b.y) (position.z + b.z) true =
        some (fun i j k =>
          if (i.val : Int) = position.x + b.x ∧ (j.val : Int) = position.y + b.y ∧
            (k.val : Int) = position.z + b.z then true else grid i j k) := by
      unfold gridWrite
      rw [if_pos]
      unfold inBounds at hb
      simpa [GRID_WIDTH, GRID_HEIGHT, GRID_DEPTH] using hb
    obtain ⟨grid1, h1, h2⟩ := ih _ (fun c hc => hin c (List.mem_cons_of_mem _ hc))
    refine ⟨grid1, ?_, ?_⟩
    · simp only [lockBlocks, hw]
      exact h1
    · intro i j k
      rw [h2 i j k]
      simp only [List.mem_cons, exists_eq_or_imp]
      by_cases hc : (i.val : Int) = position.x + b.x ∧ (j.val : Int) = position.y + b.y ∧
          (k.val : Int) = position.z + b.z
      · simp [hc]
      · simp only [hc, if_false, false_or]

/-- C5: when all block cells of the active piece lie inside the grid, the write step of
`LockPiece` succeeds and changes only the grid; in the new grid a cell is occupied iff it
was occupied before or is one of the piece's block cells.  Holds for
`TetrisGame::LockPiece` and for `Game::LockPiece`. -/
theorem C5_LockPiece_write (s : TetrisGame) (gs : GameState) :
    ((∀ b ∈ s.m_currentPiece.blocks, inBounds (s.m_currentPiece.position.x + b.x)
        (s.m_currentPiece.position.y + b.y) (s.m_currentPiece.position.z + b.z)) →
      ∃ grid1, TetrisGame.LockPiece.write s =
          some { s with m_gameState := { s.m_gameState with grid := grid1 } } ∧
        ∀ (i : Fin GRID_WIDTH) (j : Fin GRID_HEIGHT) (k : Fin GRID_DEPTH),
          grid1 i j k = true ↔
            (s.m_gameState.grid i j k = true ∨ ∃ b ∈ s.m_currentPiece.blocks,
              (i.val : Int) = s.m_currentPiece.position.x + b.x ∧
              (j.val : Int) = s.m_currentPiece.position.y + b.y ∧
              (k.val : Int) = s.m_currentPiece.position.z + b.z)) ∧
    ((∀ b ∈ gs.currentPiece.blocks, inBounds (gs.currentPiece.position.x + b.x)
        (gs.currentPiece.position.y + b.y) (gs.currentPiece.position.z + b.z)) →
      ∃ grid1, Game.LockPiece.write gs = some { gs with grid := grid1 } ∧
        ∀ (i : Fin GRID_WIDTH) (j : Fin GRID_HEIGHT) (k : Fin GRID_DEPTH),
          grid1 i j k = true ↔
            (gs.grid i j k = true ∨ ∃ b ∈ gs.currentPiece.blocks,
              (i.val : Int) = gs.currentPiece.position.x + b.x ∧
              (j.val : Int) = gs.currentPiece.position.y + b.y ∧
              (k.val : Int) = gs.currentPiece.position.z + b.z)) := by
  constructor
  · intro hin
    obtain ⟨grid1, h1, h2⟩ := lockBlocks_spec _ _ s.m_gameState.grid hin
    exact ⟨grid1, by simp only [TetrisGame.LockPiece.write, h1], h2⟩
  · intro hin
    obtain ⟨grid1, h1, h2⟩ := lockBlocks_spec _ _ gs.grid hin
    exact ⟨grid1, by simp only [Game.LockPiece.write, h1], h2⟩

/-- Witness for C5: locking the I piece at `(1, 2, 3)` on the empty grid, in both classes. -/
theorem C5_LockPiece_write_witness :
    (∃ grid1, TetrisGame.LockPiece.write (sampleGame emptyGrid (samplePieceAt ⟨1, 2, 3⟩) 0) =
        some { sampleGame emptyGrid (samplePieceAt ⟨1, 2, 3⟩) 0 with
          m_gameState := { (sampleGame emptyGrid (samplePieceAt ⟨1, 2, 3⟩) 0).m_gameState with
            grid := grid1 } } ∧
      grid1 4 2 3 = true ∧ grid1 5 2 3 = false) ∧
    (∃ grid1, Game.LockPiece.write (sampleGameState emptyGrid (samplePieceAt ⟨1, 2, 3⟩) 0) =
        some { sampleGameState emptyGrid (samplePieceAt ⟨1, 2, 3⟩) 0 with grid := grid1 } ∧
      grid1 4 2 3 = true ∧ grid1 5 2 3 = false) := by
  have h := C5_LockPiece_write (sampleGame emptyGrid (samplePieceAt ⟨1, 2, 3⟩) 0)
    (sampleGameState emptyGrid (samplePieceAt ⟨1, 2, 3⟩) 0)
  obtain ⟨g1, e1, p1⟩ := h.1 (by decide)
  obtain ⟨g2, e2, p2⟩ := h.2 (by decide)
  refine ⟨⟨g1, e1, (p1 4 2 3).mpr (Or.inr ⟨⟨3, 0, 0⟩, by decide, by decide⟩), ?_⟩,
    ⟨g2, e2, (p2 4 2 3).mpr (Or.inr ⟨⟨3, 0, 0⟩, by decide, by decide⟩), ?_⟩⟩
  · cases hv : g1 5 2 3 with
    | false => rfl
    | true =>
      rcases (p1 5 2 3).mp hv with h0 | ⟨b, hb, hx, -, -⟩
      · exact absurd h0 (by decide)
      · exfalso; revert hx; revert b; decide
  · cases hv : g2 5 2 3 with
    | false => rfl
    | true =>
      rcases (p2 5 2 3).mp hv with h0 | ⟨b, hb, hx, -, -⟩
      · exact absurd h0 (by decide)
      · exfalso; revert hx; revert b; decide

/-! ### Rotation -/

/-- For a symmetry order `2 ≤ s ≤ 4` and a rotation index `r`, the index `(r + 1) mod s`
selects one of the four rotation matrices. -/
theorem rotation_matrix_exists (s r : Int) (hs : 1 < s) (hs4 : s ≤ 4) :
    ∃ M, PieceMechanics.ROTATION_MATRICES[((r + 1) % s).toNat]? = some M := by
  have h0 : 0 ≤ (r + 1) % s := Int.emod_nonneg _ (by omega)
  have h1 : (r + 1) % s < s := Int.emod_lt_of_pos _ (by omega)
  have hlt : ((r + 1) % s).toNat < PieceMechanics.ROTATION_MATRICES.length := by
    have : PieceMechanics.ROTATION_MATRICES.length = 4 := rfl
    omega
  exact ⟨_, List.getElem?_eq_getElem hlt⟩

/-- C9 (evaluation of the code at the failing input): on the grid whose only occupied cell
is `(0, 1, 0)`, the I piece is valid at `(0, 0, 0)`; `TryRotation` called with that
position returns the rotated piece because the kick `(1, 0, 0)` fits, but the kick is not
part of the result, and the returned blocks placed at the position that was passed in
overlap the occupied cell `(0, 1, 0)`. -/
theorem C9_TryRotation_loses_kick :
    PieceMechanics.IsValidPosition pieceI kickGrid ⟨0, 0, 0⟩ = some true ∧
    PieceMechanics.TryRotation pieceI 0 kickGrid ⟨0, 0, 0⟩ =
      some (some ⟨[⟨0,0,0⟩, ⟨0,1,0⟩, ⟨0,2,0⟩, ⟨0,3,0⟩], 2⟩) ∧
    PieceMechanics.IsValidPosition ⟨[⟨0,0,0⟩, ⟨0,1,0⟩, ⟨0,2,0⟩, ⟨0,3,0⟩], 2⟩ kickGrid
      ⟨0, 0, 0⟩ = some false ∧
    PieceMechanics.IsValidPosition ⟨[⟨0,0,0⟩, ⟨0,1,0⟩, ⟨0,2,0⟩, ⟨0,3,0⟩], 2⟩ kickGrid
      ⟨1, 0, 0⟩ = some true ∧
    kickGrid 0 1 0 = true := by
  decide

/-- C10: `TryRotation` on a piece whose `rotationSymmetry` is 1 returns nothing, for every
rotation index, grid and position; the O piece, entry 3 of `PIECE_TEMPLATES`, is such a
piece. -/
theorem C10_TryRotation_symmetry_one (piece : GameState.PieceTemplate) (r : Int)
    (grid : GridType) (position : XMFLOAT3) :
    (piece.rotationSymmetry = 1 →
      PieceMechanics.TryRotation piece r grid position = some none) ∧
    (GameState.PIECE_TEMPLATES[3]? = some piece →
      PieceMechanics.TryRotation piece r grid position = some none) := by
  have h1 : piece.rotationSymmetry = 1 →
      PieceMechanics.TryRotation piece r grid position = some none := by
    intro h
    unfold PieceMechanics.TryRotation
    rw [if_pos h]
  refine ⟨h1, ?_⟩
  intro h
  apply h1
  have hO : GameState.PIECE_TEMPLATES[3]? = some pieceO := by decide
  rw [hO] at h
  rw [← Option.some.inj h]
  rfl

/-- Witness for C10: the O piece at rotation 0 on the grid with cell `(0, 1, 0)` occupied. -/
theorem C10_TryRotation_symmetry_one_witness :
    PieceMechanics.TryRotation pieceO 0 kickGrid ⟨2, 11, 2⟩ = some none :=
  (C10_TryRotation_symmetry_one pieceO 0 kickGrid ⟨2, 11, 2⟩).1 (by decide)

/-! ### Line clearing -/

theorem layerFull_iff (l : Layer) : layerFull l = true ↔ ∀ x z, l x z = true := by
  simp [layerFull, List.all_eq_true]

theorem layerComplete_eq (grid : GridType) (y : Fin GRID_HEIGHT) :
    layerComplete grid y = layerFull (layerOf grid y) := rfl

theorem layerComplete_iff (grid : GridType) (y : Fin GRID_HEIGHT) :
    layerComplete grid y = true ↔ ∀ x z, grid x y z = true := by
  rw [layerComplete_eq, layerFull_iff]
  rfl

theorem emptyLayer_not_full : layerFull emptyLayer = false := by decide

theorem layers_length (grid : GridType) : (layers grid).length = 12 := by
  simp [layers]

theorem layers_getElem? (grid : GridType) (n : Nat) (h : n < GRID_HEIGHT) :
    (layers grid)[n]? = some (layerOf grid ⟨n, h⟩) := by
  simp [layers, List.getElem?_map, List.getElem?_eq_getElem, h]

theorem layers_getElem?_none (grid : GridType) (n : Nat) (h : GRID_HEIGHT ≤ n) :
    (layers grid)[n]? = none := by
  rw [List.getElem?_eq_none_iff, layers_length]
  exact h

theorem layers_injective (g1 g2 : GridType) (h : layers g1 = layers g2) : g1 = g2 := by
  funext x y z
  have h1 := layers_getElem? g1 y.val y.isLt
  have h2 := layers_getElem? g2 y.val y.isLt
  rw [h, h2] at h1
  have h3 := Option.some.inj h1
  exact (congrFun (congrFun h3 x) z).symm

theorem shiftLayersDown_apply (n : Nat) :
    ∀ (grid : GridType) (y2 : Nat), GRID_HEIGHT - 1 - y2 = n →
      ∀ (x : Fin GRID_WIDTH) (j : Fin GRID_HEIGHT) (z : Fin GRID_DEPTH),
        shiftLayersDown grid y2 x j z =
          if j.val < y2 then grid x j z
          else if h : j.val + 1 < GRID_HEIGHT then grid x ⟨j.val + 1, h⟩ z
          else grid x j z := by
  induction n with
  | zero =>
    intro grid y2 hn x j z
    have hy : ¬ y2 < GRID_HEIGHT - 1 := by
      simp only [GRID_HEIGHT] at hn ⊢
      omega
    rw [shiftLayersDown, dif_neg hy]
    have hj := j.isLt
    by_cases h1 : j.val < y2
    · rw [if_pos h1]
    · rw [if_neg h1, dif_neg]
      simp only [GRID_HEIGHT] at hy hj ⊢
      omega
  | succ n ih =>
    intro grid y2 hn x j z
    have hy : y2 < GRID_HEIGHT - 1 := by
      simp only [GRID_HEIGHT] at hn ⊢
      omega
    rw [shiftLayersDown, dif_pos hy]
    rw [ih (copyLayerDown grid y2 hy) (y2 + 1) (by simp only [GRID_HEIGHT] at hn ⊢; omega)]
    have hj := j.isLt
    simp only [GRID_HEIGHT] at hy hj
    by_cases h1 : j.val < y2
    · rw [if_pos (by omega), if_pos h1]
      simp only [copyLayerDown]
      rw [if_neg (by omega)]
    · rw [if_neg h1]
      by_cases h2 : j.val = y2
      · rw [if_pos (by omega), dif_pos (by simp only [GRID_HEIGHT]; omega)]
        simp only [copyLayerDown]
        rw [if_pos h2]
        simp only [h2]
      · rw [if_neg (by omega)]
        by_cases h3 : j.val + 1 < GRID_HEIGHT
        · rw [dif_pos h3, dif_pos h3]
          simp only [copyLayerDown]
          rw [if_neg (by omega)]
        · rw [dif_neg h3, dif_neg h3]
          simp only [copyLayerDown]
          rw [if_neg h2]

theorem collapse_apply (grid : GridType) (y : Nat) (hy : y < GRID_HEIGHT)
    (x : Fin GRID_WIDTH) (j : Fin GRID_HEIGHT) (z : Fin GRID_DEPTH) :
    clearTopLayer (shiftLayersDown grid y) x j z =
      if j.val < y then grid x j z
      else if h : j.val + 1 < GRID_HEIGHT then grid x ⟨j.val + 1, h⟩ z
      else false := by
  have hj := j.isLt
  simp only [GRID_HEIGHT] at hy hj
  unfold clearTopLayer
  rw [shiftLayersDown_apply _ grid y rfl]
  by_cases h1 : j.val = GRID_HEIGHT - 1
  · rw [if_pos h1, if_neg (by simp only [GRID_HEIGHT] at h1; omega),
      dif_neg (by simp only [GRID_HEIGHT] at h1 ⊢; omega)]
  · rw [if_neg h1]
    by_cases h2 : j.val < y
    · rw [if_pos h2, if_pos h2]
    · rw [if_neg h2, if_neg h2, dif_pos (by simp only [GRID_HEIGHT] at h1 ⊢; omega),
        dif_pos (by simp only [GRID_HEIGHT] at h1 ⊢; omega)]

theorem layers_split_length (grid : GridType) (pre rest : List Layer)
    (h : layers grid = pre ++ rest) : pre.length + rest.length = 12 := by
  have hl := layers_length grid
  rw [h, List.length_append] at hl
  exact hl

theorem layers_split_head (grid : GridType) (pre rest : List Layer) (l : Layer)
    (h : layers grid = pre ++ l :: rest) (hy : pre.length < GRID_HEIGHT) :
    layerOf grid ⟨pre.length, hy⟩ = l := by
  have h1 := layers_getElem? grid pre.length hy
  rw [h, List.getElem?_append_right (Nat.le_refl _)] at h1
  simp only [Nat.sub_self, List.getElem?_cons_zero] at h1
  exact (Option.some.inj h1).symm

theorem layers_collapse (grid : GridType) (pre rest : List Layer) (l : Layer)
    (h : layers grid = pre ++ l :: rest) :
    layers (clearTopLayer (shiftLayersDown grid pre.length)) = pre ++ rest ++ [emptyLayer] := by
  have hlen := layers_split_length grid pre (l :: rest) h
  simp only [List.length_cons] at hlen
  have hy : pre.length < GRID_HEIGHT := by simp only [GRID_HEIGHT]; omega
  apply List.ext_getElem?
  intro n
  by_cases hn : n < GRID_HEIGHT
  · rw [layers_getElem? _ n hn]
    have hn' : n < 12 := hn
    by_cases h1 : n < pre.length
    · have e1 : layerOf (clearTopLayer (shiftLayersDown grid pre.length)) ⟨n, hn⟩ =
          layerOf grid ⟨n, hn⟩ := by
        funext x z
        simp only [layerOf]
        rw [collapse_apply grid pre.length hy, if_pos h1]
      rw [e1, ← layers_getElem? grid n hn, h, List.append_assoc,
        List.getElem?_append_left h1, List.getElem?_append_left h1]
    · by_cases h2 : n + 1 < GRID_HEIGHT
      · have h2' : n + 1 < 12 := h2
        have e1 : layerOf (clearTopLayer (shiftLayersDown grid pre.length)) ⟨n, hn⟩ =
            layerOf grid ⟨n + 1, h2⟩ := by
          funext x z
          simp only [layerOf]
          rw [collapse_apply grid pre.length hy, if_neg h1, dif_pos h2]
        rw [e1, ← layers_getElem? grid (n + 1) h2, h, List.append_assoc,
          List.getElem?_append_right (by omega), List.getElem?_append_right (by omega),
          List.getElem?_append_left (by omega)]
        have e2 : n + 1 - pre.length = (n - pre.length) + 1 := by omega
        rw [e2, List.getElem?_cons_succ]
      · have e1 : layerOf (clearTopLayer (shiftLayersDown grid pre.length)) ⟨n, hn⟩ =
            emptyLayer := by
          funext x z
          simp only [layerOf, emptyLayer]
          rw [collapse_apply grid pre.length hy, if_neg h1, dif_neg h2]
        have h2' : ¬ n + 1 < 12 := h2
        rw [e1, List.append_assoc, List.getElem?_append_right (by omega),
          List.getElem?_append_right (by omega)]
        have e2 : n - pre.length - rest.length = 0 := by omega
        rw [e2]
        rfl
  · have hn' : ¬ n < 12 := hn
    rw [layers_getElem?_none _ n (by simp only [GRID_HEIGHT]; omega)]
    symm
    rw [List.getElem?_eq_none_iff]
    simp only [List.length_append, List.length_cons, List.length_nil]
    omega

/-- Behaviour of the layer scan started at height `pre.length`, where `pre` are the layers
below and `rest` the layers from that height upwards: with enough fuel it returns the grid
whose layers are `pre`, then the non-full layers of `rest` in order, then one empty layer
per full layer of `rest`; the line counter grows by the number of full layers of `rest`
and the loop body runs `rest.length` plus that number of times. -/
theorem CheckLines_scan_spec (fuel : Nat) :
    ∀ (grid : GridType) (pre rest : List Layer) (linesCleared : Int) (iters : Nat),
      layers grid = pre ++ rest →
      rest.length + rest.countP layerFull ≤ fuel →
      ∃ grid1, TetrisGame.CheckLines.scan fuel grid pre.length linesCleared iters =
          some (grid1, linesCleared + (rest.countP layerFull : Nat),
            iters + (rest.length + rest.countP layerFull)) ∧
        layers grid1 = pre ++ rest.filter (fun l => !layerFull l) ++
          List.replicate (rest.countP layerFull) emptyLayer := by
  induction fuel with
  | zero =>
    intro grid pre rest linesCleared iters h hfuel
    have hrest : rest = [] := by
      cases rest with
      | nil => rfl
      | cons l r => simp at hfuel
    subst hrest
    have hlen := layers_split_length grid pre [] h
    refine ⟨grid, ?_, ?_⟩
    · unfold TetrisGame.CheckLines.scan
      rw [dif_neg (by simp only [GRID_HEIGHT]; simp at hlen; omega)]
      simp
    · simpa using h
  | succ fuel ih =>
    intro grid pre rest linesCleared iters h hfuel
    cases rest with
    | nil =>
      have hlen := layers_split_length grid pre [] h
      refine ⟨grid, ?_, ?_⟩
      · unfold TetrisGame.CheckLines.scan
        rw [dif_neg (by simp only [GRID_HEIGHT]; simp at hlen; omega)]
        simp
      · simpa using h
    | cons l rest =>
      have hlen := layers_split_length grid pre (l :: rest) h
      simp only [List.length_cons] at hlen
      have hy : pre.length < GRID_HEIGHT := by simp only [GRID_HEIGHT]; omega
      have hhead := layers_split_head grid pre rest l h hy
      unfold TetrisGame.CheckLines.scan
      rw [dif_pos hy]
      simp only [layerComplete_eq, hhead]
      by_cases hfull : layerFull l = true
      · rw [if_pos hfull]
        have hc := layers_collapse grid pre rest l h
        rw [List.append_assoc] at hc
        have hcount : (rest ++ [emptyLayer]).countP layerFull = rest.countP layerFull := by
          simp [List.countP_append, List.countP_cons, emptyLayer_not_full]
        have hcount' : (l :: rest).countP layerFull = rest.countP layerFull + 1 := by
          simp [List.countP_cons, hfull]
        obtain ⟨grid1, hr, hl⟩ := ih _ pre (rest ++ [emptyLayer]) (linesCleared + 1)
          (iters + 1) hc (by
            rw [hcount]
            simp only [List.length_append, List.length_cons, List.length_nil]
            rw [hcount'] at hfuel
            simp only [List.length_cons] at hfuel
            omega)
        refine ⟨grid1, ?_, ?_⟩
        · rw [hr, hcount, hcount']
          simp only [List.length_append, List.length_cons, List.length_nil,
            Option.some.injEq, Prod.mk.injEq, true_and]
          constructor
          · push_cast; ring
          · omega
        · rw [hl, hcount, hcount']
          simp only [List.filter_append, List.filter_cons, hfull, emptyLayer_not_full,
            Bool.not_true, Bool.not_false, Bool.false_eq_true, if_false, if_true,
            List.filter_nil, List.replicate_succ, List.append_assoc, List.singleton_append]
      · have hfull' : layerFull l = false := by simpa using hfull
        rw [if_neg hfull]
        have hcount' : (l :: rest).countP layerFull = rest.countP layerFull := by
          simp [List.countP_cons, hfull']
        have hsplit : layers grid = (pre ++ [l]) ++ rest := by
          rw [h]; simp
        have hplen : (pre ++ [l]).length = pre.length + 1 := by simp
        obtain ⟨grid1, hr, hl⟩ := ih grid (pre ++ [l]) rest linesCleared (iters + 1) hsplit
          (by
            rw [hcount'] at hfuel
            simp only [List.length_cons] at hfuel
            omega)
        rw [hplen] at hr
        refine ⟨grid1, ?_, ?_⟩
        · rw [hr, hcount']
          simp only [List.length_cons, Option.some.injEq, Prod.mk.injEq, true_and]
          omega
        · rw [hl, hcount']
          simp only [List.filter_cons, hfull', Bool.not_false, if_true, List.append_assoc,
            List.singleton_append]

theorem layers_split_mem_pre (grid : GridType) (pre rest : List Layer) (a : Layer)
    (h : layers grid = pre ++ rest) (ha : a ∈ pre) :
    ∃ y : Fin GRID_HEIGHT, y.val < pre.length ∧ a = layerOf grid y := by
  obtain ⟨n, hn, hget⟩ := List.mem_iff_getElem.mp ha
  have hlen := layers_split_length grid pre rest h
  have hn12 : n < GRID_HEIGHT := by simp only [GRID_HEIGHT]; omega
  refine ⟨⟨n, hn12⟩, hn, ?_⟩
  have h1 := layers_getElem? grid n hn12
  rw [h, List.getElem?_append_left hn, List.getElem?_eq_getElem hn, hget] at h1
  exact Option.some.inj h1

theorem layers_split_mem_rest (grid : GridType) (pre rest : List Layer) (a : Layer)
    (h : layers grid = pre ++ rest) (ha : a ∈ rest) :
    ∃ y : Fin GRID_HEIGHT, pre.length ≤ y.val ∧ a = layerOf grid y := by
  obtain ⟨n, hn, hget⟩ := List.mem_iff_getElem.mp ha
  have hlen := layers_split_length grid pre rest h
  have hn12 : pre.length + n < GRID_HEIGHT := by simp only [GRID_HEIGHT]; omega
  refine ⟨⟨pre.length + n, hn12⟩, Nat.le_add_right _ _, ?_⟩
  have h1 := layers_getElem? grid (pre.length + n) hn12
  rw [h, List.getElem?_append_right (Nat.le_add_right _ _), Nat.add_sub_cancel_left,
    List.getElem?_eq_getElem hn, hget] at h1
  exact Option.some.inj h1

theorem fullLayerCount_le (grid : GridType) : fullLayerCount grid ≤ 12 := by
  unfold fullLayerCount
  calc (layers grid).countP layerFull ≤ (layers grid).length := List.countP_le_length _
    _ = 12 := layers_length grid

theorem fullLayerCount_eq_filter (grid : GridType) :
    fullLayerCount grid =
      ((List.finRange GRID_HEIGHT).filter (fun y => layerComplete grid y)).length := by
  unfold fullLayerCount layers
  rw [List.countP_map, List.countP_eq_length_filter]
  rfl

/-- The scan of a whole grid: with fuel at least 24 it returns the grid made of the
non-full layers in order, followed by empty layers; the counter is the number of full
layers `k` and the loop body runs `12 + k` times. -/
theorem CheckLines_scan_full (grid : GridType) (fuel : Nat) (hfuel : 24 ≤ fuel) :
    ∃ grid1, TetrisGame.CheckLines.scan fuel grid 0 0 0 =
        some (grid1, (fullLayerCount grid : Int), 12 + fullLayerCount grid) ∧
      layers grid1 = (layers grid).filter (fun l => !layerFull l) ++
        List.replicate (fullLayerCount grid) emptyLayer := by
  have hk := fullLayerCount_le grid
  have hlen := layers_length grid
  obtain ⟨grid1, hr, hl⟩ := CheckLines_scan_spec fuel grid [] (layers grid) 0 0 rfl
    (by unfold fullLayerCount at hk; omega)
  refine ⟨grid1, ?_, ?_⟩
  · simp only [List.length_nil] at hr
    rw [hr, hlen]
    simp [fullLayerCount]
  · rw [hl]
    simp [fullLayerCount]

/-- The grid left by the scan when exactly one layer `y0` is full is the collapse at `y0`. -/
theorem layers_one_full (grid : GridType) (y0 : Fin GRID_HEIGHT)
    (hone : ∀ y, layerComplete grid y = true ↔ y = y0) :
    (layers grid).filter (fun l => !layerFull l) ++
        List.replicate (fullLayerCount grid) emptyLayer =
      layers (clearTopLayer (shiftLayersDown grid y0.val)) := by
  have hlen := layers_length grid
  have hy0 : y0.val < (layers grid).length := by rw [hlen]; exact y0.isLt
  have hsplit : layers grid = (layers grid).take y0.val ++
      (layers grid)[y0.val] :: (layers grid).drop (y0.val + 1) := by
    rw [← List.drop_eq_getElem_cons hy0, List.take_append_drop]
  have hprelen : ((layers grid).take y0.val).length = y0.val := by
    rw [List.length_take]; omega
  generalize hpre : (layers grid).take y0.val = pre at hsplit hprelen
  generalize hpost : (layers grid).drop (y0.val + 1) = post at hsplit
  generalize hl : (layers grid)[y0.val] = l at hsplit
  have hhead : layerOf grid ⟨pre.length, by rw [hprelen]; exact y0.isLt⟩ = l :=
    layers_split_head grid pre post l hsplit _
  have hlfull : layerFull l = true := by
    rw [← hhead, ← layerComplete_eq, hone]
    exact Fin.ext hprelen
  have hprefull : ∀ a ∈ pre, (!layerFull a) = true := by
    intro a ha
    obtain ⟨y, hy, rfl⟩ := layers_split_mem_pre grid pre (l :: post) a hsplit ha
    have hne : ¬ layerComplete grid y = true := by
      rw [hone]
      intro he
      rw [he] at hy
      omega
    rw [layerComplete_eq] at hne
    simpa using hne
  have hpostfull : ∀ a ∈ post, (!layerFull a) = true := by
    intro a ha
    have hsplit' : layers grid = (pre ++ [l]) ++ post := by rw [hsplit]; simp
    obtain ⟨y, hy, rfl⟩ := layers_split_mem_rest grid (pre ++ [l]) post a hsplit' ha
    have hne : ¬ layerComplete grid y = true := by
      rw [hone]
      intro he
      rw [he] at hy
      simp at hy
      omega
    rw [layerComplete_eq] at hne
    simpa using hne
  have hc := layers_collapse grid pre post l hsplit
  rw [hprelen] at hc
  rw [hc]
  have hcount : fullLayerCount grid = 1 := by
    unfold fullLayerCount
    rw [hsplit, List.countP_append, List.countP_cons, if_pos hlfull]
    have h1 : pre.countP layerFull = 0 := by
      rw [List.countP_eq_zero]
      intro a ha
      simpa using hprefull a ha
    have h2 : post.countP layerFull = 0 := by
      rw [List.countP_eq_zero]
      intro a ha
      simpa using hpostfull a ha
    rw [h1, h2]
  rw [hcount, hsplit, List.filter_append, List.filter_cons, List.filter_eq_self.mpr hprefull,
    List.filter_eq_self.mpr hpostfull]
  simp [hlfull]

/-- C1: for every 6x12x6 grid the layer scan of `TetrisGame::CheckLines` (run with fuel at
least 24) returns, and leaves exactly the non-full layers in their original bottom-to-top
order at the bottom of the grid, followed by empty layers.  If exactly one layer `y0` is
full, the layers below `y0` are unchanged, each layer `y` with `y0 ≤ y < 11` becomes the
old layer `y + 1`, and layer 11 is empty. -/
theorem C1_CheckLines_compacts_layers (grid : GridType) (fuel : Nat) (hfuel : 24 ≤ fuel) :
    ∃ grid1 n iters, TetrisGame.CheckLines.scan fuel grid 0 0 0 = some (grid1, n, iters) ∧
      layers grid1 = (layers grid).filter (fun l => !layerFull l) ++
        List.replicate (fullLayerCount grid) emptyLayer ∧
      ∀ y0 : Fin GRID_HEIGHT, (∀ y, layerComplete grid y = true ↔ y = y0) →
        ∀ (x : Fin GRID_WIDTH) (y : Fin GRID_HEIGHT) (z : Fin GRID_DEPTH),
          grid1 x y z =
            if y.val < y0.val then grid x y z
            else if h : y.val + 1 < GRID_HEIGHT then grid x ⟨y.val + 1, h⟩ z
            else false := by
  obtain ⟨grid1, hr, hl⟩ := CheckLines_scan_full grid fuel hfuel
  refine ⟨grid1, _, _, hr, hl, ?_⟩
  intro y0 hone x y z
  have heq : grid1 = clearTopLayer (shiftLayersDown grid y0.val) := by
    apply layers_injective
    rw [hl]
    exact layers_one_full grid y0 hone
  rw [heq]
  exact collapse_apply grid y0.val y0.isLt x y z

/-- `CheckLines` on a grid without a full layer changes nothing. -/
theorem CheckLines_no_full_layer (s : TetrisGame) (fuel : Nat) (hfuel : 24 ≤ fuel)
    (hk : fullLayerCount s.m_gameState.grid = 0) : s.CheckLines fuel = some s := by
  obtain ⟨grid1, hr, hl⟩ := CheckLines_scan_full s.m_gameState.grid fuel hfuel
  have hgrid : grid1 = s.m_gameState.grid := by
    apply layers_injective
    rw [hl, hk]
    have hall : ∀ a ∈ layers s.m_gameState.grid, (!layerFull a) = true := by
      unfold fullLayerCount at hk
      rw [List.countP_eq_zero] at hk
      intro a ha
      simpa using hk a ha
    rw [List.filter_eq_self.mpr hall]
    simp
  unfold TetrisGame.CheckLines
  rw [hr, hk, hgrid]
  simp

/-- `CheckLines` on a grid with `k > 0` full layers, when `SCORES[k - 1]` exists: the
resulting state, field by field. -/
theorem CheckLines_some_full_layer (s : TetrisGame) (fuel : Nat) (hfuel : 24 ≤ fuel)
    (t : Int) (hpos : 0 < fullLayerCount s.m_gameState.grid)
    (ht : tableAt TetrisGame.SCORES ((fullLayerCount s.m_gameState.grid : Int) - 1) =
      some t) :
    ∃ grid1,
      layers grid1 = (layers s.m_gameState.grid).filter (fun l => !layerFull l) ++
        List.replicate (fullLayerCount s.m_gameState.grid) emptyLayer ∧
      s.CheckLines fuel = some
        { m_gameState :=
            { grid := grid1
              currentPiece := s.m_gameState.currentPiece
              score := addInt32 s.m_gameState.score
                (mulInt32 t (addInt32 s.m_gameState.level 1))
              level := Int.tdiv
                (addInt32 s.m_gameState.linesCleared (fullLayerCount s.m_gameState.grid)) 10
              linesCleared :=
                addInt32 s.m_gameState.linesCleared (fullLayerCount s.m_gameState.grid)
              isGameOver := s.m_gameState.isGameOver
              dropTimer := s.m_gameState.dropTimer
              dropInterval := max (1 / 10 : ℚ)
                (1 - ((Int.tdiv (addInt32 s.m_gameState.linesCleared
                  (fullLayerCount s.m_gameState.grid)) 10 : Int) : ℚ) * (1 / 10)) }
          m_currentPiece := s.m_currentPiece
          m_nextPiece := s.m_nextPiece
          m_isInitialized := s.m_isInitialized
          m_previousLevel := s.m_gameState.level } := by
  obtain ⟨grid1, hr, hl⟩ := CheckLines_scan_full s.m_gameState.grid fuel hfuel
  refine ⟨grid1, hl, ?_⟩
  have hpos' : (fullLayerCount s.m_gameState.grid : Int) > 0 := by exact_mod_cast hpos
  unfold TetrisGame.CheckLines
  rw [hr]
  simp only [if_pos hpos', TetrisGame.CalculateScore, ht]

/-- The score-table entry for `k` cleared layers, `1 ≤ k ≤ 4`. -/
theorem tableAt_SCORES_exists (k : Nat) (h1 : 1 ≤ k) (h4 : k ≤ 4) :
    ∃ t, ([100, 300, 500, 800] : List Int)[k - 1]? = some t ∧
      tableAt TetrisGame.SCORES ((k : Int) - 1) = some t := by
  have hcases : k = 1 ∨ k = 2 ∨ k = 3 ∨ k = 4 := by omega
  rcases hcases with h | h | h | h <;> subst h <;> simp [tableAt, TetrisGame.SCORES]

/-- C2 (counterexample): a session with `linesCleared = 2147483647` and one full layer:
`CheckLines` returns with `linesCleared = -2147483648`, not `2147483647 + 1`. -/
theorem C2_CheckLines_lines_overflow :
    fullLayerCount gridOneFull = 1 ∧
    ∃ s', (sessionGame gridOneFull 0 0 2147483647).CheckLines 24 = some s' ∧
      s'.m_gameState.linesCleared = -2147483648 ∧
      s'.m_gameState.linesCleared ≠
        (sessionGame gridOneFull 0 0 2147483647).m_gameState.linesCleared + 1 := by
  have hk : fullLayerCount (sessionGame gridOneFull 0 0 2147483647).m_gameState.grid = 1 := by
    decide
  refine ⟨hk, ?_⟩
  obtain ⟨grid1, -, hr⟩ := CheckLines_some_full_layer
    (sessionGame gridOneFull 0 0 2147483647) 24 (by decide) 100 (by rw [hk]; decide)
    (by rw [hk]; decide)
  rw [hk] at hr
  refine ⟨_, hr, ?_, ?_⟩
  · show addInt32 (2147483647 : Int) ((1 : Nat) : Int) = -2147483648
    decide
  · show addInt32 (2147483647 : Int) ((1 : Nat) : Int) ≠ 2147483647 + 1
    decide

/-- C2 (amended): for a grid with at most 4 full layers, `TetrisGame::CheckLines` (fuel at
least 24) returns and sets `linesCleared` to the old value plus the number `k` of layers
that were full in the input grid, reduced to the 32-bit `int` range; this is exactly
`linesCleared + k` whenever that sum is a value of `int`, in particular whenever
`0 ≤ linesCleared ≤ 2147483643`; when no layer is full the whole state, in particular
`score`, `level`, `linesCleared` and `dropInterval`, is unchanged. -/
theorem C2_CheckLines_counts_full_layers (s : TetrisGame) (fuel : Nat) (hfuel : 24 ≤ fuel)
    (hk : fullLayerCount s.m_gameState.grid ≤ 4) :
    ∃ s', s.CheckLines fuel = some s' ∧
      (1 ≤ fullLayerCount s.m_gameState.grid →
        s'.m_gameState.linesCleared =
          wrapInt32 (s.m_gameState.linesCleared + fullLayerCount s.m_gameState.grid)) ∧
      (fitsInt32 (s.m_gameState.linesCleared + fullLayerCount s.m_gameState.grid) →
        s'.m_gameState.linesCleared =
          s.m_gameState.linesCleared + fullLayerCount s.m_gameState.grid) ∧
      (0 ≤ s.m_gameState.linesCleared → s.m_gameState.linesCleared ≤ 2147483643 →
        s'.m_gameState.linesCleared =
          s.m_gameState.linesCleared + fullLayerCount s.m_gameState.grid) ∧
      (fullLayerCount s.m_gameState.grid = 0 →
        s'.m_gameState.score = s.m_gameState.score ∧
        s'.m_gameState.level = s.m_gameState.level ∧
        s'.m_gameState.linesCleared = s.m_gameState.linesCleared ∧
        s'.m_gameState.dropInterval = s.m_gameState.dropInterval ∧
        s' = s) := by
  by_cases h0 : fullLayerCount s.m_gameState.grid = 0
  · refine ⟨s, CheckLines_no_full_layer s fuel hfuel h0, ?_, ?_, ?_, ?_⟩
    · intro h1
      omega
    · intro _
      rw [h0]; simp
    · intro _ _
      rw [h0]; simp
    · intro _
      exact ⟨rfl, rfl, rfl, rfl, rfl⟩
  · have hpos : 0 < fullLayerCount s.m_gameState.grid := Nat.pos_of_ne_zero h0
    obtain ⟨t, -, ht⟩ := tableAt_SCORES_exists _ hpos hk
    obtain ⟨grid1, -, hr⟩ := CheckLines_some_full_layer s fuel hfuel t hpos ht
    refine ⟨_, hr, fun _ => rfl, ?_, ?_, ?_⟩
    · intro hfit
      exact wrapInt32_of_fits _ hfit
    · intro hl0 hl1
      exact wrapInt32_of_fits _ ⟨by omega, by omega⟩
    · intro h
      exact absurd h h0

/-- C4 (counterexample): a session with score 0 at level 2684355 (`linesCleared` 26843550)
clears four layers: `CheckLines` returns with score `-2147482496`, not
`0 + 800 * (2684355 + 1) = 2147484800`, which the 32-bit `int` score cannot hold. -/
theorem C4_CheckLines_score_overflow :
    fullLayerCount gridFourFull = 4 ∧
    ∃ s', (sessionGame gridFourFull 0 2684355 26843550).CheckLines 24 = some s' ∧
      s'.m_gameState.score = -2147482496 ∧
      s'.m_gameState.score ≠
        (sessionGame gridFourFull 0 2684355 26843550).m_gameState.score +
          800 * ((sessionGame gridFourFull 0 2684355 26843550).m_gameState.level + 1) := by
  have hk : fullLayerCount (sessionGame gridFourFull 0 2684355 26843550).m_gameState.grid =
      4 := by
    decide
  refine ⟨hk, ?_⟩
  obtain ⟨grid1, -, hr⟩ := CheckLines_some_full_layer
    (sessionGame gridFourFull 0 2684355 26843550) 24 (by decide) 800 (by rw [hk]; decide)
    (by rw [hk]; decide)
  refine ⟨_, hr, ?_, ?_⟩
  · show addInt32 (0 : Int) (mulInt32 800 (addInt32 2684355 1)) = -2147482496
    decide
  · show addInt32 (0 : Int) (mulInt32 800 (addInt32 2684355 1)) ≠ 0 + 800 * (2684355 + 1)
    decide

/-- C4 (amended): when `TetrisGame::CheckLines` clears `n` layers, `1 ≤ n ≤ 4`, from a
session `(score, level, linesCleared)`, the new session has `linesCleared + n` lines and
score `score + T[n-1] * (level + 1)` with the level held before the clear, each reduced to
the 32-bit `int` range, hence exactly these values whenever they are values of `int`; the
new level is `linesCleared' / 10` by (truncating) integer division, which is the floor
division for non-negative `linesCleared'`. -/
theorem C4_CheckLines_score_then_level (s : TetrisGame) (fuel : Nat) (n : Nat)
    (hfuel : 24 ≤ fuel) (hn : fullLayerCount s.m_gameState.grid = n)
    (hn1 : 1 ≤ n) (hn4 : n ≤ 4) :
    ∃ s' t, s.CheckLines fuel = some s' ∧
      ([100, 300, 500, 800] : List Int)[n - 1]? = some t ∧
      s'.m_gameState.linesCleared = wrapInt32 (s.m_gameState.linesCleared + n) ∧
      s'.m_gameState.score =
        wrapInt32 (s.m_gameState.score + t * (s.m_gameState.level + 1)) ∧
      (fitsInt32 (s.m_gameState.linesCleared + n) →
        s'.m_gameState.linesCleared = s.m_gameState.linesCleared + n) ∧
      (fitsInt32 (s.m_gameState.score + t * (s.m_gameState.level + 1)) →
        s'.m_gameState.score = s.m_gameState.score + t * (s.m_gameState.level + 1)) ∧
      s'.m_gameState.level = Int.tdiv s'.m_gameState.linesCleared 10 ∧
      (0 ≤ s'.m_gameState.linesCleared →
        s'.m_gameState.level = s'.m_gameState.linesCleared / 10) := by
  obtain ⟨t, ht1, ht2⟩ := tableAt_SCORES_exists n hn1 hn4
  obtain ⟨grid1, -, hr⟩ := CheckLines_some_full_layer s fuel hfuel t (by omega)
    (by rw [hn]; exact ht2)
  rw [hn] at hr
  refine ⟨_, t, hr, ht1, rfl, addInt32_mulInt32 _ _ _, ?_, ?_, rfl, ?_⟩
  · intro hfit
    exact wrapInt32_of_fits _ hfit
  · intro hfit
    show addInt32 _ _ = _
    rw [addInt32_mulInt32]
    exact wrapInt32_of_fits _ hfit
  · intro hnn
    exact Int.tdiv_eq_ediv hnn (by decide)

/-- Witness for C1: layer 3 full and the cell `(0, 4, 0)` occupied; after the scan the
cell has moved down to `(0, 3, 0)` and layers 4 and 11 are empty there. -/
theorem C1_CheckLines_compacts_layers_witness :
    ∃ grid1 n iters,
      TetrisGame.CheckLines.scan 24 gridOneFull 0 0 0 = some (grid1, n, iters) ∧
      grid1 0 3 0 = true ∧ grid1 1 3 0 = false ∧ grid1 0 4 0 = false ∧
      grid1 0 11 0 = false ∧ grid1 0 2 0 = false := by
  obtain ⟨grid1, n, iters, hr, -, hone⟩ :=
    C1_CheckLines_compacts_layers gridOneFull 24 (by decide)
  have h := hone 3 (by decide)
  refine ⟨grid1, n, iters, hr, ?_, ?_, ?_, ?_, ?_⟩
  · rw [h 0 3 0]; decide
  · rw [h 1 3 0]; decide
  · rw [h 0 4 0]; decide
  · rw [h 0 11 0]; decide
  · rw [h 0 2 0]; decide

/-- Witness for C2: four simultaneously full, non-adjacent layers (0, 2, 5, 7) add 4 to
`linesCleared`. -/
theorem C2_CheckLines_counts_full_layers_witness :
    ∃ s', (sampleGame
        (gridWithFullLayers fun y => decide (y.val = 0 ∨ y.val = 2 ∨ y.val = 5 ∨ y.val = 7))
        (samplePieceAt ⟨2, 11, 2⟩) 0).CheckLines 24 = some s' ∧
      s'.m_gameState.linesCleared = 4 := by
  obtain ⟨s', hr, -, hl, -⟩ := C2_CheckLines_counts_full_layers
    (sampleGame
      (gridWithFullLayers fun y => decide (y.val = 0 ∨ y.val = 2 ∨ y.val = 5 ∨ y.val = 7))
      (samplePieceAt ⟨2, 11, 2⟩) 0) 24 (by decide) (by decide)
  refine ⟨s', hr, ?_⟩
  rw [hl (by decide)]
  decide

/-- Witness for C4: one full layer cleared by a session at level 2 with score 0 and no
line counted yet: the score grows by `100 * 3`, `linesCleared` becomes 1 and the level
becomes `1 / 10 = 0`. -/
theorem C4_CheckLines_score_then_level_witness :
    ∃ s', (sampleGame gridOneFull (samplePieceAt ⟨2, 11, 2⟩) 2).CheckLines 24 = some s' ∧
      s'.m_gameState.linesCleared = 1 ∧ s'.m_gameState.score = 300 ∧
      s'.m_gameState.level = 0 := by
  obtain ⟨s', t, hr, ht, -, -, hl, hs, hlv, -⟩ := C4_CheckLines_score_then_level
    (sampleGame gridOneFull (samplePieceAt ⟨2, 11, 2⟩) 2) 24 1 (by decide) (by decide)
    (by decide) (by decide)
  have ht' : t = 100 := by
    have h100 : ([100, 300, 500, 800] : List Int)[1 - 1]? = some 100 := by decide
    rw [h100] at ht
    exact (Option.some.inj ht).symm
  subst ht'
  have hl' : s'.m_gameState.linesCleared = 1 := by rw [hl (by decide)]; decide
  refine ⟨s', hr, hl', ?_, ?_⟩
  · rw [hs (by decide)]; decide
  · rw [hlv, hl']; decide

/-! ### Drop pacing -/

/-- C20: for every level `L ≥ 0`, `GameState::CalculateDropInterval` returns
`max(0.1, 1.0 - 0.1 * L)` (exact rationals); the result lies in `[0.1, 1.0]`, is
non-increasing in the level, equals `0.1` for `L ≥ 9`; and after a clear of 1 to 4 layers
`TetrisGame::CheckLines` stores exactly this value, for the new level, in `dropInterval`. -/
theorem C20_CalculateDropInterval (gs : GameState) (hL : 0 ≤ gs.level) :
    gs.CalculateDropInterval = max (1 / 10 : ℚ) (1 - (1 / 10 : ℚ) * (gs.level : ℚ)) ∧
    (1 / 10 : ℚ) ≤ gs.CalculateDropInterval ∧
    gs.CalculateDropInterval ≤ 1 ∧
    (9 ≤ gs.level → gs.CalculateDropInterval = 1 / 10) ∧
    (∀ gs2 : GameState, gs.level ≤ gs2.level →
      gs2.CalculateDropInterval ≤ gs.CalculateDropInterval) ∧
    (∀ (s : TetrisGame) (fuel : Nat), 24 ≤ fuel →
      1 ≤ fullLayerCount s.m_gameState.grid → fullLayerCount s.m_gameState.grid ≤ 4 →
      ∃ s', s.CheckLines fuel = some s' ∧
        s'.m_gameState.dropInterval = s'.m_gameState.CalculateDropInterval) := by
  have hLq : (0 : ℚ) ≤ (gs.level : ℚ) := by exact_mod_cast hL
  have hdef : ∀ g : GameState, g.CalculateDropInterval =
      max (1 / 10 : ℚ) (1 - (1 / 10 : ℚ) * (g.level : ℚ)) := by
    intro g
    simp only [GameState.CalculateDropInterval, GameState.MIN_DROP_INTERVAL,
      GameState.INITIAL_DROP_INTERVAL, GameState.DROP_SPEED_INCREASE]
    rw [mul_comm]
  refine ⟨hdef gs, ?_, ?_, ?_, ?_, ?_⟩
  · rw [hdef]
    exact le_max_left _ _
  · rw [hdef]
    apply max_le
    · norm_num
    · linarith
  · intro h9
    have h9q : (9 : ℚ) ≤ (gs.level : ℚ) := by exact_mod_cast h9
    rw [hdef]
    apply max_eq_left
    linarith
  · intro gs2 hle
    have hleq : (gs.level : ℚ) ≤ (gs2.level : ℚ) := by exact_mod_cast hle
    rw [hdef, hdef]
    apply max_le_max (le_refl _)
    linarith
  · intro s fuel hfuel h1 h4
    have ht : ∃ t, tableAt TetrisGame.SCORES
        ((fullLayerCount s.m_gameState.grid : Int) - 1) = some t := by
      have hcases : fullLayerCount s.m_gameState.grid = 1 ∨
          fullLayerCount s.m_gameState.grid = 2 ∨ fullLayerCount s.m_gameState.grid = 3 ∨
          fullLayerCount s.m_gameState.grid = 4 := by omega
      rcases hcases with h | h | h | h <;> rw [h] <;>
        simp [tableAt, TetrisGame.SCORES]
    obtain ⟨t, ht⟩ := ht
    obtain ⟨grid1, -, hr⟩ := CheckLines_some_full_layer s fuel hfuel t (by omega) ht
    refine ⟨_, hr, ?_⟩
    simp only [GameState.CalculateDropInterval, GameState.MIN_DROP_INTERVAL,
      GameState.INITIAL_DROP_INTERVAL, GameState.DROP_SPEED_INCREASE]

/-- Witness for C20: level 3 gives the interval `7 / 10`. -/
theorem C20_CalculateDropInterval_witness :
    (sampleGameState emptyGrid (samplePieceAt ⟨2, 11, 2⟩) 3).CalculateDropInterval =
      max (1 / 10 : ℚ) (1 - (1 / 10 : ℚ) * (((3 : Int)) : ℚ)) :=
  (C20_CalculateDropInterval (sampleGameState emptyGrid (samplePieceAt ⟨2, 11, 2⟩) 3)
    (by decide)).1

/-! ### Spawning and resetting -/

/-- C17: `TetrisGame::SpawnNewPiece` returns; the previous next piece becomes the active
piece; `isGameOver` is set to `true` exactly when `CheckCollision(0, 0, 0)` reports a
collision for that piece, and keeps its previous value otherwise; the grid, `score`,
`level` and `linesCleared` are not modified; the new next piece sits at the spawn location
`(2, 11, 2)` with the blocks of the drawn catalog entry. -/
theorem C17_SpawnNewPiece (s : TetrisGame) (pieceIndex : Fin TetrisGame.PIECES.length) :
    ∃ s', s.SpawnNewPiece pieceIndex = some s' ∧
      s'.m_currentPiece = s.m_nextPiece ∧
      (s.CheckCollision 0 0 0 s.m_nextPiece = some true ∨
        s.CheckCollision 0 0 0 s.m_nextPiece = some false) ∧
      (s.CheckCollision 0 0 0 s.m_nextPiece = some true →
        s'.m_gameState.isGameOver = true) ∧
      (s.CheckCollision 0 0 0 s.m_nextPiece = some false →
        s'.m_gameState.isGameOver = s.m_gameState.isGameOver) ∧
      s'.m_gameState.grid = s.m_gameState.grid ∧
      s'.m_gameState.score = s.m_gameState.score ∧
      s'.m_gameState.level = s.m_gameState.level ∧
      s'.m_gameState.linesCleared = s.m_gameState.linesCleared ∧
      s'.m_nextPiece.position = ⟨2, 11, 2⟩ ∧
      s'.m_nextPiece.blocks = TetrisGame.PIECES.get pieceIndex := by
  have hne := CheckCollision_loop_ne_none s.m_gameState.grid 0 0 0 s.m_nextPiece.position
    s.m_nextPiece.blocks
  have hpos : spawnPosition = ⟨2, 11, 2⟩ := by decide
  cases hc : TetrisGame.CheckCollision.loop s.m_gameState.grid 0 0 0 s.m_nextPiece.position
      s.m_nextPiece.blocks with
  | none => exact absurd hc hne
  | some v =>
    cases v
    · have hr : s.SpawnNewPiece pieceIndex = some
          { s with
            m_currentPiece := s.m_nextPiece
            m_nextPiece := { s.m_nextPiece with
              blocks := TetrisGame.PIECES.get pieceIndex
              color := TetrisGame.COLORS.get ⟨pieceIndex.val,
                Nat.lt_of_lt_of_le pieceIndex.isLt (by decide)⟩
              position := spawnPosition } } := by
        simp only [TetrisGame.SpawnNewPiece, TetrisGame.CheckCollision, hc]
      refine ⟨_, hr, rfl, Or.inr hc, ?_, ?_, rfl, rfl, rfl, rfl, hpos, rfl⟩
      · intro h
        unfold TetrisGame.CheckCollision at h
        rw [hc] at h
        cases h
      · intro _
        rfl
    · have hr : s.SpawnNewPiece pieceIndex = some
          { s with
            m_gameState := { s.m_gameState with isGameOver := true }
            m_currentPiece := s.m_nextPiece
            m_nextPiece := { s.m_nextPiece with
              blocks := TetrisGame.PIECES.get pieceIndex
              color := TetrisGame.COLORS.get ⟨pieceIndex.val,
                Nat.lt_of_lt_of_le pieceIndex.isLt (by decide)⟩
              position := spawnPosition } } := by
        simp only [TetrisGame.SpawnNewPiece, TetrisGame.CheckCollision, hc]
      refine ⟨_, hr, rfl, Or.inl hc, ?_, ?_, rfl, rfl, rfl, rfl, hpos, rfl⟩
      · intro _
        rfl
      · intro h
        unfold TetrisGame.CheckCollision at h
        rw [hc] at h
        cases h

/-- Witness for C17: the next piece is the I piece at `(3, 11, 2)`, whose last block is at
`x = 6`; spawning it reports a collision and sets `isGameOver`. -/
theorem C17_SpawnNewPiece_witness :
    ∃ s', (sampleGame emptyGrid (samplePieceAt ⟨3, 11, 2⟩) 0).SpawnNewPiece ⟨1, by decide⟩ =
        some s' ∧
      s'.m_currentPiece = samplePieceAt ⟨3, 11, 2⟩ ∧ s'.m_gameState.isGameOver = true := by
  obtain ⟨s', hr, hcur, -, hover, -⟩ :=
    C17_SpawnNewPiece (sampleGame emptyGrid (samplePieceAt ⟨3, 11, 2⟩) 0) ⟨1, by decide⟩
  exact ⟨s', hr, hcur, hover (by decide)⟩

/-- C18 (evaluation of the code at the failing input): `ResetGame` with first draw 1 (the
L piece) returns a state whose counters are 0 and whose grid cell `(2, 11, 2)` is empty,
but whose `isGameOver` flag is `true`: the L piece placed at the spawn location
`(2, 11, 2)` has its block `(2, 1, 0)` at height 12, which `CheckCollision` rejects. -/
theorem C18_ResetGame_sets_game_over :
    ∃ s', (sampleGame emptyGrid (samplePieceAt ⟨2, 11, 2⟩) 0).ResetGame
        (samplePieceAt ⟨0, 0, 0⟩) ⟨1, by decide⟩ ⟨0, by decide⟩ = some s' ∧
      s'.m_gameState.score = 0 ∧ s'.m_gameState.level = 0 ∧
      s'.m_gameState.linesCleared = 0 ∧ s'.m_gameState.grid 2 11 2 = false ∧
      s'.m_currentPiece.blocks = [⟨0,0,0⟩, ⟨1,0,0⟩, ⟨2,0,0⟩, ⟨2,1,0⟩] ∧
      s'.m_currentPiece.position = ⟨2, 11, 2⟩ ∧
      s'.m_gameState.isGameOver = true := by
  refine ⟨_, rfl, ?_⟩
  decide

/-! ### Game over -/

/-- `Update`, `MovePiece` and `RotatePiece` leave the grid and the session counters
unchanged and `isGameOver` set when the game is over. -/
theorem game_over_preserved (s : TetrisGame) (fuel : Nat)
    (pieceIndex : Fin TetrisGame.PIECES.length) (deltaTime : ℚ) (dx dz : Int) (axis : Char)
    (hover : s.m_gameState.isGameOver = true) :
    s.Update fuel pieceIndex deltaTime = some s ∧
    (∃ s', s.MovePiece dx dz = some s' ∧ s'.m_gameState = s.m_gameState) ∧
    (∃ s', s.RotatePiece axis = some s' ∧ s'.m_gameState = s.m_gameState) := by
  refine ⟨?_, ?_, ?_⟩
  · simp [TetrisGame.Update, hover]
  · unfold TetrisGame.MovePiece TetrisGame.CheckCollision
    have hne := CheckCollision_loop_ne_none s.m_gameState.grid dx 0 dz
      s.m_currentPiece.position s.m_currentPiece.blocks
    cases hc : TetrisGame.CheckCollision.loop s.m_gameState.grid dx 0 dz
        s.m_currentPiece.position s.m_currentPiece.blocks with
    | none => exact absurd hc hne
    | some v => cases v <;> exact ⟨_, rfl, rfl⟩
  · have hne := CheckCollision_loop_ne_none s.m_gameState.grid 0 0 0
      s.m_currentPiece.position
      (s.m_currentPiece.blocks.map (TetrisGame.RotatePiece.rotateBlock axis))
    cases hc : TetrisGame.CheckCollision.loop s.m_gameState.grid 0 0 0
        s.m_currentPiece.position
        (s.m_currentPiece.blocks.map (TetrisGame.RotatePiece.rotateBlock axis)) with
    | none => exact absurd hc hne
    | some v =>
      cases v
      · simp only [TetrisGame.RotatePiece, TetrisGame.CheckCollision, hc]
        exact ⟨_, rfl, rfl⟩
      · simp only [TetrisGame.RotatePiece, TetrisGame.CheckCollision, hc]
        exact ⟨_, rfl, rfl⟩

/-- C19 (evaluation of the code at the failing input): in a state with `isGameOver = true`,
the I piece at `(0, 0, 0)` and an empty grid, `InstantDrop` returns a state in which the
cells `(0, 0, 0)` .. `(3, 0, 0)` have been written into the grid. -/
theorem C19_InstantDrop_ignores_game_over :
    gameOverGame.m_gameState.isGameOver = true ∧
    gameOverGame.m_gameState.grid 0 0 0 = false ∧
    ∃ s', gameOverGame.InstantDrop 12 24 ⟨0, by decide⟩ = some s' ∧
      s'.m_gameState.grid 0 0 0 = true ∧ s'.m_gameState.grid 1 0 0 = true ∧
      s'.m_gameState.grid 2 0 0 = true ∧ s'.m_gameState.grid 3 0 0 = true ∧
      s'.m_gameState.isGameOver = true := by
  refine ⟨rfl, rfl, _, rfl, ?_⟩
  decide

/-! ### Timed descent -/

/-- C13: `TetrisGame::Update(dt)` on an initialised game that is not over, `dt ≥ 0`.  If
`dropTimer + dt < dropInterval`, only `dropTimer` changes, to `dropTimer + dt`.  Otherwise
`dropTimer` becomes 0 and: if all cells one below the active piece are free the piece moves
down by exactly one cell; else the result is that of `LockPiece` on the state with the
timer reset and the piece at its current position. -/
theorem C13_Update (s : TetrisGame) (fuel : Nat) (pieceIndex : Fin TetrisGame.PIECES.length)
    (dt : ℚ) (hinit : s.m_isInitialized = true) (hover : s.m_gameState.isGameOver = false)
    (_hdt : 0 ≤ dt) :
    (s.m_gameState.dropTimer + dt < s.m_gameState.dropInterval →
      s.Update fuel pieceIndex dt = some { s with m_gameState := { s.m_gameState with
        dropTimer := s.m_gameState.dropTimer + dt } }) ∧
    (s.m_gameState.dropInterval ≤ s.m_gameState.dropTimer + dt →
      blocksFree s.m_gameState.grid s.m_currentPiece.position s.m_currentPiece.blocks
        0 (-1) 0 →
      s.Update fuel pieceIndex dt = some { s with
        m_gameState := { s.m_gameState with dropTimer := 0 }
        m_currentPiece := { s.m_currentPiece with
          position := ⟨s.m_currentPiece.position.x, s.m_currentPiece.position.y - 1,
            s.m_currentPiece.position.z⟩ } }) ∧
    (s.m_gameState.dropInterval ≤ s.m_gameState.dropTimer + dt →
      ¬ blocksFree s.m_gameState.grid s.m_currentPiece.position s.m_currentPiece.blocks
        0 (-1) 0 →
      s.Update fuel pieceIndex dt =
        TetrisGame.LockPiece { s with m_gameState := { s.m_gameState with dropTimer := 0 } }
          fuel pieceIndex ∧
      ({ s with m_gameState := { s.m_gameState with dropTimer := 0 } } :
        TetrisGame).m_currentPiece.position = s.m_currentPiece.position) := by
  refine ⟨?_, ?_, ?_⟩
  · intro hlt
    have hnot : ¬ s.m_gameState.dropTimer + dt ≥ s.m_gameState.dropInterval := not_le.mpr hlt
    simp only [TetrisGame.Update, hinit, hover, Bool.not_true, Bool.or_false,
      Bool.false_eq_true, if_false, hnot]
  · intro hge hfree
    have hge' : s.m_gameState.dropTimer + dt ≥ s.m_gameState.dropInterval := hge
    have hc : TetrisGame.CheckCollision.loop s.m_gameState.grid 0 (-1) 0
        s.m_currentPiece.position s.m_currentPiece.blocks = some false :=
      (CheckCollision_loop_false_iff _ _ _ _ _ _).mpr hfree
    simp only [TetrisGame.Update, hinit, hover, Bool.not_true, Bool.or_false,
      Bool.false_eq_true, if_false, hge', if_true, TetrisGame.MovePieceDown,
      TetrisGame.CheckCollision, hc]
  · intro hge hfree
    have hge' : s.m_gameState.dropTimer + dt ≥ s.m_gameState.dropInterval := hge
    have hc : TetrisGame.CheckCollision.loop s.m_gameState.grid 0 (-1) 0
        s.m_currentPiece.position s.m_currentPiece.blocks = some true :=
      (CheckCollision_loop_true_iff _ _ _ _ _ _).mpr hfree
    refine ⟨?_, rfl⟩
    simp only [TetrisGame.Update, hinit, hover, Bool.not_true, Bool.or_false,
      Bool.false_eq_true, if_false, hge', if_true, TetrisGame.MovePieceDown,
      TetrisGame.CheckCollision, hc]

/-- Witness for C13: with timer 0 and interval 1, a step of `1 / 2` only advances the timer;
a step of `3 / 2` resets it and lowers the I piece from height 5 to height 4. -/
theorem C13_Update_witness :
    (sampleGame emptyGrid (samplePieceAt ⟨0, 5, 0⟩) 0).Update 24 ⟨0, by decide⟩ (1 / 2) =
      some { sampleGame emptyGrid (samplePieceAt ⟨0, 5, 0⟩) 0 with
        m_gameState := { (sampleGame emptyGrid (samplePieceAt ⟨0, 5, 0⟩) 0).m_gameState with
          dropTimer := (0 : ℚ) + 1 / 2 } } ∧
    (sampleGame emptyGrid (samplePieceAt ⟨0, 5, 0⟩) 0).Update 24 ⟨0, by decide⟩ (3 / 2) =
      some { sampleGame emptyGrid (samplePieceAt ⟨0, 5, 0⟩) 0 with
        m_gameState := { (sampleGame emptyGrid (samplePieceAt ⟨0, 5, 0⟩) 0).m_gameState with
          dropTimer := 0 }
        m_currentPiece := { samplePieceAt ⟨0, 5, 0⟩ with position := ⟨0, (5 : Int) - 1, 0⟩ } } :=
  ⟨(C13_Update (sampleGame emptyGrid (samplePieceAt ⟨0, 5, 0⟩) 0) 24 ⟨0, by decide⟩ (1 / 2)
      rfl rfl (by norm_num)).1 (by norm_num [sampleGame, sampleGameState]),
   (C13_Update (sampleGame emptyGrid (samplePieceAt ⟨0, 5, 0⟩) 0) 24 ⟨0, by decide⟩ (3 / 2)
      rfl rfl (by norm_num)).2.1 (by norm_num [sampleGame, sampleGameState])
      ((CheckCollision_loop_false_iff _ _ _ _ _ _).mp (by decide))⟩

/-! ### Hold -/

/-- C14: with `canHold` true, `TryHoldPiece` returns `true` and clears the flag; a second
call right after it returns `false` and leaves the game state, the held piece and the flag
unchanged; after `OnPieceLocked` the next `TryHoldPiece`, on any game state, returns `true`
again. -/
theorem C14_TryHoldPiece_once_per_lock (h : HoldPieceSystem) (gs gs' : GameState)
    (pieceIndex pieceIndex2 pieceIndex3 : Fin HoldPieceSystem.PIECES.length)
    (hcan : h.m_canHold = true) :
    (h.TryHoldPiece gs pieceIndex).1 = true ∧
    (h.TryHoldPiece gs pieceIndex).2.1.m_canHold = false ∧
    (h.TryHoldPiece gs pieceIndex).2.1.TryHoldPiece (h.TryHoldPiece gs pieceIndex).2.2
        pieceIndex2 =
      (false, (h.TryHoldPiece gs pieceIndex).2.1, (h.TryHoldPiece gs pieceIndex).2.2) ∧
    ((h.TryHoldPiece gs pieceIndex).2.1.OnPieceLocked.TryHoldPiece gs' pieceIndex3).1 =
      true := by
  have h1 : (h.TryHoldPiece gs pieceIndex).1 = true := by
    simp [HoldPieceSystem.TryHoldPiece, hcan]
  have h2 : (h.TryHoldPiece gs pieceIndex).2.1.m_canHold = false := by
    simp [HoldPieceSystem.TryHoldPiece, hcan]
  refine ⟨h1, h2, ?_, ?_⟩
  · generalize (h.TryHoldPiece gs pieceIndex).2.1 = hh at h2 ⊢
    generalize (h.TryHoldPiece gs pieceIndex).2.2 = gg
    simp [HoldPieceSystem.TryHoldPiece, h2]
  · simp [HoldPieceSystem.TryHoldPiece, HoldPieceSystem.OnPieceLocked]

/-- Witness for C14: the empty hold system with the flag set. -/
theorem C14_TryHoldPiece_once_per_lock_witness :
    (emptyHold.TryHoldPiece (sampleGameState emptyGrid (samplePieceAt ⟨0, 5, 0⟩) 0)
      ⟨3, by decide⟩).1 = true ∧
    (emptyHold.TryHoldPiece (sampleGameState emptyGrid (samplePieceAt ⟨0, 5, 0⟩) 0)
      ⟨3, by decide⟩).2.1.m_canHold = false :=
  ⟨(C14_TryHoldPiece_once_per_lock emptyHold
      (sampleGameState emptyGrid (samplePieceAt ⟨0, 5, 0⟩) 0)
      (sampleGameState emptyGrid (samplePieceAt ⟨0, 5, 0⟩) 0)
      ⟨3, by decide⟩ ⟨0, by decide⟩ ⟨0, by decide⟩ rfl).1,
   (C14_TryHoldPiece_once_per_lock emptyHold
      (sampleGameState emptyGrid (samplePieceAt ⟨0, 5, 0⟩) 0)
      (sampleGameState emptyGrid (samplePieceAt ⟨0, 5, 0⟩) 0)
      ⟨3, by decide⟩ ⟨0, by decide⟩ ⟨0, by decide⟩ rfl).2.1⟩

/-- C15: with a piece `held` in the slot and `canHold` true, `TryHoldPiece` returns `true`;
the active piece afterwards is `held` (blocks, colour, type, rotation) at the spawn
location `(2, 11, 2)`; the slot afterwards holds the previously active piece (blocks,
colour, type, rotation); the grid and the session counters are unchanged. -/
theorem C15_TryHoldPiece_swaps (h : HoldPieceSystem) (gs : GameState) (held : TetrisPiece)
    (pieceIndex : Fin HoldPieceSystem.PIECES.length)
    (hheld : h.m_heldPiece = some held) (hcan : h.m_canHold = true) :
    (h.TryHoldPiece gs pieceIndex).1 = true ∧
    (h.TryHoldPiece gs pieceIndex).2.2.currentPiece =
      { held with position := ⟨2, 11, 2⟩ } ∧
    (∃ slot, (h.TryHoldPiece gs pieceIndex).2.1.m_heldPiece = some slot ∧
      slot.blocks = gs.currentPiece.blocks ∧ slot.color = gs.currentPiece.color ∧
      slot.type = gs.currentPiece.type ∧ slot.rotation = gs.currentPiece.rotation) ∧
    (h.TryHoldPiece gs pieceIndex).2.2.grid = gs.grid ∧
    (h.TryHoldPiece gs pieceIndex).2.2.score = gs.score ∧
    (h.TryHoldPiece gs pieceIndex).2.2.level = gs.level ∧
    (h.TryHoldPiece gs pieceIndex).2.2.linesCleared = gs.linesCleared ∧
    (h.TryHoldPiece gs pieceIndex).2.2.isGameOver = gs.isGameOver := by
  have hpos : spawnPosition = ⟨2, 11, 2⟩ := by decide
  have hr : h.TryHoldPiece gs pieceIndex =
      (true, { m_heldPiece := some (HoldPieceSystem.atDisplayPosition gs.currentPiece),
               m_canHold := false },
        { gs with currentPiece := { held with position := ⟨2, 11, 2⟩ } }) := by
    simp [HoldPieceSystem.TryHoldPiece, hcan, hheld, hpos]
  rw [hr]
  exact ⟨rfl, rfl, ⟨_, rfl, rfl, rfl, rfl, rfl⟩, rfl, rfl, rfl, rfl, rfl⟩

/-- Witness for C15: the O-shaped sample piece is held while the I piece is active. -/
theorem C15_TryHoldPiece_swaps_witness :
    (HoldPieceSystem.TryHoldPiece ⟨some { samplePieceAt ⟨-5, 10, 0⟩ with type := 3 }, true⟩
      (sampleGameState emptyGrid (samplePieceAt ⟨0, 5, 0⟩) 0) ⟨0, by decide⟩).2.2.currentPiece =
      { ({ samplePieceAt ⟨-5, 10, 0⟩ with type := 3 } : TetrisPiece) with
        position := ⟨2, 11, 2⟩ } :=
  (C15_TryHoldPiece_swaps ⟨some { samplePieceAt ⟨-5, 10, 0⟩ with type := 3 }, true⟩
    (sampleGameState emptyGrid (samplePieceAt ⟨0, 5, 0⟩) 0)
    { samplePieceAt ⟨-5, 10, 0⟩ with type := 3 } ⟨0, by decide⟩ rfl rfl).2.1

/-- C16 (evaluation of the code at the failing input): holding on an empty slot while the
active piece is the I piece with `type = 0`, with the draw 3.  The slot receives the I
piece (blocks, colour, type); the new active piece has the blocks and colour of catalog
entry 3 only, rotation 0 and the spawn location, but its `type` is still 0: the spawn
routine never assigns `type`. -/
theorem C16_hold_spawn_leaves_type :
    (emptyHold.TryHoldPiece (sampleGameState emptyGrid (samplePieceAt ⟨0, 5, 0⟩) 0)
      ⟨3, by decide⟩).1 = true ∧
    (emptyHold.TryHoldPiece (sampleGameState emptyGrid (samplePieceAt ⟨0, 5, 0⟩) 0)
      ⟨3, by decide⟩).2.1.m_heldPiece = some (samplePieceAt ⟨-5, 10, 0⟩) ∧
    (emptyHold.TryHoldPiece (sampleGameState emptyGrid (samplePieceAt ⟨0, 5, 0⟩) 0)
      ⟨3, by decide⟩).2.2.currentPiece =
      { blocks := [⟨0,0,0⟩, ⟨1,0,0⟩, ⟨0,1,0⟩, ⟨1,1,0⟩], position := ⟨2, 11, 2⟩,
        color := ⟨1, 1, 0, 1⟩, rotation := 0, type := 0 } ∧
    (∀ i : Fin HoldPieceSystem.PIECES.length,
      HoldPieceSystem.PIECES.get i = [⟨0,0,0⟩, ⟨1,0,0⟩, ⟨0,1,0⟩, ⟨1,1,0⟩] → i.val = 3) := by
  decide

/-! ### Ghost position and hard drop -/

theorem IsValidPosition_true_iff_validAt (piece : GameState.PieceTemplate) (grid : GridType)
    (x y z : Int) :
    PieceMechanics.IsValidPosition piece grid ⟨x, y, z⟩ = some true ↔
      validAt grid piece.blocks x y z :=
  IsValidPosition_loop_true_iff grid ⟨x, y, z⟩ piece.blocks

theorem IsValidPosition_false_iff_validAt (piece : GameState.PieceTemplate) (grid : GridType)
    (x y z : Int) :
    PieceMechanics.IsValidPosition piece grid ⟨x, y, z⟩ = some false ↔
      ¬ validAt grid piece.blocks x y z :=
  IsValidPosition_loop_false_iff grid ⟨x, y, z⟩ piece.blocks

theorem blocksFree_iff_validAt (grid : GridType) (position : XMFLOAT3)
    (blocks : List XMFLOAT3) (dx dy dz : Int) :
    blocksFree grid position blocks dx dy dz ↔
      validAt grid blocks (position.x + dx) (position.y + dy) (position.z + dz) := by
  unfold blocksFree validAt
  have e : ∀ b : XMFLOAT3,
      cellFree grid (position.x + b.x + dx) (position.y + b.y + dy) (position.z + b.z + dz) ↔
      cellFree grid (position.x + dx + b.x) (position.y + dy + b.y)
        (position.z + dz + b.z) := by
    intro b
    rw [add_right_comm position.x b.x dx, add_right_comm position.y b.y dy,
      add_right_comm position.z b.z dz]
  constructor
  · intro h b hb
    exact (e b).mp (h b hb)
  · intro h b hb
    exact (e b).mpr (h b hb)

theorem GetGhostPosition_loop_zero (piece : GameState.PieceTemplate) (grid : GridType)
    (p : XMFLOAT3) :
    PieceMechanics.GetGhostPosition.loop piece grid 0 p =
      match PieceMechanics.IsValidPosition piece grid ⟨p.x, p.y - 1, p.z⟩ with
      | none => none
      | some false => some p
      | some true => none := rfl

theorem GetGhostPosition_loop_succ (piece : GameState.PieceTemplate) (grid : GridType)
    (fuel : Nat) (p : XMFLOAT3) :
    PieceMechanics.GetGhostPosition.loop piece grid (fuel + 1) p =
      match PieceMechanics.IsValidPosition piece grid ⟨p.x, p.y - 1, p.z⟩ with
      | none => none
      | some false => some p
      | some true => PieceMechanics.GetGhostPosition.loop piece grid fuel { p with y := p.y - 1 } :=
  rfl

theorem InstantDrop_descend_zero (s : TetrisGame) :
    TetrisGame.InstantDrop.descend 0 s =
      match s.CheckCollision 0 (-1) 0 s.m_currentPiece with
      | none => none
      | some true => some s
      | some false => none := rfl

theorem InstantDrop_descend_succ (fuel : Nat) (s : TetrisGame) :
    TetrisGame.InstantDrop.descend (fuel + 1) s =
      match s.CheckCollision 0 (-1) 0 s.m_currentPiece with
      | none => none
      | some true => some s
      | some false =>
        TetrisGame.InstantDrop.descend fuel { s with m_currentPiece := { s.m_currentPiece with
          position := { s.m_currentPiece.position with
            y := s.m_currentPiece.position.y - 1 } } } := rfl

/-- Behaviour of the ghost loop from a valid position: with fuel at least the height of one
block above the floor, it returns the lowest height reachable through valid positions. -/
theorem GetGhostPosition_loop_spec (piece : GameState.PieceTemplate) (grid : GridType)
    (b0 : XMFLOAT3) (hb0 : b0 ∈ piece.blocks) (fuel : Nat) :
    ∀ (x y z : Int), validAt grid piece.blocks x y z → (y + b0.y).toNat ≤ fuel →
      ∃ y', PieceMechanics.GetGhostPosition.loop piece grid fuel ⟨x, y, z⟩ =
          some ⟨x, y', z⟩ ∧
        y' ≤ y ∧
        (∀ h, y' ≤ h → h ≤ y → validAt grid piece.blocks x h z) ∧
        ¬ validAt grid piece.blocks x (y' - 1) z := by
  induction fuel with
  | zero =>
    intro x y z hvalid hfuel
    by_cases hdown : validAt grid piece.blocks x (y - 1) z
    · exfalso
      have hin := cellFree_inBounds (hdown b0 hb0)
      unfold inBounds at hin
      omega
    · refine ⟨y, ?_, le_refl _, ?_, hdown⟩
      · rw [GetGhostPosition_loop_zero]
        simp only [(IsValidPosition_false_iff_validAt piece grid x (y - 1) z).mpr hdown]
      · intro h h1 h2
        have : h = y := le_antisymm h2 h1
        rw [this]
        exact hvalid
  | succ fuel ih =>
    intro x y z hvalid hfuel
    by_cases hdown : validAt grid piece.blocks x (y - 1) z
    · have hin := cellFree_inBounds (hdown b0 hb0)
      unfold inBounds at hin
      obtain ⟨y', hr, hle, hall, hnot⟩ := ih x (y - 1) z hdown (by omega)
      refine ⟨y', ?_, by omega, ?_, hnot⟩
      · rw [GetGhostPosition_loop_succ]
        simp only [(IsValidPosition_true_iff_validAt piece grid x (y - 1) z).mpr hdown]
        exact hr
      · intro h h1 h2
        by_cases hy : h = y
        · rw [hy]; exact hvalid
        · exact hall h h1 (by omega)
    · refine ⟨y, ?_, le_refl _, ?_, hdown⟩
      · rw [GetGhostPosition_loop_succ]
        simp only [(IsValidPosition_false_iff_validAt piece grid x (y - 1) z).mpr hdown]
      · intro h h1 h2
        have : h = y := le_antisymm h2 h1
        rw [this]
        exact hvalid

theorem cellFree_emptyGrid_iff (x y z : Int) : cellFree emptyGrid x y z ↔ inBounds x y z := by
  constructor
  · exact cellFree_inBounds
  · intro h
    unfold inBounds at h
    refine ⟨⟨x.toNat, by simp only [GRID_WIDTH]; omega⟩,
      ⟨y.toNat, by simp only [GRID_HEIGHT]; omega⟩,
      ⟨z.toNat, by simp only [GRID_DEPTH]; omega⟩, ?_, ?_, ?_, rfl⟩
    · simp only []; omega
    · simp only []; omega
    · simp only []; omega

/-- The ghost loop from a valid position: result, validity along the way, and landing
height on the empty grid. -/
theorem GetGhostPosition_spec (piece : GameState.PieceTemplate) (grid : GridType)
    (position : XMFLOAT3) (fuel : Nat) (hne : piece.blocks ≠ []) (hfuel : 12 ≤ fuel)
    (hvalid : validAt grid piece.blocks position.x position.y position.z) :
    ∃ y', PieceMechanics.GetGhostPosition fuel piece grid position =
        some (some ⟨position.x, y', position.z⟩) ∧
      y' ≤ position.y ∧
      (∀ h, y' ≤ h → h ≤ position.y → validAt grid piece.blocks position.x h position.z) ∧
      ¬ validAt grid piece.blocks position.x (y' - 1) position.z ∧
      (grid = emptyGrid → ∃ b ∈ piece.blocks, y' + b.y = 0) ∧
      (grid = emptyGrid → piece ∈ GameState.PIECE_TEMPLATES → y' = 0) := by
  obtain ⟨b0, hb0⟩ := List.exists_mem_of_ne_nil _ hne
  have hin0 := cellFree_inBounds (hvalid b0 hb0)
  unfold inBounds at hin0
  obtain ⟨y', hr, hle, hall, hnot⟩ := GetGhostPosition_loop_spec piece grid b0 hb0 fuel
    position.x position.y position.z hvalid (by omega)
  have hlow : grid = emptyGrid → ∃ b ∈ piece.blocks, y' + b.y = 0 := by
    intro hg
    subst hg
    unfold validAt at hnot
    push_neg at hnot
    obtain ⟨b, hb, hbad⟩ := hnot
    refine ⟨b, hb, ?_⟩
    have hgood := cellFree_inBounds (hall y' (le_refl _) hle b hb)
    rw [cellFree_emptyGrid_iff] at hbad
    unfold inBounds at hgood hbad
    omega
  refine ⟨y', ?_, hle, hall, hnot, hlow, ?_⟩
  · unfold PieceMechanics.GetGhostPosition
    rw [show position = ⟨position.x, position.y, position.z⟩ from rfl, hr]
  · intro hg hcat
    obtain ⟨b, hb, hby⟩ := hlow hg
    have hcatalog : ∀ t ∈ GameState.PIECE_TEMPLATES,
        (∀ c ∈ t.blocks, 0 ≤ c.y) ∧ ∃ c ∈ t.blocks, c.y = 0 := by decide
    obtain ⟨hnonneg, c, hc, hcy⟩ := hcatalog piece hcat
    have h1 := hnonneg b hb
    have h2 := cellFree_inBounds (hall y' (le_refl _) hle c hc)
    unfold inBounds at h2
    omega

/-- C11: from a position at which the piece (with at least one block) is valid,
`GetGhostPosition` run with fuel at least 12 returns a position with the same `x` and `z`
and a height `y' ≤ y`; the piece is valid at every height from `y` down to `y'` and not
valid at `y' - 1`.  On the empty grid some block of the piece ends at height 0, and for a
catalog piece `y' = 0`. -/
theorem C11_GetGhostPosition (piece : GameState.PieceTemplate) (grid : GridType)
    (position : XMFLOAT3) (fuel : Nat) (hne : piece.blocks ≠ []) (hfuel : 12 ≤ fuel)
    (hvalid : validAt grid piece.blocks position.x position.y position.z) :
    ∃ y', PieceMechanics.GetGhostPosition fuel piece grid position =
        some (some ⟨position.x, y', position.z⟩) ∧
      y' ≤ position.y ∧
      (∀ h, y' ≤ h → h ≤ position.y → validAt grid piece.blocks position.x h position.z) ∧
      ¬ validAt grid piece.blocks position.x (y' - 1) position.z ∧
      (grid = emptyGrid → ∃ b ∈ piece.blocks, y' + b.y = 0) ∧
      (grid = emptyGrid → piece ∈ GameState.PIECE_TEMPLATES → y' = 0) :=
  GetGhostPosition_spec piece grid position fuel hne hfuel hvalid

/-- Witness for C11: the I piece at height 5 over the empty grid lands at height 0. -/
theorem C11_GetGhostPosition_witness :
    PieceMechanics.GetGhostPosition 12 pieceI emptyGrid ⟨1, 5, 2⟩ =
      some (some ⟨1, 0, 2⟩) := by
  obtain ⟨y', hr, -, -, -, -, hcat⟩ := C11_GetGhostPosition pieceI emptyGrid ⟨1, 5, 2⟩ 12
    (by decide) (by decide)
    ((IsValidPosition_true_iff_validAt pieceI emptyGrid 1 5 2).mp (by decide))
  rw [hcat rfl (by decide)] at hr
  exact hr

theorem CheckCollision_down_false_iff (s : TetrisGame) :
    s.CheckCollision 0 (-1) 0 s.m_currentPiece = some false ↔
      validAt s.m_gameState.grid s.m_currentPiece.blocks s.m_currentPiece.position.x
        (s.m_currentPiece.position.y - 1) s.m_currentPiece.position.z := by
  unfold TetrisGame.CheckCollision
  rw [CheckCollision_loop_false_iff, blocksFree_iff_validAt]
  simp only [add_zero]
  rfl

/-- The descent loop of `InstantDrop` and the loop of `GetGhostPosition` take the same
steps: the first returns the state with the piece moved to what the second returns. -/
theorem InstantDrop_descend_eq_ghost (rotationSymmetry : Int) (fuel : Nat) :
    ∀ s : TetrisGame,
      TetrisGame.InstantDrop.descend fuel s =
        (PieceMechanics.GetGhostPosition.loop ⟨s.m_currentPiece.blocks, rotationSymmetry⟩
          s.m_gameState.grid fuel s.m_currentPiece.position).map
          (fun p => { s with m_currentPiece := { s.m_currentPiece with position := p } }) := by
  induction fuel with
  | zero =>
    intro s
    rw [InstantDrop_descend_zero, GetGhostPosition_loop_zero]
    by_cases hdown : validAt s.m_gameState.grid s.m_currentPiece.blocks
        s.m_currentPiece.position.x (s.m_currentPiece.position.y - 1)
        s.m_currentPiece.position.z
    · simp only [(CheckCollision_down_false_iff s).mpr hdown,
        (IsValidPosition_true_iff_validAt ⟨s.m_currentPiece.blocks, rotationSymmetry⟩
          s.m_gameState.grid _ _ _).mpr hdown, Option.map_none']
    · have hc : s.CheckCollision 0 (-1) 0 s.m_currentPiece = some true := by
        unfold TetrisGame.CheckCollision
        rw [CheckCollision_loop_true_iff, blocksFree_iff_validAt]
        simpa using hdown
      simp only [hc, (IsValidPosition_false_iff_validAt
        ⟨s.m_currentPiece.blocks, rotationSymmetry⟩ s.m_gameState.grid _ _ _).mpr hdown,
        Option.map_some']
  | succ fuel ih =>
    intro s
    rw [InstantDrop_descend_succ, GetGhostPosition_loop_succ]
    by_cases hdown : validAt s.m_gameState.grid s.m_currentPiece.blocks
        s.m_currentPiece.position.x (s.m_currentPiece.position.y - 1)
        s.m_currentPiece.position.z
    · simp only [(CheckCollision_down_false_iff s).mpr hdown,
        (IsValidPosition_true_iff_validAt ⟨s.m_currentPiece.blocks, rotationSymmetry⟩
          s.m_gameState.grid _ _ _).mpr hdown]
      rw [ih]
    · have hc : s.CheckCollision 0 (-1) 0 s.m_currentPiece = some true := by
        unfold TetrisGame.CheckCollision
        rw [CheckCollision_loop_true_iff, blocksFree_iff_validAt]
        simpa using hdown
      simp only [hc, (IsValidPosition_false_iff_validAt
        ⟨s.m_currentPiece.blocks, rotationSymmetry⟩ s.m_gameState.grid _ _ _).mpr hdown,
        Option.map_some']

/-- C12: for a collision-free active piece (with at least one block), the descent loop of
`TetrisGame::InstantDrop` (fuel at least 12) lowers the piece to exactly the height `y'`
that `PieceMechanics::GetGhostPosition` returns for the same blocks, grid and position,
with `x` and `z` unchanged; the write step of the `LockPiece` that follows succeeds and
marks exactly the piece's cells at that position; `InstantDrop` then continues with
`CheckLines` and `SpawnNewPiece` on that grid. -/
theorem C12_InstantDrop_lands_on_ghost (s : TetrisGame) (rotationSymmetry : Int)
    (dropFuel fuel : Nat) (pieceIndex : Fin TetrisGame.PIECES.length)
    (hne : s.m_currentPiece.blocks ≠ []) (hfuel : 12 ≤ dropFuel)
    (hfree : s.CheckCollision 0 0 0 s.m_currentPiece = some false) :
    ∃ (y' : Int) (grid1 : GridType),
      PieceMechanics.GetGhostPosition dropFuel ⟨s.m_currentPiece.blocks, rotationSymmetry⟩
          s.m_gameState.grid s.m_currentPiece.position =
        some (some ⟨s.m_currentPiece.position.x, y', s.m_currentPiece.position.z⟩) ∧
      TetrisGame.InstantDrop.descend dropFuel s =
        some { s with m_currentPiece := { s.m_currentPiece with
          position := ⟨s.m_currentPiece.position.x, y', s.m_currentPiece.position.z⟩ } } ∧
      TetrisGame.LockPiece.write { s with m_currentPiece := { s.m_currentPiece with
          position := ⟨s.m_currentPiece.position.x, y', s.m_currentPiece.position.z⟩ } } =
        some { s with
          m_gameState := { s.m_gameState with grid := grid1 }
          m_currentPiece := { s.m_currentPiece with
            position := ⟨s.m_currentPiece.position.x, y', s.m_currentPiece.position.z⟩ } } ∧
      (∀ (i : Fin GRID_WIDTH) (j : Fin GRID_HEIGHT) (k : Fin GRID_DEPTH),
        grid1 i j k = true ↔
          (s.m_gameState.grid i j k = true ∨ ∃ b ∈ s.m_currentPiece.blocks,
            (i.val : Int) = s.m_currentPiece.position.x + b.x ∧
            (j.val : Int) = y' + b.y ∧
            (k.val : Int) = s.m_currentPiece.position.z + b.z)) ∧
      s.InstantDrop dropFuel fuel pieceIndex =
        (match TetrisGame.CheckLines fuel { s with
            m_gameState := { s.m_gameState with grid := grid1 }
            m_currentPiece := { s.m_currentPiece with
              position := ⟨s.m_currentPiece.position.x, y', s.m_currentPiece.position.z⟩ } } with
        | none => none
        | some s2 => s2.SpawnNewPiece pieceIndex) := by
  have hvalid : validAt s.m_gameState.grid s.m_currentPiece.blocks
      s.m_currentPiece.position.x s.m_currentPiece.position.y s.m_currentPiece.position.z := by
    unfold TetrisGame.CheckCollision at hfree
    rw [CheckCollision_loop_false_iff, blocksFree_iff_validAt] at hfree
    simpa using hfree
  obtain ⟨y', hghost, hle, hall, -, -, -⟩ := GetGhostPosition_spec
    ⟨s.m_currentPiece.blocks, rotationSymmetry⟩ s.m_gameState.grid s.m_currentPiece.position
    dropFuel hne hfuel hvalid
  have hloop : PieceMechanics.GetGhostPosition.loop
      ⟨s.m_currentPiece.blocks, rotationSymmetry⟩ s.m_gameState.grid dropFuel
      s.m_currentPiece.position =
      some ⟨s.m_currentPiece.position.x, y', s.m_currentPiece.position.z⟩ := by
    unfold PieceMechanics.GetGhostPosition at hghost
    cases hl : PieceMechanics.GetGhostPosition.loop
        ⟨s.m_currentPiece.blocks, rotationSymmetry⟩ s.m_gameState.grid dropFuel
        s.m_currentPiece.position with
    | none => rw [hl] at hghost; cases hghost
    | some p =>
      rw [hl] at hghost
      exact congrArg some (Option.some.inj (Option.some.inj hghost))
  have hdesc : TetrisGame.InstantDrop.descend dropFuel s =
      some { s with m_currentPiece := { s.m_currentPiece with
        position := ⟨s.m_currentPiece.position.x, y', s.m_currentPiece.position.z⟩ } } := by
    rw [InstantDrop_descend_eq_ghost rotationSymmetry dropFuel s, hloop]
    rfl
  have hin : ∀ b ∈ s.m_currentPiece.blocks, inBounds (s.m_currentPiece.position.x + b.x)
      (y' + b.y) (s.m_currentPiece.position.z + b.z) := by
    intro b hb
    exact cellFree_inBounds (hall y' (le_refl _) hle b hb)
  obtain ⟨grid1, hw, hcells⟩ := lockBlocks_spec
    ⟨s.m_currentPiece.position.x, y', s.m_currentPiece.position.z⟩ s.m_currentPiece.blocks
    s.m_gameState.grid hin
  have hwrite : TetrisGame.LockPiece.write { s with m_currentPiece := { s.m_currentPiece with
        position := ⟨s.m_currentPiece.position.x, y', s.m_currentPiece.position.z⟩ } } =
      some { s with
        m_gameState := { s.m_gameState with grid := grid1 }
        m_currentPiece := { s.m_currentPiece with
          position := ⟨s.m_currentPiece.position.x, y', s.m_currentPiece.position.z⟩ } } := by
    simp only [TetrisGame.LockPiece.write, hw]
  refine ⟨y', grid1, hghost, hdesc, hwrite, hcells, ?_⟩
  simp only [TetrisGame.InstantDrop, hdesc, TetrisGame.LockPiece, hwrite]

/-- Witness for C12: the I piece dropped from `(1, 5, 2)` over the empty grid. -/
theorem C12_InstantDrop_lands_on_ghost_witness :
    ∃ (y' : Int), PieceMechanics.GetGhostPosition 12
        ⟨(samplePieceAt ⟨1, 5, 2⟩).blocks, 2⟩ emptyGrid ⟨1, 5, 2⟩ =
          some (some ⟨1, y', 2⟩) ∧
      TetrisGame.InstantDrop.descend 12 (sampleGame emptyGrid (samplePieceAt ⟨1, 5, 2⟩) 0) =
        some { sampleGame emptyGrid (samplePieceAt ⟨1, 5, 2⟩) 0 with
          m_currentPiece := { samplePieceAt ⟨1, 5, 2⟩ with position := ⟨1, y', 2⟩ } } := by
  obtain ⟨y', grid1, h1, h2, -⟩ := C12_InstantDrop_lands_on_ghost
    (sampleGame emptyGrid (samplePieceAt ⟨1, 5, 2⟩) 0) 2 12 24 ⟨0, by decide⟩
    (by decide) (by decide) (by decide)
  exact ⟨y', h1, h2⟩

/-! ### Agreement of the collision predicates -/

/-- C30: for every piece (blocks, integer position), offset and grid,
`TetrisGame::CheckCollision(dx, dy, dz, piece)` returns `true` iff
`PieceMechanics::IsValidPosition(blocks, grid, position + (dx, dy, dz))` returns `false`;
both always return a value. -/
theorem C30_collision_predicates_agree (s : TetrisGame) (piece : TetrisPiece)
    (rotationSymmetry : Int) (dx dy dz : Int) :
    (s.CheckCollision dx dy dz piece = some true ↔
      PieceMechanics.IsValidPosition ⟨piece.blocks, rotationSymmetry⟩ s.m_gameState.grid
        ⟨piece.position.x + dx, piece.position.y + dy, piece.position.z + dz⟩ = some false) ∧
    (s.CheckCollision dx dy dz piece = some false ↔
      PieceMechanics.IsValidPosition ⟨piece.blocks, rotationSymmetry⟩ s.m_gameState.grid
        ⟨piece.position.x + dx, piece.position.y + dy, piece.position.z + dz⟩ = some true) ∧
    s.CheckCollision dx dy dz piece ≠ none ∧
    PieceMechanics.IsValidPosition ⟨piece.blocks, rotationSymmetry⟩ s.m_gameState.grid
      ⟨piece.position.x + dx, piece.position.y + dy, piece.position.z + dz⟩ ≠ none := by
  refine ⟨?_, ?_, CheckCollision_loop_ne_none _ _ _ _ _ _, IsValidPosition_loop_ne_none _ _ _⟩
  · unfold TetrisGame.CheckCollision
    rw [CheckCollision_loop_true_iff, IsValidPosition_false_iff_validAt,
      blocksFree_iff_validAt]
  · unfold TetrisGame.CheckCollision
    rw [CheckCollision_loop_false_iff, IsValidPosition_true_iff_validAt,
      blocksFree_iff_validAt]

/-! ### Rotation matrices -/

/-- C28: for every integer point `p` and `k` in `0..3`, `RotatePoint(p,
ROTATION_MATRICES[k])` equals `k` successive applications of the 90-degree matrix
`ROTATION_MATRICES[1]`; index 0 is the identity; four 90-degree rotations return `p`; every
rotation keeps `z`; the 90-degree matrix maps `(x, y, z)` to `(-y, x, z)`, which is what
`TetrisGame::RotatePiece` does to a block for axis `'z'`. -/
theorem C28_rotation_matrices (p : XMFLOAT3) (k : Nat) (M M1 : Matrix9)
    (hM : PieceMechanics.ROTATION_MATRICES[k]? = some M)
    (hM1 : PieceMechanics.ROTATION_MATRICES[1]? = some M1) :
    k < 4 ∧
    PieceMechanics.RotatePoint p M =
      (fun q => PieceMechanics.RotatePoint q M1)^[k] p ∧
    (k = 0 → PieceMechanics.RotatePoint p M = p) ∧
    (fun q => PieceMechanics.RotatePoint q M1)^[4] p = p ∧
    (PieceMechanics.RotatePoint p M).z = p.z ∧
    PieceMechanics.RotatePoint p M1 = ⟨-p.y, p.x, p.z⟩ ∧
    TetrisGame.RotatePiece.rotateBlock 'z' p = PieceMechanics.RotatePoint p M1 := by
  have hM1' : M1 = ⟨0, -1, 0, 1, 0, 0, 0, 0, 1⟩ := by
    have h : PieceMechanics.ROTATION_MATRICES[1]? = some ⟨0, -1, 0, 1, 0, 0, 0, 0, 1⟩ := rfl
    rw [h] at hM1
    exact (Option.some.inj hM1).symm
  subst hM1'
  have hk : k < 4 := by
    by_contra hge
    have hlen : PieceMechanics.ROTATION_MATRICES.length ≤ k := by
      have : PieceMechanics.ROTATION_MATRICES.length = 4 := rfl
      omega
    rw [List.getElem?_eq_none_iff.mpr hlen] at hM
    cases hM
  have hcases : k = 0 ∨ k = 1 ∨ k = 2 ∨ k = 3 := by omega
  obtain ⟨x, y, z⟩ := p
  have h90 : ∀ q : XMFLOAT3,
      PieceMechanics.RotatePoint q ⟨0, -1, 0, 1, 0, 0, 0, 0, 1⟩ = ⟨-q.y, q.x, q.z⟩ := by
    intro q
    simp [PieceMechanics.RotatePoint]
  refine ⟨hk, ?_, ?_, ?_, ?_, h90 _, ?_⟩
  · rcases hcases with h | h | h | h <;> subst h <;>
      simp only [PieceMechanics.ROTATION_MATRICES, List.getElem?_cons_zero,
        List.getElem?_cons_succ, Option.some.injEq] at hM <;> subst hM <;>
      simp [Function.iterate_succ, h90, PieceMechanics.RotatePoint]
  · intro h0
    subst h0
    simp only [PieceMechanics.ROTATION_MATRICES, List.getElem?_cons_zero,
      Option.some.injEq] at hM
    subst hM
    simp [PieceMechanics.RotatePoint]
  · simp [Function.iterate_succ, h90]
  · rcases hcases with h | h | h | h <;> subst h <;>
      simp only [PieceMechanics.ROTATION_MATRICES, List.getElem?_cons_zero,
        List.getElem?_cons_succ, Option.some.injEq] at hM <;> subst hM <;>
      simp [PieceMechanics.RotatePoint]
  · rw [h90]
    simp [TetrisGame.RotatePiece.rotateBlock]

/-- Witness for C28: the 270-degree matrix applied to `(1, 2, 3)`. -/
theorem C28_rotation_matrices_witness :
    PieceMechanics.RotatePoint ⟨1, 2, 3⟩ ⟨0, 1, 0, -1, 0, 0, 0, 0, 1⟩ =
      (fun q => PieceMechanics.RotatePoint q ⟨0, -1, 0, 1, 0, 0, 0, 0, 1⟩)^[3] ⟨1, 2, 3⟩ :=
  (C28_rotation_matrices ⟨1, 2, 3⟩ 3 ⟨0, 1, 0, -1, 0, 0, 0, 0, 1⟩ ⟨0, -1, 0, 1, 0, 0, 0, 0, 1⟩
    rfl rfl).2.1

/-! ### Piece catalog -/

theorem sameShapeCheck_iff (A B : List XMFLOAT3) :
    sameShapeCheck A B = true ↔ sameShape A B := by
  cases A with
  | nil =>
    simp only [sameShapeCheck, sameShape, List.map_nil, List.not_mem_nil, false_implies,
      implies_true, true_and, imp_false, List.isEmpty_iff]
    constructor
    · intro h
      subst h
      exact ⟨⟨0, 0, 0⟩, fun p hp => by cases hp⟩
    · rintro ⟨-, h⟩
      exact List.eq_nil_iff_forall_not_mem.mpr h
  | cons a0 rest =>
    simp only [sameShapeCheck, sameShape, List.any_eq_true, Bool.and_eq_true,
      List.all_eq_true, decide_eq_true_eq]
    constructor
    · rintro ⟨b, -, h1, h2⟩
      exact ⟨_, h1, h2⟩
    · rintro ⟨t, h1, h2⟩
      have hb : translate t a0 ∈ B := h1 _ (by simp)
      have ht : (⟨(translate t a0).x - a0.x, (translate t a0).y - a0.y,
          (translate t a0).z - a0.z⟩ : XMFLOAT3) = t := by
        obtain ⟨tx, ty, tz⟩ := t
        simp [translate]
      refine ⟨translate t a0, hb, ?_, ?_⟩
      · rw [ht]; exact h1
      · rw [ht]; exact h2

/-- C29: every entry of `GameState::PIECE_TEMPLATES` has 4 pairwise distinct blocks; its
declared `rotationSymmetry` `s` is 1, 2 or 4; turning the blocks by `s` quarter turns
(`ROTATION_MATRICES[s mod 4]`) gives the same block set up to a translation, and no number
of quarter turns from `{1, 2}` smaller than `s` does.  The declared orders are
I 2, L 4, J 4, O 1, S 2, T 4, Z 2. -/
theorem C29_catalog_symmetry (piece : GameState.PieceTemplate)
    (hpiece : piece ∈ GameState.PIECE_TEMPLATES) :
    piece.blocks.length = 4 ∧ piece.blocks.Nodup ∧
    (piece.rotationSymmetry = 1 ∨ piece.rotationSymmetry = 2 ∨ piece.rotationSymmetry = 4) ∧
    sameShape (quarterTurns piece.rotationSymmetry.toNat piece.blocks) piece.blocks ∧
    (∀ q ∈ ([1, 2] : List Nat), (q : Int) < piece.rotationSymmetry →
      ¬ sameShape (quarterTurns q piece.blocks) piece.blocks) ∧
    GameState.PIECE_TEMPLATES.map (fun t => t.rotationSymmetry) = [2, 4, 4, 1, 2, 4, 2] := by
  have hall : ∀ t ∈ GameState.PIECE_TEMPLATES,
      t.blocks.length = 4 ∧ t.blocks.Nodup ∧
      (t.rotationSymmetry = 1 ∨ t.rotationSymmetry = 2 ∨ t.rotationSymmetry = 4) ∧
      sameShapeCheck (quarterTurns t.rotationSymmetry.toNat t.blocks) t.blocks = true ∧
      (∀ q ∈ ([1, 2] : List Nat), (q : Int) < t.rotationSymmetry →
        sameShapeCheck (quarterTurns q t.blocks) t.blocks = false) := by
    decide
  obtain ⟨h1, h2, h3, h4, h5⟩ := hall piece hpiece
  refine ⟨h1, h2, h3, (sameShapeCheck_iff _ _).mp h4, ?_, by decide⟩
  intro q hq hlt hsame
  have := h5 q hq hlt
  rw [(sameShapeCheck_iff _ _).mpr hsame] at this
  cases this

/-- Witness for C29: the T piece (entry 5) has period 4. -/
theorem C29_catalog_symmetry_witness :
    sameShape (quarterTurns (4 : Int).toNat [⟨1,0,0⟩, ⟨0,1,0⟩, ⟨1,1,0⟩, ⟨2,1,0⟩])
        [⟨1,0,0⟩, ⟨0,1,0⟩, ⟨1,1,0⟩, ⟨2,1,0⟩] ∧
    ¬ sameShape (quarterTurns 2 [⟨1,0,0⟩, ⟨0,1,0⟩, ⟨1,1,0⟩, ⟨2,1,0⟩])
        [⟨1,0,0⟩, ⟨0,1,0⟩, ⟨1,1,0⟩, ⟨2,1,0⟩] :=
  ⟨(C29_catalog_symmetry ⟨[⟨1,0,0⟩, ⟨0,1,0⟩, ⟨1,1,0⟩, ⟨2,1,0⟩], 4⟩ (by decide)).2.2.2.1,
   (C29_catalog_symmetry ⟨[⟨1,0,0⟩, ⟨0,1,0⟩, ⟨1,1,0⟩, ⟨2,1,0⟩], 4⟩ (by decide)).2.2.2.2.1 2
     (by decide) (by decide)⟩

/-! ### Termination of the layer scan -/

theorem layers_decompose (grid : GridType) (y : Fin GRID_HEIGHT) :
    ∃ pre post, layers grid = pre ++ layerOf grid y :: post ∧ pre.length = y.val := by
  have hlen := layers_length grid
  have hy : y.val < (layers grid).length := by rw [hlen]; exact y.isLt
  have hsplit : layers grid = (layers grid).take y.val ++
      (layers grid)[y.val] :: (layers grid).drop (y.val + 1) := by
    rw [← List.drop_eq_getElem_cons hy, List.take_append_drop]
  have hprelen : ((layers grid).take y.val).length = y.val := by
    rw [List.length_take]; omega
  have hget : (layers grid)[y.val] = layerOf grid y := by
    have h1 := layers_getElem? grid y.val y.isLt
    rw [List.getElem?_eq_getElem hy] at h1
    exact Option.some.inj h1
  rw [hget] at hsplit
  exact ⟨_, _, hsplit, hprelen⟩

/-- A collapse at a full layer removes one full layer and leaves the top layer empty. -/
theorem collapse_removes_one_full_layer (grid : GridType) (y : Fin GRID_HEIGHT)
    (hfull : layerComplete grid y = true) :
    fullLayerCount (clearTopLayer (shiftLayersDown grid y.val)) + 1 = fullLayerCount grid ∧
    ∀ (x : Fin GRID_WIDTH) (z : Fin GRID_DEPTH),
      clearTopLayer (shiftLayersDown grid y.val) x ⟨11, by decide⟩ z = false := by
  obtain ⟨pre, post, hsplit, hprelen⟩ := layers_decompose grid y
  have hc := layers_collapse grid pre post (layerOf grid y) hsplit
  rw [hprelen] at hc
  rw [layerComplete_eq] at hfull
  constructor
  · unfold fullLayerCount
    rw [hc, hsplit]
    simp [List.countP_append, List.countP_cons, hfull, emptyLayer_not_full]
    omega
  · intro x z
    rw [collapse_apply grid y.val y.isLt]
    have hy := y.isLt
    simp only [GRID_HEIGHT] at hy
    rw [if_neg (by simp only []; omega), dif_neg (by simp only [GRID_HEIGHT]; omega)]

/-- With less fuel than loop-body executions needed, the scan does not return. -/
theorem CheckLines_scan_out_of_fuel (fuel : Nat) :
    ∀ (grid : GridType) (pre rest : List Layer) (linesCleared : Int) (iters : Nat),
      layers grid = pre ++ rest →
      fuel < rest.length + rest.countP layerFull →
      TetrisGame.CheckLines.scan fuel grid pre.length linesCleared iters = none := by
  induction fuel with
  | zero =>
    intro grid pre rest linesCleared iters h hfuel
    cases rest with
    | nil => simp at hfuel
    | cons l rest =>
      have hlen := layers_split_length grid pre (l :: rest) h
      simp only [List.length_cons] at hlen
      have hy : pre.length < GRID_HEIGHT := by simp only [GRID_HEIGHT]; omega
      unfold TetrisGame.CheckLines.scan
      rw [dif_pos hy]
  | succ fuel ih =>
    intro grid pre rest linesCleared iters h hfuel
    cases rest with
    | nil => simp at hfuel
    | cons l rest =>
      have hlen := layers_split_length grid pre (l :: rest) h
      simp only [List.length_cons] at hlen
      have hy : pre.length < GRID_HEIGHT := by simp only [GRID_HEIGHT]; omega
      have hhead := layers_split_head grid pre rest l h hy
      unfold TetrisGame.CheckLines.scan
      rw [dif_pos hy]
      simp only [layerComplete_eq, hhead]
      by_cases hfull : layerFull l = true
      · rw [if_pos hfull]
        have hc := layers_collapse grid pre rest l h
        rw [List.append_assoc] at hc
        have hcount : (rest ++ [emptyLayer]).countP layerFull = rest.countP layerFull := by
          simp [List.countP_append, List.countP_cons, emptyLayer_not_full]
        have hcount' : (l :: rest).countP layerFull = rest.countP layerFull + 1 := by
          simp [List.countP_cons, hfull]
        apply ih _ pre (rest ++ [emptyLayer]) _ _ hc
        rw [hcount]
        simp only [List.length_append, List.length_cons, List.length_nil]
        rw [hcount'] at hfuel
        simp only [List.length_cons] at hfuel
        omega
      · have hfull' : layerFull l = false := by simpa using hfull
        rw [if_neg hfull]
        have hcount' : (l :: rest).countP layerFull = rest.countP layerFull := by
          simp [List.countP_cons, hfull']
        have hsplit : layers grid = (pre ++ [l]) ++ rest := by
          rw [h]; simp
        have hplen : (pre ++ [l]).length = pre.length + 1 := by simp
        have := ih grid (pre ++ [l]) rest linesCleared (iters + 1) hsplit (by
          rw [hcount'] at hfuel
          simp only [List.length_cons] at hfuel
          omega)
        rw [hplen] at this
        exact this

/-- C27: for every 6x12x6 grid with `k` full layers the layer scan of
`TetrisGame::CheckLines` terminates after exactly `12 + k` loop-body executions: with fuel
`12 + k` or more it returns and reports `12 + k` iterations, with less fuel it does not
return; every collapse at a full layer removes one full layer and makes the top layer
empty. -/
theorem C27_CheckLines_scan_iterations (grid : GridType) (fuel : Nat) :
    (12 + fullLayerCount grid ≤ fuel →
      ∃ grid1, TetrisGame.CheckLines.scan fuel grid 0 0 0 =
        some (grid1, (fullLayerCount grid : Int), 12 + fullLayerCount grid)) ∧
    (fuel < 12 + fullLayerCount grid → TetrisGame.CheckLines.scan fuel grid 0 0 0 = none) ∧
    (∀ y : Fin GRID_HEIGHT, layerComplete grid y = true →
      fullLayerCount (clearTopLayer (shiftLayersDown grid y.val)) + 1 = fullLayerCount grid ∧
      ∀ (x : Fin GRID_WIDTH) (z : Fin GRID_DEPTH),
        clearTopLayer (shiftLayersDown grid y.val) x ⟨11, by decide⟩ z = false) := by
  have hlen := layers_length grid
  refine ⟨?_, ?_, fun y hy => collapse_removes_one_full_layer grid y hy⟩
  · intro hfuel
    obtain ⟨grid1, hr, -⟩ := CheckLines_scan_spec fuel grid [] (layers grid) 0 0 rfl
      (by unfold fullLayerCount at hfuel; omega)
    refine ⟨grid1, ?_⟩
    simp only [List.length_nil] at hr
    rw [hr, hlen]
    simp [fullLayerCount]
  · intro hfuel
    have := CheckLines_scan_out_of_fuel fuel grid [] (layers grid) 0 0 rfl
      (by unfold fullLayerCount at hfuel; omega)
    simpa using this

/-- Witness for C27: with layers 0, 2, 5, 7 full the scan runs 16 times. -/
theorem C27_CheckLines_scan_iterations_witness :
    ∃ grid1, TetrisGame.CheckLines.scan 16
        (gridWithFullLayers fun y => decide (y.val = 0 ∨ y.val = 2 ∨ y.val = 5 ∨ y.val = 7))
        0 0 0 = some (grid1, 4, 16) := by
  obtain ⟨grid1, h⟩ := (C27_CheckLines_scan_iterations
    (gridWithFullLayers fun y => decide (y.val = 0 ∨ y.val = 2 ∨ y.val = 5 ∨ y.val = 7))
    16).1 (by decide)
  have hk : fullLayerCount
      (gridWithFullLayers fun y => decide (y.val = 0 ∨ y.val = 2 ∨ y.val = 5 ∨ y.val = 7)) = 4 := by
    decide
  rw [hk] at h
  exact ⟨grid1, h⟩

/-! ### Reachable states -/

/-- The scan of a whole grid with `k` full layers and fuel at least `12 + k`. -/
theorem CheckLines_scan_exact (grid : GridType) (fuel : Nat)
    (hfuel : 12 + fullLayerCount grid ≤ fuel) :
    ∃ grid1, TetrisGame.CheckLines.scan fuel grid 0 0 0 =
        some (grid1, (fullLayerCount grid : Int), 12 + fullLayerCount grid) ∧
      layers grid1 = (layers grid).filter (fun l => !layerFull l) ++
        List.replicate (fullLayerCount grid) emptyLayer := by
  have hlen := layers_length grid
  obtain ⟨grid1, hr, hl⟩ := CheckLines_scan_spec fuel grid [] (layers grid) 0 0 rfl
    (by unfold fullLayerCount at hfuel; omega)
  refine ⟨grid1, ?_, ?_⟩
  · simp only [List.length_nil] at hr
    rw [hr, hlen]
    simp [fullLayerCount]
  · rw [hl]
    simp [fullLayerCount]

theorem compacted_has_no_full_layer (grid grid1 : GridType)
    (h : layers grid1 = (layers grid).filter (fun l => !layerFull l) ++
      List.replicate (fullLayerCount grid) emptyLayer) :
    fullLayerCount grid1 = 0 := by
  unfold fullLayerCount at h ⊢
  rw [h, List.countP_eq_zero]
  intro a ha
  rcases List.mem_append.mp ha with h1 | h1
  · have := (List.mem_filter.mp h1).2
    simpa using this
  · rw [(List.mem_replicate.mp h1).2, emptyLayer_not_full]
    simp

theorem tableAt_SCORES_some (k : Nat) (t : Int)
    (h : tableAt TetrisGame.SCORES ((k : Int) - 1) = some t) :
    1 ≤ k ∧ k ≤ 4 ∧ ([100, 300, 500, 800] : List Int)[k - 1]? = some t := by
  unfold tableAt at h
  split at h
  · rename_i h0
    have hk1 : 1 ≤ k := by omega
    have hlt : ((k : Int) - 1).toNat < TetrisGame.SCORES.length := by
      by_contra hge
      rw [List.getElem?_eq_none_iff.mpr (by omega)] at h
      cases h
    have hlen : TetrisGame.SCORES.length = 4 := rfl
    have hk4 : k ≤ 4 := by omega
    refine ⟨hk1, hk4, ?_⟩
    have hcases : k = 1 ∨ k = 2 ∨ k = 3 ∨ k = 4 := by omega
    rcases hcases with hk | hk | hk | hk <;> subst hk <;>
      simp [TetrisGame.SCORES] at h <;> subst h <;> rfl
  · cases h

/-- What a returning `CheckLines` does, for any fuel: the grid is compacted and has no full
layer; the pieces and `isGameOver` are untouched; either no layer was full and the counters
are unchanged, or `1 ≤ k ≤ 4` layers were full and the counters are updated. -/
theorem CheckLines_returns (s s' : TetrisGame) (fuel : Nat) (h : s.CheckLines fuel = some s') :
    fullLayerCount s'.m_gameState.grid = 0 ∧
    s'.m_currentPiece = s.m_currentPiece ∧ s'.m_nextPiece = s.m_nextPiece ∧
    s'.m_gameState.isGameOver = s.m_gameState.isGameOver ∧
    ((s'.m_gameState.score = s.m_gameState.score ∧
        s'.m_gameState.level = s.m_gameState.level ∧
        s'.m_gameState.linesCleared = s.m_gameState.linesCleared) ∨
      (∃ (k : Nat) (t : Int), 1 ≤ k ∧ k ≤ 4 ∧
        ([100, 300, 500, 800] : List Int)[k - 1]? = some t ∧
        s'.m_gameState.score =
          wrapInt32 (s.m_gameState.score + t * (s.m_gameState.level + 1)) ∧
        s'.m_gameState.linesCleared = wrapInt32 (s.m_gameState.linesCleared + k) ∧
        s'.m_gameState.level = Int.tdiv (wrapInt32 (s.m_gameState.linesCleared + k)) 10)) := by
  by_cases hf : 12 + fullLayerCount s.m_gameState.grid ≤ fuel
  · obtain ⟨grid1, hr, hl⟩ := CheckLines_scan_exact s.m_gameState.grid fuel hf
    have hnofull := compacted_has_no_full_layer _ _ hl
    unfold TetrisGame.CheckLines at h
    rw [hr] at h
    simp only at h
    by_cases hk : (fullLayerCount s.m_gameState.grid : Int) > 0
    · rw [if_pos hk] at h
      cases ht : tableAt TetrisGame.SCORES
          ((fullLayerCount s.m_gameState.grid : Int) - 1) with
      | none =>
        simp only [TetrisGame.CalculateScore, ht] at h
        cases h
      | some t =>
        simp only [TetrisGame.CalculateScore, ht] at h
        have h' := Option.some.inj h
        subst h'
        obtain ⟨h1, h4, h0⟩ := tableAt_SCORES_some _ t ht
        exact ⟨hnofull, rfl, rfl, rfl,
          Or.inr ⟨_, t, h1, h4, h0, addInt32_mulInt32 _ _ _, rfl, rfl⟩⟩
    · rw [if_neg hk] at h
      have h' := Option.some.inj h
      subst h'
      exact ⟨hnofull, rfl, rfl, rfl, Or.inl ⟨rfl, rfl, rfl⟩⟩
  · have hnone := CheckLines_scan_out_of_fuel fuel s.m_gameState.grid [] (layers s.m_gameState.grid)
      0 0 rfl (by
        have hlen := layers_length s.m_gameState.grid
        unfold fullLayerCount at hf
        omega)
    unfold TetrisGame.CheckLines at h
    simp only [List.length_nil] at hnone
    rw [hnone] at h
    cases h

theorem PIECES_get_length (pieceIndex : Fin TetrisGame.PIECES.length) :
    (TetrisGame.PIECES.get pieceIndex).length = 4 := by
  revert pieceIndex
  decide

theorem SpawnNewPiece_returns (s s' : TetrisGame) (pieceIndex : Fin TetrisGame.PIECES.length)
    (h : s.SpawnNewPiece pieceIndex = some s') :
    s'.m_gameState.grid = s.m_gameState.grid ∧
    s'.m_gameState.score = s.m_gameState.score ∧
    s'.m_gameState.level = s.m_gameState.level ∧
    s'.m_gameState.linesCleared = s.m_gameState.linesCleared ∧
    s'.m_currentPiece = s.m_nextPiece ∧ s'.m_nextPiece.blocks.length = 4 := by
  have hlen := PIECES_get_length pieceIndex
  unfold TetrisGame.SpawnNewPiece at h
  simp only at h
  split at h
  · cases h
  · have h' := Option.some.inj h
    subst h'
    exact ⟨rfl, rfl, rfl, rfl, rfl, hlen⟩
  · have h' := Option.some.inj h
    subst h'
    exact ⟨rfl, rfl, rfl, rfl, rfl, hlen⟩

theorem LockPiece_write_returns (s s1 : TetrisGame) (h : TetrisGame.LockPiece.write s = some s1) :
    s1.m_gameState.score = s.m_gameState.score ∧
    s1.m_gameState.level = s.m_gameState.level ∧
    s1.m_gameState.linesCleared = s.m_gameState.linesCleared ∧
    s1.m_currentPiece = s.m_currentPiece ∧ s1.m_nextPiece = s.m_nextPiece := by
  unfold TetrisGame.LockPiece.write at h
  split at h
  · cases h
  · have h' := Option.some.inj h
    subst h'
    exact ⟨rfl, rfl, rfl, rfl, rfl⟩

theorem LockPiece_returns (s s' : TetrisGame) (fuel : Nat)
    (pieceIndex : Fin TetrisGame.PIECES.length) (h : s.LockPiece fuel pieceIndex = some s') :
    counterTransition s s' ∧ fullLayerCount s'.m_gameState.grid = 0 ∧
    s'.m_currentPiece = s.m_nextPiece ∧ s'.m_nextPiece.blocks.length = 4 := by
  unfold TetrisGame.LockPiece at h
  cases hw : TetrisGame.LockPiece.write s with
  | none => rw [hw] at h; cases h
  | some s1 =>
    rw [hw] at h
    simp only at h
    cases hc : s1.CheckLines fuel with
    | none => rw [hc] at h; cases h
    | some s2 =>
      rw [hc] at h
      simp only at h
      obtain ⟨w1, w2, w3, -, w5⟩ := LockPiece_write_returns s s1 hw
      obtain ⟨c1, -, c3, -, c5⟩ := CheckLines_returns s1 s2 fuel hc
      obtain ⟨p1, p2, p3, p4, p5, p6⟩ := SpawnNewPiece_returns s2 s' pieceIndex h
      refine ⟨?_, ?_, ?_, p6⟩
      · unfold counterTransition
        rw [p2, p3, p4, ← w1, ← w2, ← w3]
        exact c5
      · rw [p1]; exact c1
      · rw [p5, c3, w5]

theorem descend_returns (fuel : Nat) (s s' : TetrisGame)
    (h : TetrisGame.InstantDrop.descend fuel s = some s') :
    s'.m_gameState = s.m_gameState ∧ s'.m_currentPiece.blocks = s.m_currentPiece.blocks ∧
    s'.m_nextPiece = s.m_nextPiece := by
  rw [InstantDrop_descend_eq_ghost 0 fuel s] at h
  cases hl : PieceMechanics.GetGhostPosition.loop ⟨s.m_currentPiece.blocks, 0⟩
      s.m_gameState.grid fuel s.m_currentPiece.position with
  | none => rw [hl] at h; cases h
  | some p =>
    rw [hl] at h
    have h' := Option.some.inj h
    subst h'
    exact ⟨rfl, rfl, rfl⟩

theorem counterTransition_of_same (s s' : TetrisGame)
    (h : s'.m_gameState = s.m_gameState) : counterTransition s s' := by
  unfold counterTransition
  rw [h]
  exact Or.inl ⟨rfl, rfl, rfl⟩

/-- Every returning piece action changes the counters as `counterTransition` says and
preserves the structural invariant `lockInv`. -/
theorem Step_effect (s s' : TetrisGame) (h : TetrisGame.Step s s') :
    counterTransition s s' ∧ (lockInv s → lockInv s') := by
  cases h with
  | update fuel pieceIndex deltaTime hu =>
    unfold TetrisGame.Update at hu
    split at hu
    · have h' := Option.some.inj hu
      subst h'
      exact ⟨counterTransition_of_same _ _ rfl, fun hi => hi⟩
    · simp only at hu
      split at hu
      · unfold TetrisGame.MovePieceDown at hu
        split at hu
        · cases hu
        · have h' := Option.some.inj hu
          subst h'
          exact ⟨Or.inl ⟨rfl, rfl, rfl⟩, fun hi => hi⟩
        · obtain ⟨l1, l2, l3, l4⟩ := LockPiece_returns _ s' fuel pieceIndex hu
          refine ⟨l1, fun hi => ⟨l2, ?_, l4⟩⟩
          rw [l3]
          exact hi.2.2
      · have h' := Option.some.inj hu
        subst h'
        exact ⟨Or.inl ⟨rfl, rfl, rfl⟩, fun hi => hi⟩
  | movePiece dx dz hm =>
    unfold TetrisGame.MovePiece at hm
    split at hm
    · cases hm
    · have h' := Option.some.inj hm
      subst h'
      exact ⟨Or.inl ⟨rfl, rfl, rfl⟩, fun hi => hi⟩
    · have h' := Option.some.inj hm
      subst h'
      exact ⟨Or.inl ⟨rfl, rfl, rfl⟩, fun hi => hi⟩
  | rotatePiece axis hr =>
    unfold TetrisGame.RotatePiece at hr
    simp only at hr
    split at hr
    · cases hr
    · have h' := Option.some.inj hr
      subst h'
      refine ⟨Or.inl ⟨rfl, rfl, rfl⟩, fun hi => ⟨hi.1, ?_, hi.2.2⟩⟩
      simp only [List.length_map]
      exact hi.2.1
    · have h' := Option.some.inj hr
      subst h'
      exact ⟨Or.inl ⟨rfl, rfl, rfl⟩, fun hi => hi⟩
  | instantDrop dropFuel fuel pieceIndex hd =>
    unfold TetrisGame.InstantDrop at hd
    cases hdesc : TetrisGame.InstantDrop.descend dropFuel s with
    | none => rw [hdesc] at hd; cases hd
    | some s1 =>
      rw [hdesc] at hd
      simp only at hd
      obtain ⟨d1, d2, d3⟩ := descend_returns dropFuel s s1 hdesc
      obtain ⟨l1, l2, l3, l4⟩ := LockPiece_returns s1 s' fuel pieceIndex hd
      refine ⟨?_, fun hi => ⟨l2, ?_, l4⟩⟩
      · unfold counterTransition at l1 ⊢
        rw [d1] at l1
        exact l1
      · rw [l3, d3]
        exact hi.2.2

theorem ResetGame_returns (s0 s : TetrisGame) (indeterminate : TetrisPiece)
    (pieceIndex1 pieceIndex2 : Fin TetrisGame.PIECES.length)
    (h : s0.ResetGame indeterminate pieceIndex1 pieceIndex2 = some s) :
    s.m_gameState.grid = emptyGrid ∧ s.m_gameState.score = 0 ∧ s.m_gameState.level = 0 ∧
    s.m_gameState.linesCleared = 0 ∧ s.m_currentPiece.blocks.length = 4 ∧
    s.m_nextPiece.blocks.length = 4 := by
  unfold TetrisGame.ResetGame at h
  simp only at h
  split at h
  · cases h
  · rename_i s4 h4
    obtain ⟨a1, a2, a3, a4, -, a6⟩ := SpawnNewPiece_returns _ s4 pieceIndex1 h4
    obtain ⟨b1, b2, b3, b4, b5, b6⟩ := SpawnNewPiece_returns s4 s pieceIndex2 h
    refine ⟨?_, ?_, ?_, ?_, ?_, b6⟩
    · rw [b1, a1]
    · rw [b2, a2]; rfl
    · rw [b3, a3]; rfl
    · rw [b4, a4]; rfl
    · rw [b5]; exact a6

/-- Below the line bound a returning action keeps the session invariant and the growth
bound, and does not decrease the score: the new score and line count are values of `int`,
so the reduction to 32 bits leaves them unchanged. -/
theorem sessionInv_step (s s' : TetrisGame) (hinv : sessionInv s) (hb : sessionBound s)
    (hle : s.m_gameState.linesCleared ≤ 14640) (ht : counterTransition s s') :
    (sessionInv s' ∧ sessionBound s') ∧ s.m_gameState.score ≤ s'.m_gameState.score := by
  obtain ⟨h1, h2, h3, h4⟩ := hinv
  obtain ⟨hb1, hb2⟩ := hb
  rcases ht with ⟨e1, e2, e3⟩ | ⟨k, t, hk1, hk4, ht0, e1, e2, e3⟩
  · unfold sessionInv sessionBound
    rw [e1, e2, e3]
    exact ⟨⟨⟨h1, h2, h3, h4⟩, hb1, hb2⟩, le_refl _⟩
  · have hq : s.m_gameState.linesCleared * s.m_gameState.linesCleared ≤ 14640 * 14640 :=
      mul_le_mul hle hle h3 (by decide)
    have hq0 : 0 ≤ s.m_gameState.linesCleared * s.m_gameState.linesCleared :=
      mul_nonneg h3 h3
    have hlines : fitsInt32 (s.m_gameState.linesCleared + (k : Int)) := by
      unfold fitsInt32
      omega
    have hl' : s'.m_gameState.linesCleared = s.m_gameState.linesCleared + (k : Int) := by
      rw [e2, wrapInt32_of_fits _ hlines]
    have hlv' : s'.m_gameState.level = (s.m_gameState.linesCleared + (k : Int)) / 10 := by
      rw [e3, wrapInt32_of_fits _ hlines]
      exact Int.tdiv_eq_ediv (by omega) (by decide)
    have hsq : (s.m_gameState.linesCleared + (k : Int)) *
        (s.m_gameState.linesCleared + (k : Int)) =
        s.m_gameState.linesCleared * s.m_gameState.linesCleared +
          2 * (k : Int) * s.m_gameState.linesCleared + (k : Int) * (k : Int) := by
      ring
    have hcases : k = 1 ∨ k = 2 ∨ k = 3 ∨ k = 4 := by omega
    have hscore : fitsInt32 (s.m_gameState.score + t * (s.m_gameState.level + 1)) ∧
        s.m_gameState.score ≤ s.m_gameState.score + t * (s.m_gameState.level + 1) ∧
        s.m_gameState.score + t * (s.m_gameState.level + 1) ≤
          10 * ((s.m_gameState.linesCleared + (k : Int)) *
            (s.m_gameState.linesCleared + (k : Int))) +
            160 * (s.m_gameState.linesCleared + (k : Int)) := by
      rw [hsq]
      unfold fitsInt32
      generalize s.m_gameState.linesCleared * s.m_gameState.linesCleared = q at hq hq0 hb2 ⊢
      rcases hcases with hk | hk | hk | hk <;> subst hk <;>
        simp only [Nat.reduceSub, List.getElem?_cons_zero, List.getElem?_cons_succ,
          Option.some.injEq] at ht0 <;> subst ht0 <;>
        simp only [Nat.cast_ofNat, Nat.cast_one] <;> omega
    have hs' : s'.m_gameState.score =
        s.m_gameState.score + t * (s.m_gameState.level + 1) := by
      rw [e1, wrapInt32_of_fits _ hscore.1]
    unfold sessionInv sessionBound
    rw [hs', hl', hlv']
    refine ⟨⟨⟨by omega, ?_, by omega, rfl⟩, by omega, hscore.2.2⟩, hscore.2.1⟩
    exact Int.ediv_nonneg (by omega) (by decide)

theorem ReachableWithin_reachable (bound : Int) (s : TetrisGame)
    (h : TetrisGame.ReachableWithin bound s) : TetrisGame.Reachable s := by
  induction h with
  | reset s0 s indeterminate pieceIndex1 pieceIndex2 hr =>
    exact TetrisGame.Reachable.reset s0 s indeterminate pieceIndex1 pieceIndex2 hr
  | step s s' _ _ hstep ih =>
    exact TetrisGame.Reachable.step s s' ih hstep

theorem ReachableWithin_invariants (s : TetrisGame)
    (h : TetrisGame.ReachableWithin 14640 s) : sessionInv s ∧ sessionBound s := by
  induction h with
  | reset s0 s indeterminate pieceIndex1 pieceIndex2 hr =>
    obtain ⟨r1, r2, r3, r4, r5, r6⟩ := ResetGame_returns s0 s indeterminate pieceIndex1
      pieceIndex2 hr
    unfold sessionInv sessionBound
    rw [r2, r3, r4]
    decide
  | step s s' _ hle hstep ih =>
    exact (sessionInv_step s s' ih.1 ih.2 hle (Step_effect s s' hstep).1).1

/-! ### A long game: filling the grid column by column -/

theorem cellFree_columnsGrid (k : Nat) (x y z : Int) :
    cellFree (columnsGrid k) x y z ↔
      inBounds x y z ∧ ¬ (y < 4 ∧ 6 * x + z < (k : Int)) := by
  constructor
  · intro h
    refine ⟨cellFree_inBounds h, ?_⟩
    obtain ⟨i, j, l, hi, hj, hl, hv⟩ := h
    simp only [columnsGrid, decide_eq_false_iff_not] at hv
    intro hc
    apply hv
    omega
  · rintro ⟨hin, hn⟩
    unfold inBounds at hin
    refine ⟨⟨x.toNat, by simp only [GRID_WIDTH]; omega⟩,
      ⟨y.toNat, by simp only [GRID_HEIGHT]; omega⟩,
      ⟨z.toNat, by simp only [GRID_DEPTH]; omega⟩, ?_, ?_, ?_, ?_⟩
    · simp only []; omega
    · simp only []; omega
    · simp only []; omega
    · simp only [columnsGrid, decide_eq_false_iff_not]
      omega

/-- On a grid of filled columns a piece is collision-free iff each of its cells is in
bounds and outside the filled columns. -/
theorem CheckCollision_columnsGrid_free (s : TetrisGame) (k : Nat)
    (hg : s.m_gameState.grid = columnsGrid k) (dx dy dz : Int) (piece : TetrisPiece)
    (h : ∀ b ∈ piece.blocks,
      inBounds (piece.position.x + b.x + dx) (piece.position.y + b.y + dy)
        (piece.position.z + b.z + dz) ∧
      ¬ (piece.position.y + b.y + dy < 4 ∧
        6 * (piece.position.x + b.x + dx) + (piece.position.z + b.z + dz) < (k : Int))) :
    s.CheckCollision dx dy dz piece = some false := by
  unfold TetrisGame.CheckCollision
  rw [CheckCollision_loop_false_iff, hg]
  intro b hb
  exact (cellFree_columnsGrid k _ _ _).mpr (h b hb)

theorem CheckCollision_out_of_bounds (s : TetrisGame) (dx dy dz : Int) (piece : TetrisPiece)
    (h : ∃ b ∈ piece.blocks,
      ¬ inBounds (piece.position.x + b.x + dx) (piece.position.y + b.y + dy)
        (piece.position.z + b.z + dz)) :
    s.CheckCollision dx dy dz piece = some true := by
  unfold TetrisGame.CheckCollision
  rw [CheckCollision_loop_true_iff]
  intro hfree
  obtain ⟨b, hb, hn⟩ := h
  exact hn (cellFree_inBounds (hfree b hb))

/-- `Update` with the timer at 0 and a time step equal to the drop interval lowers a piece
that is free to descend by one. -/
theorem Update_descends (s : TetrisGame) (fuel : Nat)
    (pieceIndex : Fin TetrisGame.PIECES.length) (hinit : s.m_isInitialized = true)
    (hover : s.m_gameState.isGameOver = false) (htimer : s.m_gameState.dropTimer = 0)
    (hfree : s.CheckCollision 0 (-1) 0 s.m_currentPiece = some false) :
    s.Update fuel pieceIndex s.m_gameState.dropInterval =
      some (withPiece s s.m_currentPiece.blocks
        ⟨s.m_currentPiece.position.x, s.m_currentPiece.position.y - 1,
          s.m_currentPiece.position.z⟩) := by
  obtain ⟨gs, cur, nxt, ini, prev⟩ := s
  obtain ⟨grid, cp, sc, lv, ln, over, tm, di⟩ := gs
  simp only at hinit hover htimer
  subst hinit hover htimer
  simp only [TetrisGame.CheckCollision] at hfree
  simp [TetrisGame.Update, TetrisGame.MovePieceDown, TetrisGame.CheckCollision, hfree,
    withPiece]

theorem RotatePiece_turns (s : TetrisGame) (axis : Char)
    (hfree : s.CheckCollision 0 0 0 (withPiece s
      (s.m_currentPiece.blocks.map (TetrisGame.RotatePiece.rotateBlock axis))
      s.m_currentPiece.position).m_currentPiece = some false) :
    s.RotatePiece axis = some (withPiece s
      (s.m_currentPiece.blocks.map (TetrisGame.RotatePiece.rotateBlock axis))
      s.m_currentPiece.position) := by
  unfold TetrisGame.RotatePiece
  simp only [withPiece] at hfree ⊢
  rw [hfree]

theorem MovePiece_moves (s : TetrisGame) (dx dz : Int)
    (hfree : s.CheckCollision dx 0 dz s.m_currentPiece = some false) :
    s.MovePiece dx dz = some (withPiece s s.m_currentPiece.blocks
      ⟨s.m_currentPiece.position.x + dx, s.m_currentPiece.position.y,
        s.m_currentPiece.position.z + dz⟩) := by
  unfold TetrisGame.MovePiece
  rw [hfree]
  rfl

theorem withPiece_self (s : TetrisGame) :
    withPiece s s.m_currentPiece.blocks s.m_currentPiece.position = s := rfl

/-- The upright I piece above an unfilled column falls to the floor. -/
theorem descend_upright (s : TetrisGame) (k cx cz : Nat)
    (hg : s.m_gameState.grid = columnsGrid k) (hk : k ≤ 6 * cx + cz) (hcx : cx < 6)
    (hcz : cz < 6) :
    ∀ y : Nat, y ≤ 8 →
      TetrisGame.InstantDrop.descend y (withPiece s blocksIUpright ⟨cx, y, cz⟩) =
        some (withPiece s blocksIUpright ⟨cx, 0, cz⟩) := by
  intro y
  induction y with
  | zero =>
    intro _
    rw [InstantDrop_descend_zero]
    have hc : (withPiece s blocksIUpright ⟨cx, ((0 : Nat) : Int), cz⟩).CheckCollision 0 (-1) 0
        (withPiece s blocksIUpright ⟨cx, ((0 : Nat) : Int), cz⟩).m_currentPiece = some true := by
      apply CheckCollision_out_of_bounds
      refine ⟨⟨0, 0, 0⟩, by simp [withPiece, blocksIUpright], ?_⟩
      simp [withPiece, inBounds]
    rw [hc]
    rfl
  | succ n ih =>
    intro hn
    rw [InstantDrop_descend_succ]
    have hc : (withPiece s blocksIUpright ⟨cx, ((n + 1 : Nat) : Int), cz⟩).CheckCollision
        0 (-1) 0
        (withPiece s blocksIUpright ⟨cx, ((n + 1 : Nat) : Int), cz⟩).m_currentPiece =
          some false := by
      apply CheckCollision_columnsGrid_free _ k hg
      intro b hb
      simp only [withPiece, blocksIUpright, List.mem_cons, List.mem_singleton,
        List.not_mem_nil, or_false] at hb
      simp only [withPiece, inBounds]
      rcases hb with rfl | rfl | rfl | rfl <;> simp only [] <;> omega
    rw [hc]
    have hpos : (((n + 1 : Nat) : Int) - 1) = (n : Int) := by push_cast; ring
    simp only [withPiece, hpos]
    exact ih (by omega)

/-- Writing the upright I piece on the floor of the next column fills that column. -/
theorem lockBlocks_upright (cx cz : Nat) (hcx : cx < 6) (hcz : cz < 6) :
    lockBlocks ⟨cx, 0, cz⟩ (columnsGrid (6 * cx + cz)) blocksIUpright =
      some (columnsGrid (6 * cx + cz + 1)) := by
  obtain ⟨grid1, hw, hcells⟩ := lockBlocks_spec ⟨cx, 0, cz⟩ blocksIUpright
    (columnsGrid (6 * cx + cz)) (by
      intro b hb
      simp only [blocksIUpright, List.mem_cons, List.mem_singleton, List.not_mem_nil,
        or_false] at hb
      simp only [inBounds]
      rcases hb with rfl | rfl | rfl | rfl <;> simp only [] <;> omega)
  rw [hw]
  congr 1
  funext i j l
  have h := hcells i j l
  have hi := i.isLt
  have hj := j.isLt
  have hl := l.isLt
  simp only [GRID_WIDTH, GRID_HEIGHT, GRID_DEPTH] at hi hj hl
  rw [Bool.eq_iff_iff, h]
  simp only [columnsGrid, decide_eq_true_eq, blocksIUpright, List.mem_cons,
    List.mem_singleton, List.not_mem_nil, or_false, exists_eq_or_imp, exists_eq_left]
  omega

theorem columnsGrid_zero : columnsGrid 0 = emptyGrid := by
  funext i j l
  simp [columnsGrid, emptyGrid]

theorem columnsGrid_full : columnsGrid 36 = gridFourFull := by
  funext i j l
  have hi := i.isLt
  have hl := l.isLt
  simp only [GRID_WIDTH, GRID_DEPTH] at hi hl
  simp only [columnsGrid, gridFourFull, gridWithFullLayers, decide_eq_decide]
  omega

theorem columnsGrid_no_full_layer (k : Nat) (hk : k < 36) :
    fullLayerCount (columnsGrid k) = 0 := by
  rw [fullLayerCount_eq_filter, List.length_eq_zero, List.filter_eq_nil_iff]
  intro y _ hfull
  rw [layerComplete_iff] at hfull
  have h := hfull ⟨5, by decide⟩ ⟨5, by decide⟩
  simp only [columnsGrid, decide_eq_true_eq] at h
  omega

theorem gridFourFull_count : fullLayerCount gridFourFull = 4 := by decide

theorem gridFourFull_compacted (grid1 : GridType)
    (h : layers grid1 = (layers gridFourFull).filter (fun l => !layerFull l) ++
      List.replicate (fullLayerCount gridFourFull) emptyLayer) : grid1 = emptyGrid := by
  apply layers_injective
  rw [h]
  decide

/-- Spawning the I piece while the top layer is empty: the next piece becomes active at the
spawn location, the new next piece is the I piece, nothing else changes. -/
theorem SpawnNewPiece_I (s : TetrisGame) (k : Nat) (hg : s.m_gameState.grid = columnsGrid k)
    (hb : s.m_nextPiece.blocks = blocksI) (hp : s.m_nextPiece.position = ⟨2, 11, 2⟩) :
    ∃ s', s.SpawnNewPiece ⟨0, by decide⟩ = some s' ∧ s'.m_gameState = s.m_gameState ∧
      s'.m_currentPiece.blocks = blocksI ∧ s'.m_currentPiece.position = ⟨2, 11, 2⟩ ∧
      s'.m_nextPiece.blocks = blocksI ∧ s'.m_nextPiece.position = ⟨2, 11, 2⟩ ∧
      s'.m_isInitialized = s.m_isInitialized := by
  have hc : TetrisGame.CheckCollision.loop s.m_gameState.grid 0 0 0 s.m_nextPiece.position
      s.m_nextPiece.blocks = some false := by
    apply CheckCollision_columnsGrid_free s k hg
    intro b hb'
    rw [hb] at hb'
    rw [hp]
    simp only [blocksI, List.mem_cons, List.mem_singleton, List.not_mem_nil, or_false] at hb'
    simp only [inBounds]
    rcases hb' with rfl | rfl | rfl | rfl <;> simp only [] <;> omega
  unfold TetrisGame.SpawnNewPiece
  simp only [TetrisGame.CheckCollision, hc]
  exact ⟨_, rfl, rfl, hb, hp, rfl, rfl, rfl⟩

/-- `CheckLines` on the grid whose layers 0 to 3 are full: the grid becomes empty and the
counters are updated with the four-layer score. -/
theorem CheckLines_fourFull (s : TetrisGame) (hg : s.m_gameState.grid = gridFourFull) :
    ∃ s2, s.CheckLines 24 = some s2 ∧ s2.m_gameState.grid = emptyGrid ∧
      s2.m_nextPiece = s.m_nextPiece ∧ s2.m_isInitialized = s.m_isInitialized ∧
      s2.m_gameState.isGameOver = s.m_gameState.isGameOver ∧
      s2.m_gameState.dropTimer = s.m_gameState.dropTimer ∧
      s2.m_gameState.score =
        wrapInt32 (s.m_gameState.score + 800 * (s.m_gameState.level + 1)) ∧
      s2.m_gameState.linesCleared = wrapInt32 (s.m_gameState.linesCleared + 4) ∧
      s2.m_gameState.level = Int.tdiv (wrapInt32 (s.m_gameState.linesCleared + 4)) 10 := by
  have hcount : fullLayerCount s.m_gameState.grid = 4 := by
    rw [hg]
    exact gridFourFull_count
  obtain ⟨grid1, hl, hr⟩ := CheckLines_some_full_layer s 24 (by decide) 800
    (by rw [hcount]; decide) (by rw [hcount]; decide)
  rw [hg] at hl
  have hempty : grid1 = emptyGrid := gridFourFull_compacted grid1 hl
  rw [hcount] at hr
  exact ⟨_, hr, hempty, rfl, rfl, rfl, rfl, addInt32_mulInt32 _ _ _, rfl, rfl⟩

/-- Locking the upright I piece on the floor of the next unfilled column: below the last
column the game is ready for the next column with unchanged counters; the last column
completes the layers 0 to 3, which are cleared with the four-layer score. -/
theorem LockPiece_upright (s : TetrisGame) (cx cz : Nat) (hcx : cx < 6) (hcz : cz < 6)
    (hready : columnsReady (6 * cx + cz) s) :
    ∃ s', (withPiece s blocksIUpright ⟨cx, 0, cz⟩).LockPiece 24 ⟨0, by decide⟩ = some s' ∧
      (6 * cx + cz < 35 → columnsReady (6 * cx + cz + 1) s' ∧
        s'.m_gameState.score = s.m_gameState.score ∧
        s'.m_gameState.level = s.m_gameState.level ∧
        s'.m_gameState.linesCleared = s.m_gameState.linesCleared) ∧
      (6 * cx + cz = 35 → columnsReady 0 s' ∧
        s'.m_gameState.score =
          wrapInt32 (s.m_gameState.score + 800 * (s.m_gameState.level + 1)) ∧
        s'.m_gameState.linesCleared = wrapInt32 (s.m_gameState.linesCleared + 4) ∧
        s'.m_gameState.level = Int.tdiv (wrapInt32 (s.m_gameState.linesCleared + 4)) 10) := by
  obtain ⟨hg, -, -, hnb, hnp, hinit, hover, htimer⟩ := hready
  have hw : TetrisGame.LockPiece.write (withPiece s blocksIUpright ⟨cx, 0, cz⟩) =
      some { withPiece s blocksIUpright ⟨cx, 0, cz⟩ with
        m_gameState := { s.m_gameState with grid := columnsGrid (6 * cx + cz + 1) } } := by
    unfold TetrisGame.LockPiece.write
    simp only [withPiece, hg]
    have h := lockBlocks_upright cx cz hcx hcz
    simp only [Nat.cast_ofNat] at h ⊢
    rw [h]
  unfold TetrisGame.LockPiece
  rw [hw]
  simp only
  by_cases hlast : 6 * cx + cz < 35
  · rw [CheckLines_no_full_layer _ 24 (by decide)
      (columnsGrid_no_full_layer (6 * cx + cz + 1) (by omega))]
    simp only
    obtain ⟨s', hs, h1, h2, h3, h4, h5, h6⟩ := SpawnNewPiece_I
      { withPiece s blocksIUpright ⟨cx, 0, cz⟩ with
        m_gameState := { s.m_gameState with grid := columnsGrid (6 * cx + cz + 1) } }
      (6 * cx + cz + 1) rfl hnb hnp
    refine ⟨s', hs, ?_, ?_⟩
    · intro _
      refine ⟨⟨?_, h2, h3, h4, h5, ?_, ?_, ?_⟩, ?_, ?_, ?_⟩
      · rw [h1]
      · rw [h6]; exact hinit
      · rw [h1]; exact hover
      · rw [h1]; exact htimer
      · rw [h1]
      · rw [h1]
      · rw [h1]
    · intro h35
      omega
  · have h35 : 6 * cx + cz = 35 := by omega
    have hfull : columnsGrid (6 * cx + cz + 1) = gridFourFull := by
      rw [h35]
      exact columnsGrid_full
    rw [hfull]
    obtain ⟨s2, hc, c1, c2, c3, c4, c5, c6, c7, c8⟩ := CheckLines_fourFull
      { withPiece s blocksIUpright ⟨cx, 0, cz⟩ with
        m_gameState := { s.m_gameState with grid := gridFourFull } } rfl
    rw [hc]
    simp only
    obtain ⟨s', hs, h1, h2, h3, h4, h5, h6⟩ := SpawnNewPiece_I s2 0
      (by rw [c1, columnsGrid_zero]) (by rw [c2]; exact hnb) (by rw [c2]; exact hnp)
    refine ⟨s', hs, ?_, ?_⟩
    · intro hlt
      omega
    · intro _
      refine ⟨⟨?_, h2, h3, h4, h5, ?_, ?_, ?_⟩, ?_, ?_, ?_⟩
      · rw [h1, c1, columnsGrid_zero]
      · rw [h6, c3]; exact hinit
      · rw [h1, c4]; exact hover
      · rw [h1, c5]; exact htimer
      · rw [h1, c6]
      · rw [h1, c7]
      · rw [h1, c8]

theorem reach_update (bound : Int) (s : TetrisGame) (B : List XMFLOAT3) (P : XMFLOAT3)
    (hR : TetrisGame.ReachableWithin bound (withPiece s B P))
    (hle : s.m_gameState.linesCleared ≤ bound) (hinit : s.m_isInitialized = true)
    (hover : s.m_gameState.isGameOver = false) (htimer : s.m_gameState.dropTimer = 0)
    (hfree : (withPiece s B P).CheckCollision 0 (-1) 0 (withPiece s B P).m_currentPiece =
      some false) :
    TetrisGame.ReachableWithin bound (withPiece s B ⟨P.x, P.y - 1, P.z⟩) :=
  TetrisGame.ReachableWithin.step _ _ hR hle
    (TetrisGame.Step.update _ _ 24 ⟨0, by decide⟩ _
      (Update_descends (withPiece s B P) 24 ⟨0, by decide⟩ hinit hover htimer hfree))

theorem reach_rotate (bound : Int) (s : TetrisGame) (B : List XMFLOAT3) (P : XMFLOAT3)
    (axis : Char) (hR : TetrisGame.ReachableWithin bound (withPiece s B P))
    (hle : s.m_gameState.linesCleared ≤ bound)
    (hfree : (withPiece s B P).CheckCollision 0 0 0
      (withPiece s (B.map (TetrisGame.RotatePiece.rotateBlock axis)) P).m_currentPiece =
        some false) :
    TetrisGame.ReachableWithin bound
      (withPiece s (B.map (TetrisGame.RotatePiece.rotateBlock axis)) P) :=
  TetrisGame.ReachableWithin.step _ _ hR hle
    (TetrisGame.Step.rotatePiece _ _ axis (RotatePiece_turns (withPiece s B P) axis hfree))

theorem reach_move (bound : Int) (s : TetrisGame) (B : List XMFLOAT3) (P : XMFLOAT3)
    (dx dz : Int) (hR : TetrisGame.ReachableWithin bound (withPiece s B P))
    (hle : s.m_gameState.linesCleared ≤ bound)
    (hfree : (withPiece s B P).CheckCollision dx 0 dz (withPiece s B P).m_currentPiece =
      some false) :
    TetrisGame.ReachableWithin bound (withPiece s B ⟨P.x + dx, P.y, P.z + dz⟩) :=
  TetrisGame.ReachableWithin.step _ _ hR hle
    (TetrisGame.Step.movePiece _ _ dx dz (MovePiece_moves (withPiece s B P) dx dz hfree))

/-- From a ready state the active I piece can be lowered by three `Update`s, turned upright
by `RotatePiece('z')` and moved by `MovePiece` above any column. -/
theorem reach_above_column (bound : Int) (s : TetrisGame) (k cx cz : Nat) (hcx : cx < 6)
    (hcz : cz < 6) (hready : columnsReady k s)
    (hR : TetrisGame.ReachableWithin bound s) (hle : s.m_gameState.linesCleared ≤ bound) :
    TetrisGame.ReachableWithin bound (withPiece s blocksIUpright ⟨cx, 8, cz⟩) := by
  obtain ⟨hg, hb, hp, -, -, hinit, hover, htimer⟩ := hready
  have e : withPiece s blocksI ⟨2, 11, 2⟩ = s := by
    have h := withPiece_self s
    rw [hb, hp] at h
    exact h
  have hflat : ∀ y : Int, 4 ≤ y → y ≤ 11 →
      (withPiece s blocksI ⟨2, y + 1, 2⟩).CheckCollision 0 (-1) 0
        (withPiece s blocksI ⟨2, y + 1, 2⟩).m_currentPiece = some false := by
    intro y hy4 hy11
    apply CheckCollision_columnsGrid_free _ k hg
    intro b hb'
    simp only [withPiece, blocksI, List.mem_cons, List.mem_singleton, List.not_mem_nil,
      or_false] at hb'
    simp only [withPiece, inBounds]
    rcases hb' with rfl | rfl | rfl | rfl <;> simp only [] <;> omega
  have r11 : TetrisGame.ReachableWithin bound (withPiece s blocksI ⟨2, 10 + 1, 2⟩) := by
    rw [show ((10 : Int) + 1) = 11 by decide, e]
    exact hR
  have r10 : TetrisGame.ReachableWithin bound (withPiece s blocksI ⟨2, 9 + 1, 2⟩) :=
    reach_update bound s blocksI ⟨2, 10 + 1, 2⟩ r11 hle hinit hover htimer
      (hflat 10 (by decide) (by decide))
  have r9 : TetrisGame.ReachableWithin bound (withPiece s blocksI ⟨2, 8 + 1, 2⟩) :=
    reach_update bound s blocksI ⟨2, 9 + 1, 2⟩ r10 hle hinit hover htimer
      (hflat 9 (by decide) (by decide))
  have r8 : TetrisGame.ReachableWithin bound (withPiece s blocksI ⟨2, 8, 2⟩) :=
    reach_update bound s blocksI ⟨2, 8 + 1, 2⟩ r9 hle hinit hover htimer
      (hflat 8 (by decide) (by decide))
  have hturn : blocksI.map (TetrisGame.RotatePiece.rotateBlock 'z') = blocksIUpright := by
    decide
  have hup : ∀ (x z dx dz : Int), 0 ≤ x + dx → x + dx < 6 → 0 ≤ z + dz → z + dz < 6 →
      ∀ t : TetrisGame, t.m_gameState.grid = columnsGrid k →
      t.CheckCollision dx 0 dz (withPiece s blocksIUpright ⟨x, 8, z⟩).m_currentPiece =
        some false := by
    intro x z dx dz hx0 hx6 hz0 hz6 t ht
    apply CheckCollision_columnsGrid_free t k ht
    intro b hb'
    simp only [withPiece, blocksIUpright, List.mem_cons, List.mem_singleton,
      List.not_mem_nil, or_false] at hb'
    simp only [withPiece, inBounds]
    rcases hb' with rfl | rfl | rfl | rfl <;> simp only [] <;> omega
  have u8 : TetrisGame.ReachableWithin bound (withPiece s blocksIUpright ⟨2, 8, 2⟩) := by
    have h := reach_rotate bound s blocksI ⟨2, 8, 2⟩ 'z' r8 hle (by
      rw [hturn]
      exact hup 2 2 0 0 (by decide) (by decide) (by decide) (by decide) _ hg)
    rw [hturn] at h
    exact h
  have hmove := reach_move bound s blocksIUpright ⟨2, 8, 2⟩ ((cx : Int) - 2) ((cz : Int) - 2)
    u8 hle (hup 2 2 ((cx : Int) - 2) ((cz : Int) - 2) (by omega) (by omega) (by omega)
      (by omega) _ hg)
  have hx : (2 : Int) + ((cx : Int) - 2) = cx := by ring
  have hz : (2 : Int) + ((cz : Int) - 2) = cz := by ring
  simp only [hx, hz] at hmove
  exact hmove

/-- One piece of the long game: from a ready state with `6 * cx + cz` filled columns a state
with the same counters is reached in which `InstantDrop` fills the next column. -/
theorem longGame_piece (bound : Int) (s : TetrisGame) (cx cz : Nat) (hcx : cx < 6) (hcz : cz < 6)
    (hready : columnsReady (6 * cx + cz) s) (hR : TetrisGame.ReachableWithin bound s)
    (hle : s.m_gameState.linesCleared ≤ bound) :
    ∃ p s', TetrisGame.ReachableWithin bound p ∧ p.m_gameState = s.m_gameState ∧
      TetrisGame.Step p s' ∧
      (6 * cx + cz < 35 → columnsReady (6 * cx + cz + 1) s' ∧
        s'.m_gameState.score = s.m_gameState.score ∧
        s'.m_gameState.level = s.m_gameState.level ∧
        s'.m_gameState.linesCleared = s.m_gameState.linesCleared) ∧
      (6 * cx + cz = 35 → columnsReady 0 s' ∧
        s'.m_gameState.score =
          wrapInt32 (s.m_gameState.score + 800 * (s.m_gameState.level + 1)) ∧
        s'.m_gameState.linesCleared = wrapInt32 (s.m_gameState.linesCleared + 4) ∧
        s'.m_gameState.level = Int.tdiv (wrapInt32 (s.m_gameState.linesCleared + 4)) 10) := by
  have hp := reach_above_column bound s (6 * cx + cz) cx cz hcx hcz hready hR hle
  obtain ⟨s', hlock, h1, h2⟩ := LockPiece_upright s cx cz hcx hcz hready
  have hdesc := descend_upright s (6 * cx + cz) cx cz hready.1 (le_refl _) hcx hcz 8
    (le_refl _)
  refine ⟨_, s', hp, rfl, ?_, h1, h2⟩
  apply TetrisGame.Step.instantDrop _ _ 8 24 ⟨0, by decide⟩
  unfold TetrisGame.InstantDrop
  simp only [Nat.cast_ofNat] at hdesc
  rw [hdesc]
  exact hlock

/-- The first `k ≤ 35` columns can be filled without changing the counters. -/
theorem longGame_columns (bound : Int) (s0 : TetrisGame) (hready0 : columnsReady 0 s0)
    (hR0 : TetrisGame.ReachableWithin bound s0) (hle0 : s0.m_gameState.linesCleared ≤ bound) :
    ∀ k : Nat, k ≤ 35 → ∃ s, TetrisGame.ReachableWithin bound s ∧ columnsReady k s ∧
      s.m_gameState.score = s0.m_gameState.score ∧
      s.m_gameState.level = s0.m_gameState.level ∧
      s.m_gameState.linesCleared = s0.m_gameState.linesCleared := by
  intro k
  induction k with
  | zero =>
    intro _
    exact ⟨s0, hR0, hready0, rfl, rfl, rfl⟩
  | succ n ih =>
    intro hn
    obtain ⟨s, hR, hready, e1, e2, e3⟩ := ih (by omega)
    have hsplit : 6 * (n / 6) + n % 6 = n := Nat.div_add_mod n 6
    rw [← hsplit] at hready
    obtain ⟨p, s', hp, hpg, hstep, h1, -⟩ := longGame_piece bound s (n / 6) (n % 6) (by omega)
      (by omega) hready hR (by rw [e3]; exact hle0)
    obtain ⟨r, c1, c2, c3⟩ := h1 (by omega)
    rw [hsplit] at r
    refine ⟨s', ?_, r, by rw [c1, e1], by rw [c2, e2], by rw [c3, e3]⟩
    exact TetrisGame.ReachableWithin.step p s' hp (by rw [hpg, e3]; exact hle0) hstep

/-- One round of the long game: 36 upright I pieces fill the layers 0 to 3; the last
`InstantDrop` clears them, and the counters are updated on 32-bit `int`. -/
theorem longGame_round (bound : Int) (s0 : TetrisGame) (hready0 : columnsReady 0 s0)
    (hR0 : TetrisGame.ReachableWithin bound s0) (hle0 : s0.m_gameState.linesCleared ≤ bound) :
    ∃ p s', TetrisGame.ReachableWithin bound p ∧
      p.m_gameState.score = s0.m_gameState.score ∧
      p.m_gameState.level = s0.m_gameState.level ∧
      p.m_gameState.linesCleared = s0.m_gameState.linesCleared ∧
      TetrisGame.Step p s' ∧ TetrisGame.ReachableWithin bound s' ∧ columnsReady 0 s' ∧
      s'.m_gameState.score =
        wrapInt32 (s0.m_gameState.score + 800 * (s0.m_gameState.level + 1)) ∧
      s'.m_gameState.linesCleared = wrapInt32 (s0.m_gameState.linesCleared + 4) ∧
      s'.m_gameState.level =
        Int.tdiv (wrapInt32 (s0.m_gameState.linesCleared + 4)) 10 := by
  obtain ⟨s, hR, hready, e1, e2, e3⟩ := longGame_columns bound s0 hready0 hR0 hle0 35 (le_refl _)
  obtain ⟨p, s', hp, hpg, hstep, -, h2⟩ := longGame_piece bound s 5 5 (by decide) (by decide)
    hready hR (by rw [e3]; exact hle0)
  obtain ⟨r, c1, c2, c3⟩ := h2 rfl
  refine ⟨p, s', hp, by rw [hpg, e1], by rw [hpg, e2], by rw [hpg, e3], hstep, ?_, r,
    by rw [c1, e1, e2], by rw [c2, e3], by rw [c3, e3]⟩
  exact TetrisGame.ReachableWithin.step p s' hp (by rw [hpg, e3]; exact hle0) hstep

/-- A round of the long game in which no counter leaves the `int` range. -/
theorem longGame_round_exact (bound : Int) (s0 : TetrisGame) (hready0 : columnsReady 0 s0)
    (hR0 : TetrisGame.ReachableWithin bound s0) (hle0 : s0.m_gameState.linesCleared ≤ bound)
    (h0 : 0 ≤ s0.m_gameState.linesCleared) (hl : s0.m_gameState.linesCleared ≤ 2147483643)
    (hfit : fitsInt32 (s0.m_gameState.score + 800 * (s0.m_gameState.level + 1))) :
    ∃ s', TetrisGame.ReachableWithin bound s' ∧ columnsReady 0 s' ∧
      s'.m_gameState.score = s0.m_gameState.score + 800 * (s0.m_gameState.level + 1) ∧
      s'.m_gameState.linesCleared = s0.m_gameState.linesCleared + 4 ∧
      s'.m_gameState.level = (s0.m_gameState.linesCleared + 4) / 10 := by
  obtain ⟨p, s', -, -, -, -, -, hR, r, c1, c2, c3⟩ := longGame_round bound s0 hready0 hR0 hle0
  have hlines : fitsInt32 (s0.m_gameState.linesCleared + 4) := by
    unfold fitsInt32
    omega
  rw [wrapInt32_of_fits _ hfit] at c1
  rw [wrapInt32_of_fits _ hlines] at c2 c3
  refine ⟨s', hR, r, c1, c2, ?_⟩
  rw [c3]
  exact Int.tdiv_eq_ediv (by omega) (by decide)

/-- The start of the long game: `ResetGame` with both draws the I piece. -/
theorem longGame_start (bound : Int) :
    ∃ s, TetrisGame.ReachableWithin bound s ∧ columnsReady 0 s ∧ s.m_gameState.score = 0 ∧
      s.m_gameState.level = 0 ∧ s.m_gameState.linesCleared = 0 := by
  have hr : ∃ s, (sessionGame emptyGrid 0 0 0).ResetGame (samplePieceAt ⟨0, 0, 0⟩)
      ⟨0, by decide⟩ ⟨0, by decide⟩ = some s ∧ columnsReady 0 s ∧ s.m_gameState.score = 0 ∧
      s.m_gameState.level = 0 ∧ s.m_gameState.linesCleared = 0 := by
    refine ⟨_, rfl, ⟨?_, rfl, rfl, rfl, rfl, rfl, rfl, rfl⟩, rfl, rfl, rfl⟩
    exact columnsGrid_zero.symm
  obtain ⟨s, h, hready, h1, h2, h3⟩ := hr
  exact ⟨s, TetrisGame.ReachableWithin.reset _ s _ _ _ h, hready, h1, h2, h3⟩

/-- After `m ≤ 732` blocks of five rounds the long game has cleared `20 * m` lines, is at
level `2 * m` and has the score `4000 * m^2 + 1600 * m`. -/
theorem longGame_blocks : ∀ m : Nat, m ≤ 732 →
    ∃ s, TetrisGame.ReachableWithin 14648 s ∧ columnsReady 0 s ∧
      s.m_gameState.linesCleared = 20 * (m : Int) ∧ s.m_gameState.level = 2 * (m : Int) ∧
      s.m_gameState.score = 4000 * ((m : Int) * (m : Int)) + 1600 * (m : Int) := by
  intro m
  induction m with
  | zero =>
    intro _
    obtain ⟨s, hR, hready, h1, h2, h3⟩ := longGame_start 14648
    exact ⟨s, hR, hready, by rw [h3]; rfl, by rw [h2]; rfl, by rw [h1]; rfl⟩
  | succ n ih =>
    intro hn
    obtain ⟨s, hR, hready, l0, v0, s0⟩ := ih (by omega)
    have hq : (n : Int) * (n : Int) ≤ 731 * 731 :=
      mul_le_mul (by omega) (by omega) (by omega) (by decide)
    have hq0 : 0 ≤ (n : Int) * (n : Int) := mul_nonneg (by omega) (by omega)
    have hsq : ((n + 1 : Nat) : Int) * ((n + 1 : Nat) : Int) =
        (n : Int) * (n : Int) + 2 * (n : Int) + 1 := by
      push_cast
      ring
    rw [hsq]
    generalize (n : Int) * (n : Int) = q at hq hq0 s0 ⊢
    obtain ⟨s1, hR1, r1, c1, l1, v1⟩ := longGame_round_exact 14648 s hready hR (by omega)
      (by omega) (by omega) (by unfold fitsInt32; omega)
    obtain ⟨s2, hR2, r2, c2, l2, v2⟩ := longGame_round_exact 14648 s1 r1 hR1 (by omega)
      (by omega) (by omega) (by unfold fitsInt32; omega)
    obtain ⟨s3, hR3, r3, c3, l3, v3⟩ := longGame_round_exact 14648 s2 r2 hR2 (by omega)
      (by omega) (by omega) (by unfold fitsInt32; omega)
    obtain ⟨s4, hR4, r4, c4, l4, v4⟩ := longGame_round_exact 14648 s3 r3 hR3 (by omega)
      (by omega) (by omega) (by unfold fitsInt32; omega)
    obtain ⟨s5, hR5, r5, c5, l5, v5⟩ := longGame_round_exact 14648 s4 r4 hR4 (by omega)
      (by omega) (by omega) (by unfold fitsInt32; omega)
    refine ⟨s5, hR5, r5, ?_, ?_, ?_⟩
    · push_cast
      omega
    · push_cast
      omega
    · push_cast
      omega

/-- C21 (counterexample): the game that fills the grid with upright I pieces, four layers
per round, reaches after 3662 rounds a state with 14648 cleared lines, level 1464 and score
2146811200; the `InstantDrop` that completes the next round adds `800 * 1465` on the 32-bit
`int` score and leaves it at `-2146984096`: the score has decreased and is negative in a
state reachable from `ResetGame`. -/
theorem C21_score_wraps_in_long_game :
    ∃ s s', TetrisGame.Reachable s ∧ TetrisGame.Step s s' ∧ TetrisGame.Reachable s' ∧
      s.m_gameState.linesCleared = 14648 ∧ s.m_gameState.level = 1464 ∧
      s.m_gameState.score = 2146811200 ∧ s'.m_gameState.score = -2146984096 ∧
      s'.m_gameState.score < s.m_gameState.score ∧ s'.m_gameState.score < 0 := by
  obtain ⟨s0, hR0, r0, l0, v0, c0⟩ := longGame_blocks 732 (le_refl _)
  have l0' : s0.m_gameState.linesCleared = 14640 := by rw [l0]; decide
  have v0' : s0.m_gameState.level = 1464 := by rw [v0]; decide
  have c0' : s0.m_gameState.score = 2144467200 := by rw [c0]; decide
  obtain ⟨s1, hR1, r1, c1, l1, v1⟩ := longGame_round_exact 14648 s0 r0 hR0 (by omega)
    (by omega) (by omega) (by unfold fitsInt32; omega)
  obtain ⟨s2, hR2, r2, c2, l2, v2⟩ := longGame_round_exact 14648 s1 r1 hR1 (by omega)
    (by omega) (by omega) (by unfold fitsInt32; omega)
  obtain ⟨p, s', hp, pc, pv, pl, hstep, hs', -, c3, -, -⟩ := longGame_round 14648 s2 r2 hR2
    (by omega)
  have hl : p.m_gameState.linesCleared = 14648 := by omega
  have hv : p.m_gameState.level = 1464 := by omega
  have hc : p.m_gameState.score = 2146811200 := by omega
  have hc' : s'.m_gameState.score = -2146984096 := by
    rw [c3, ← pc, ← pv, hc, hv]
    decide
  refine ⟨p, s', ReachableWithin_reachable _ p hp, hstep, ReachableWithin_reachable _ s' hs',
    hl, hv, hc, hc', ?_, ?_⟩
  · rw [hc', hc]
    decide
  · rw [hc']
    decide

/-- C21 (amended): in every state reached from `ResetGame` through `Update`, `MovePiece`,
`RotatePiece` and `InstantDrop`, each of them started with `linesCleared ≤ 14640`, the
counters `score`, `level` and `linesCleared` are non-negative, `level = linesCleared / 10`,
`linesCleared ≤ 14644`, `score ≤ 10 * linesCleared^2 + 160 * linesCleared ≤ 2147483647`,
and a further action started with `linesCleared ≤ 14640` does not decrease the score. -/
theorem C21_session_invariants (s : TetrisGame) (h : TetrisGame.ReachableWithin 14640 s) :
    TetrisGame.Reachable s ∧
    0 ≤ s.m_gameState.score ∧ 0 ≤ s.m_gameState.level ∧ 0 ≤ s.m_gameState.linesCleared ∧
    s.m_gameState.level = s.m_gameState.linesCleared / 10 ∧
    s.m_gameState.linesCleared ≤ 14644 ∧
    s.m_gameState.score ≤
      10 * (s.m_gameState.linesCleared * s.m_gameState.linesCleared) +
        160 * s.m_gameState.linesCleared ∧
    s.m_gameState.score ≤ 2147483647 ∧
    (s.m_gameState.linesCleared ≤ 14640 →
      ∀ s', TetrisGame.Step s s' → s.m_gameState.score ≤ s'.m_gameState.score) := by
  obtain ⟨hinv, hb⟩ := ReachableWithin_invariants s h
  have hq : s.m_gameState.linesCleared * s.m_gameState.linesCleared ≤ 14644 * 14644 :=
    mul_le_mul hb.1 hb.1 hinv.2.2.1 (by decide)
  refine ⟨ReachableWithin_reachable _ s h, hinv.1, hinv.2.1, hinv.2.2.1, hinv.2.2.2, hb.1,
    hb.2, ?_, ?_⟩
  · have h2 := hb.2
    have h1 := hb.1
    generalize s.m_gameState.linesCleared * s.m_gameState.linesCleared = q at hq h2
    omega
  · intro hle s' hstep
    exact (sessionInv_step s s' hinv hb hle (Step_effect s s' hstep).1).2

/-- Witness for C21: the state after the first round of the long game (36 upright I
pieces, the last `InstantDrop` clearing four layers) has 4 cleared lines, level 0 and score
800, and no further action decreases that score. -/
theorem C21_session_invariants_witness :
    ∃ s, TetrisGame.ReachableWithin 14640 s ∧ s.m_gameState.linesCleared = 4 ∧
      s.m_gameState.score = 800 ∧ s.m_gameState.level = 0 ∧
      s.m_gameState.level = s.m_gameState.linesCleared / 10 ∧
      ∀ s', TetrisGame.Step s s' → 800 ≤ s'.m_gameState.score := by
  obtain ⟨s0, hR0, r0, c0, v0, l0⟩ := longGame_start 14640
  obtain ⟨s, hR, -, c1, l1, v1⟩ := longGame_round_exact 14640 s0 r0 hR0 (by rw [l0]; decide)
    (by rw [l0]) (by rw [l0]; decide) (by rw [c0, v0]; decide)
  have hl : s.m_gameState.linesCleared = 4 := by rw [l1, l0]; rfl
  have hc : s.m_gameState.score = 800 := by rw [c1, c0, v0]; rfl
  have hv : s.m_gameState.level = 0 := by rw [v1, l0]; rfl
  have hthm := C21_session_invariants s hR
  refine ⟨s, hR, hl, hc, hv, hthm.2.2.2.2.1, ?_⟩
  intro s' hstep
  rw [← hc]
  exact hthm.2.2.2.2.2.2.2.2 (by rw [hl]; decide) s' hstep

/-- C24 (counterexample): the coordinate `(0, 12, 0)` lies outside the grid (above the
top), yet the free `CheckCollision` returns `false` for it. -/
theorem C24_CheckCollision_above_top_is_free :
    ¬ inBounds 0 12 0 ∧ GameStateCpp.CheckCollision emptyGrid 0 12 0 = some false := by
  decide

/-- C24 (amended): the free `CheckCollision(x, y, z)` returns `true` for every coordinate
with `x` outside `[0,6)`, `z` outside `[0,6)` or `y < 0`; for `x`, `z` in range and
`y ≥ 12` it returns `false` without reading the grid; it never indexes the grid out of
range. -/
theorem C24_CheckCollision_amended (g_gameGrid : GridType) (x y z : Int) :
    (x < 0 ∨ 6 ≤ x ∨ y < 0 ∨ z < 0 ∨ 6 ≤ z →
      GameStateCpp.CheckCollision g_gameGrid x y z = some true) ∧
    ((0 ≤ x ∧ x < 6) ∧ (0 ≤ z ∧ z < 6) ∧ 12 ≤ y →
      GameStateCpp.CheckCollision g_gameGrid x y z = some false) ∧
    GameStateCpp.CheckCollision g_gameGrid x y z ≠ none := by
  refine ⟨?_, ?_, ?_⟩
  · intro h
    unfold GameStateCpp.CheckCollision
    rw [if_pos (by simp only [GRID_WIDTH, GRID_DEPTH, Nat.cast_ofNat]; omega)]
  · intro h
    unfold GameStateCpp.CheckCollision
    rw [if_neg (by simp only [GRID_WIDTH, GRID_DEPTH, Nat.cast_ofNat]; omega),
      if_neg (by simp only [GRID_HEIGHT, Nat.cast_ofNat]; omega)]
  · unfold GameStateCpp.CheckCollision
    split
    · simp
    · rename_i h1
      split
      · rename_i h2
        have hin : inBounds x y z := by
          unfold inBounds
          simp only [GRID_WIDTH, GRID_DEPTH, GRID_HEIGHT, Nat.cast_ofNat] at h1 h2
          omega
        obtain ⟨v, hv⟩ := gridRead_isSome_of_inBounds g_gameGrid x y z hin
        rw [hv]
        simp
      · simp

/-- Witness for C24 (amended): `x = -1` is blocked, `(2, 15, 3)` is free. -/
theorem C24_CheckCollision_amended_witness :
    GameStateCpp.CheckCollision kickGrid (-1) 3 2 = some true ∧
    GameStateCpp.CheckCollision kickGrid 2 15 3 = some false :=
  ⟨(C24_CheckCollision_amended kickGrid (-1) 3 2).1 (by decide),
   (C24_CheckCollision_amended kickGrid 2 15 3).2.1 (by decide)⟩

set_option maxRecDepth 100000 in
set_option maxHeartbeats 4000000 in
/-- C25 (evaluation of the code at the failing input): on the grid whose layers 0 to 3 are
full, the free `CheckLines` adds 2, not 4, to `linesCleared`, and the grid it leaves still
has a full layer (layer 0). -/
theorem C25_free_CheckLines_skips_layers :
    fullLayerCount gridFourFull = 4 ∧
    (GameStateCpp.CheckLines gridFourFull ⟨0, 0, 0, false⟩).2.linesCleared = 2 ∧
    layerComplete (GameStateCpp.CheckLines gridFourFull ⟨0, 0, 0, false⟩).1 0 = true := by
  decide

/-! ### Input queue -/

theorem Update_loop_queue (deltaTime : ℚ) (entries : List (WPARAM × InputSystem.KeyState)) :
    ∀ queue : List InputSystem.Action,
      ∃ pushed, (InputSystem.Update.loop deltaTime queue entries).1 = queue ++ pushed ∧
        ∀ a ∈ pushed, ∃ e ∈ entries, e.2.isPressed = true ∧
          InputSystem.KeyToAction e.1 = some a := by
  induction entries with
  | nil =>
    intro queue
    exact ⟨[], by simp [InputSystem.Update.loop], fun a ha => by cases ha⟩
  | cons e rest ih =>
    intro queue
    obtain ⟨key, state⟩ := e
    have hentry : ∃ p1, (InputSystem.Update.entry deltaTime queue key state).1 = queue ++ p1 ∧
        ∀ a ∈ p1, state.isPressed = true ∧ InputSystem.KeyToAction key = some a := by
      unfold InputSystem.Update.entry
      split
      · rename_i hp
        simp only
        split
        · split
          · cases hk : InputSystem.KeyToAction key with
            | none => exact ⟨[], by simp, fun a ha => by cases ha⟩
            | some act =>
              refine ⟨[act], rfl, ?_⟩
              intro a ha
              rw [List.mem_singleton] at ha
              rw [ha]
              exact ⟨hp, rfl⟩
          · exact ⟨[], by simp, fun a ha => by cases ha⟩
        · exact ⟨[], by simp, fun a ha => by cases ha⟩
      · exact ⟨[], by simp, fun a ha => by cases ha⟩
    obtain ⟨p1, hq1, hp1⟩ := hentry
    obtain ⟨p2, hq2, hp2⟩ := ih (InputSystem.Update.entry deltaTime queue key state).1
    refine ⟨p1 ++ p2, ?_, ?_⟩
    · simp only [InputSystem.Update.loop]
      rw [hq2, hq1, List.append_assoc]
    · intro a ha
      rcases List.mem_append.mp ha with h1 | h2
      · exact ⟨(key, state), List.mem_cons_self _ _, (hp1 a h1).1, (hp1 a h1).2⟩
      · obtain ⟨e, he, h3, h4⟩ := hp2 a h2
        exact ⟨e, List.mem_cons_of_mem _ he, h3, h4⟩

theorem KeyDown_queue (sys : InputSystem) (key : WPARAM) :
    ∃ pushed, (sys.KeyDown key).m_inputQueue = sys.m_inputQueue ++ pushed := by
  unfold InputSystem.KeyDown
  split
  · exact ⟨[], by simp⟩
  · split
    · simp only
      split
      · exact ⟨_, rfl⟩
      · exact ⟨[], by simp⟩
    · exact ⟨[], by simp⟩

theorem drain_spec (fuel : Nat) :
    ∀ sys : InputSystem, sys.m_inputQueue.length ≤ fuel →
      sys.drain fuel = (sys.m_inputQueue, { sys with m_inputQueue := [] }) := by
  induction fuel with
  | zero =>
    intro sys h
    have hq : sys.m_inputQueue = [] := List.length_eq_zero.mp (Nat.le_zero.mp h)
    obtain ⟨q, ks⟩ := sys
    simp only at hq
    subst hq
    rfl
  | succ fuel ih =>
    intro sys h
    obtain ⟨q, ks⟩ := sys
    cases q with
    | nil => rfl
    | cons a rest =>
      simp only [InputSystem.drain, InputSystem.GetNextAction]
      rw [ih ⟨rest, ks⟩ (by simpa using h)]

/-- C22: `GetNextAction` on an empty queue returns nothing and changes no state; otherwise
it returns the front action and removes it; `KeyDown` and `Update` only append to the back
of the queue; hence draining the queue returns the actions in exactly the order in which
they were enqueued. -/
theorem C22_GetNextAction_fifo (sys : InputSystem) (key : WPARAM) (deltaTime : ℚ) :
    (sys.m_inputQueue = [] → sys.GetNextAction = (none, sys)) ∧
    (∀ a rest, sys.m_inputQueue = a :: rest →
      sys.GetNextAction = (some a, { sys with m_inputQueue := rest })) ∧
    (∃ pushed, (sys.KeyDown key).m_inputQueue = sys.m_inputQueue ++ pushed) ∧
    (∃ pushed, (sys.Update deltaTime).m_inputQueue = sys.m_inputQueue ++ pushed) ∧
    (sys.KeyUp key).m_inputQueue = sys.m_inputQueue ∧
    (∀ fuel, sys.m_inputQueue.length ≤ fuel →
      sys.drain fuel = (sys.m_inputQueue, { sys with m_inputQueue := [] })) := by
  refine ⟨?_, ?_, KeyDown_queue sys key, ?_, ?_, fun fuel h => drain_spec fuel sys h⟩
  · intro h
    unfold InputSystem.GetNextAction
    rw [h]
  · intro a rest h
    unfold InputSystem.GetNextAction
    rw [h]
  · obtain ⟨pushed, hp, -⟩ := Update_loop_queue deltaTime sys.m_keyStates sys.m_inputQueue
    exact ⟨pushed, hp⟩
  · unfold InputSystem.KeyUp
    split <;> rfl

/-- Witness for C22: a queue holding `MOVE_LEFT, ROTATE_X, HARD_DROP` is drained in that
order. -/
theorem C22_GetNextAction_fifo_witness :
    InputSystem.drain 3 ⟨[.MOVE_LEFT, .ROTATE_X, .HARD_DROP], InputSystem.construct.m_keyStates⟩ =
      ([.MOVE_LEFT, .ROTATE_X, .HARD_DROP], ⟨[], InputSystem.construct.m_keyStates⟩) :=
  (C22_GetNextAction_fifo
    ⟨[.MOVE_LEFT, .ROTATE_X, .HARD_DROP], InputSystem.construct.m_keyStates⟩ 0 0).2.2.2.2.2 3
    (by decide)

/-! ### Key states -/

theorem modifyEntry_cons_same (key : WPARAM)
    (f : InputSystem.KeyState → InputSystem.KeyState) (st : InputSystem.KeyState)
    (rest : List (WPARAM × InputSystem.KeyState)) :
    InputSystem.modifyEntry key f ((key, st) :: rest) =
      (key, f st) :: InputSystem.modifyEntry key f rest := by
  simp only [InputSystem.modifyEntry, List.map_cons, if_true]

theorem modifyEntry_cons_other (key k : WPARAM) (hk : ¬ k = key)
    (f : InputSystem.KeyState → InputSystem.KeyState) (st : InputSystem.KeyState)
    (rest : List (WPARAM × InputSystem.KeyState)) :
    InputSystem.modifyEntry key f ((k, st) :: rest) =
      (k, st) :: InputSystem.modifyEntry key f rest := by
  simp only [InputSystem.modifyEntry, List.map_cons, hk, if_false]

theorem find_cons_same (key : WPARAM) (st : InputSystem.KeyState)
    (rest : List (WPARAM × InputSystem.KeyState)) :
    InputSystem.find key ((key, st) :: rest) = some st := by
  simp only [InputSystem.find, if_true]

theorem find_cons_other (key k : WPARAM) (hk : ¬ k = key) (st : InputSystem.KeyState)
    (rest : List (WPARAM × InputSystem.KeyState)) :
    InputSystem.find key ((k, st) :: rest) = InputSystem.find key rest := by
  simp only [InputSystem.find, hk, if_false]

theorem find_modifyEntry_same (key : WPARAM)
    (f : InputSystem.KeyState → InputSystem.KeyState)
    (entries : List (WPARAM × InputSystem.KeyState)) :
    InputSystem.find key (InputSystem.modifyEntry key f entries) =
      (InputSystem.find key entries).map f := by
  induction entries with
  | nil => rfl
  | cons e rest ih =>
    obtain ⟨k, st⟩ := e
    by_cases hk : k = key
    · subst hk
      rw [modifyEntry_cons_same, find_cons_same, find_cons_same]
      rfl
    · rw [modifyEntry_cons_other _ _ hk, find_cons_other _ _ hk, find_cons_other _ _ hk, ih]

theorem find_modifyEntry_other (key k' : WPARAM) (hne : k' ≠ key)
    (f : InputSystem.KeyState → InputSystem.KeyState)
    (entries : List (WPARAM × InputSystem.KeyState)) :
    InputSystem.find k' (InputSystem.modifyEntry key f entries) =
      InputSystem.find k' entries := by
  induction entries with
  | nil => rfl
  | cons e rest ih =>
    obtain ⟨k, st⟩ := e
    by_cases hk : k = key
    · subst hk
      rw [modifyEntry_cons_same, find_cons_other _ _ (fun h => hne h.symm),
        find_cons_other _ _ (fun h => hne h.symm), ih]
    · rw [modifyEntry_cons_other _ _ hk]
      by_cases hk2 : k = k'
      · subst hk2
        rw [find_cons_same, find_cons_same]
      · rw [find_cons_other _ _ hk2, find_cons_other _ _ hk2, ih]

theorem modifyEntry_keys (key : WPARAM) (f : InputSystem.KeyState → InputSystem.KeyState)
    (entries : List (WPARAM × InputSystem.KeyState)) :
    (InputSystem.modifyEntry key f entries).map Prod.fst = entries.map Prod.fst := by
  induction entries with
  | nil => rfl
  | cons e rest ih =>
    unfold InputSystem.modifyEntry at ih ⊢
    simp only [List.map_cons, List.cons.injEq]
    refine ⟨?_, ih⟩
    split <;> rfl

theorem find_eq_none_iff (key : WPARAM) (entries : List (WPARAM × InputSystem.KeyState)) :
    InputSystem.find key entries = none ↔ key ∉ entries.map Prod.fst := by
  induction entries with
  | nil => simp [InputSystem.find]
  | cons e rest ih =>
    obtain ⟨k, st⟩ := e
    by_cases hk : k = key
    · simp [InputSystem.find, hk]
    · simp only [InputSystem.find, hk, if_false, ih, List.map_cons, List.mem_cons, not_or]
      constructor
      · intro h; exact ⟨fun h' => hk h'.symm, h⟩
      · intro h; exact h.2

theorem find_of_mem_nodup (k : WPARAM) (st : InputSystem.KeyState)
    (entries : List (WPARAM × InputSystem.KeyState))
    (hnd : (entries.map Prod.fst).Nodup) (hmem : (k, st) ∈ entries) :
    InputSystem.find k entries = some st := by
  induction entries with
  | nil => cases hmem
  | cons e rest ih =>
    obtain ⟨k0, st0⟩ := e
    simp only [List.map_cons, List.nodup_cons] at hnd
    rcases List.mem_cons.mp hmem with h | h
    · have h1 : k = k0 := congrArg Prod.fst h
      have h2 : st = st0 := congrArg Prod.snd h
      simp [InputSystem.find, h1, h2]
    · have hne : ¬ k0 = k := by
        intro heq
        apply hnd.1
        rw [heq]
        exact List.mem_map.mpr ⟨(k, st), h, rfl⟩
      simp only [InputSystem.find, hne, if_false]
      exact ih hnd.2 h

theorem KeyToAction_loop_none_iff (key : WPARAM)
    (mappings : List (WPARAM × InputSystem.Action)) :
    InputSystem.KeyToAction.loop key mappings = none ↔ key ∉ mappings.map Prod.fst := by
  induction mappings with
  | nil => simp [InputSystem.KeyToAction.loop]
  | cons e rest ih =>
    obtain ⟨k, a⟩ := e
    by_cases hk : k = key
    · simp [InputSystem.KeyToAction.loop, hk]
    · simp only [InputSystem.KeyToAction.loop, hk, if_false, ih, List.map_cons, List.mem_cons,
        not_or]
      constructor
      · intro h; exact ⟨fun h' => hk h'.symm, h⟩
      · intro h; exact h.2

theorem KeyToAction_loop_some_mem (key : WPARAM) (a : InputSystem.Action)
    (mappings : List (WPARAM × InputSystem.Action))
    (h : InputSystem.KeyToAction.loop key mappings = some a) : (key, a) ∈ mappings := by
  induction mappings with
  | nil => cases h
  | cons e rest ih =>
    obtain ⟨k, a0⟩ := e
    by_cases hk : k = key
    · simp only [InputSystem.KeyToAction.loop, hk, if_true, Option.some.injEq] at h
      rw [hk, h]
      exact List.mem_cons_self _ _
    · simp only [InputSystem.KeyToAction.loop, hk, if_false] at h
      exact List.mem_cons_of_mem _ (ih h)

theorem KEY_MAPPINGS_keys_nodup : (InputSystem.KEY_MAPPINGS.map Prod.fst).Nodup := by
  decide

theorem KEY_MAPPINGS_action_injective :
    ∀ p ∈ InputSystem.KEY_MAPPINGS, ∀ q ∈ InputSystem.KEY_MAPPINGS, p.2 = q.2 → p.1 = q.1 := by
  decide

theorem WellFormed_nodup (sys : InputSystem) (hwf : sys.WellFormed) :
    (sys.m_keyStates.map Prod.fst).Nodup :=
  (List.Perm.nodup_iff hwf).mpr KEY_MAPPINGS_keys_nodup

theorem Update_entry_unpressed (deltaTime : ℚ) (queue : List InputSystem.Action)
    (key : WPARAM) (state : InputSystem.KeyState) (h : state.isPressed = false) :
    InputSystem.Update.entry deltaTime queue key state = (queue, state) := by
  simp [InputSystem.Update.entry, h]

theorem Update_loop_keys (deltaTime : ℚ) (entries : List (WPARAM × InputSystem.KeyState)) :
    ∀ queue : List InputSystem.Action,
      (InputSystem.Update.loop deltaTime queue entries).2.map Prod.fst =
        entries.map Prod.fst := by
  induction entries with
  | nil => intro queue; rfl
  | cons e rest ih =>
    intro queue
    obtain ⟨k, st⟩ := e
    simp only [InputSystem.Update.loop, List.map_cons, ih]

theorem Update_loop_find_unpressed (deltaTime : ℚ) (key : WPARAM)
    (st : InputSystem.KeyState) (hst : st.isPressed = false)
    (entries : List (WPARAM × InputSystem.KeyState)) :
    ∀ queue : List InputSystem.Action, InputSystem.find key entries = some st →
      InputSystem.find key (InputSystem.Update.loop deltaTime queue entries).2 = some st := by
  induction entries with
  | nil => intro queue h; cases h
  | cons e rest ih =>
    intro queue h
    obtain ⟨k, st0⟩ := e
    by_cases hk : k = key
    · simp only [InputSystem.find, hk, if_true, Option.some.injEq] at h
      subst h
      simp only [InputSystem.Update.loop, InputSystem.find, hk, if_true,
        Update_entry_unpressed deltaTime queue key st0 hst]
    · simp only [InputSystem.find, hk, if_false] at h
      simp only [InputSystem.Update.loop, InputSystem.find, hk, if_false]
      exact ih _ h

theorem construct_wellFormed : InputSystem.construct.WellFormed := by
  have h : InputSystem.construct.m_keyStates.map Prod.fst =
      InputSystem.KEY_MAPPINGS.map Prod.fst := by decide
  unfold InputSystem.WellFormed
  rw [h]

theorem mapped_key_has_entry (sys : InputSystem) (hwf : sys.WellFormed) (key : WPARAM)
    (a : InputSystem.Action) (ha : InputSystem.KeyToAction key = some a) :
    ∃ st, InputSystem.find key sys.m_keyStates = some st := by
  have hmem : key ∈ InputSystem.KEY_MAPPINGS.map Prod.fst :=
    List.mem_map.mpr ⟨(key, a), KeyToAction_loop_some_mem key a _ ha, rfl⟩
  have hmem' : key ∈ sys.m_keyStates.map Prod.fst := (List.Perm.mem_iff hwf).mpr hmem
  cases hf : InputSystem.find key sys.m_keyStates with
  | none => exact absurd hmem' ((find_eq_none_iff key _).mp hf)
  | some st => exact ⟨st, rfl⟩

/-- C23: on an input system whose key table holds exactly the mapped keys: `KeyDown` of a
mapped key that is not pressed enqueues exactly the action `KEY_MAPPINGS` assigns to it and
marks the key pressed with `timeHeld = 0`; `KeyDown` of a pressed key or of an unmapped key
changes nothing; after `KeyUp` the key is not pressed, and as long as a key is not pressed
`Update` leaves its state alone and enqueues no action of that key. -/
theorem C23_KeyDown_KeyUp (sys : InputSystem) (hwf : sys.WellFormed) (key : WPARAM) :
    (∀ a, InputSystem.KeyToAction key = some a →
      ∃ st, InputSystem.find key sys.m_keyStates = some st ∧
        (st.isPressed = false →
          (sys.KeyDown key).m_inputQueue = sys.m_inputQueue ++ [a] ∧
          InputSystem.find key (sys.KeyDown key).m_keyStates =
            some { st with isPressed := true, timeHeld := 0 }) ∧
        (st.isPressed = true → sys.KeyDown key = sys)) ∧
    (InputSystem.KeyToAction key = none → sys.KeyDown key = sys) ∧
    (sys.KeyUp key).WellFormed ∧
    (∀ st, InputSystem.find key (sys.KeyUp key).m_keyStates = some st →
      st.isPressed = false) ∧
    (∀ (sys' : InputSystem) (st : InputSystem.KeyState), sys'.WellFormed →
      InputSystem.find key sys'.m_keyStates = some st → st.isPressed = false →
      ∀ deltaTime : ℚ,
        (sys'.Update deltaTime).WellFormed ∧
        InputSystem.find key (sys'.Update deltaTime).m_keyStates = some st ∧
        ∃ pushed, (sys'.Update deltaTime).m_inputQueue = sys'.m_inputQueue ++ pushed ∧
          ∀ a, InputSystem.KeyToAction key = some a → a ∉ pushed) := by
  refine ⟨?_, ?_, ?_, ?_, ?_⟩
  · intro a ha
    obtain ⟨st, hst⟩ := mapped_key_has_entry sys hwf key a ha
    refine ⟨st, hst, ?_, ?_⟩
    · intro hp
      have hr : sys.KeyDown key =
          { m_inputQueue := sys.m_inputQueue ++ [a],
            m_keyStates := InputSystem.modifyEntry key (InputSystem.KeyState.setTimeHeld 0)
              (InputSystem.modifyEntry key (InputSystem.KeyState.setPressed true)
                sys.m_keyStates) } := by
        simp only [InputSystem.KeyDown, hst, hp, ha, Bool.not_false, if_true]
      rw [hr]
      refine ⟨rfl, ?_⟩
      simp only []
      rw [find_modifyEntry_same, find_modifyEntry_same, hst]
      rfl
    · intro hp
      simp only [InputSystem.KeyDown, hst, hp, Bool.not_true, Bool.false_eq_true, if_false]
  · intro hnone
    have hnot : key ∉ sys.m_keyStates.map Prod.fst := by
      intro hmem
      exact (KeyToAction_loop_none_iff key _).mp hnone ((List.Perm.mem_iff hwf).mp hmem)
    have hf := (find_eq_none_iff key _).mpr hnot
    simp only [InputSystem.KeyDown, hf]
  · unfold InputSystem.WellFormed InputSystem.KeyUp
    split
    · exact hwf
    · simp only [modifyEntry_keys]
      exact hwf
  · intro st hst
    unfold InputSystem.KeyUp at hst
    cases hf : InputSystem.find key sys.m_keyStates with
    | none =>
      rw [hf] at hst
      simp only at hst
      rw [hf] at hst
      cases hst
    | some st0 =>
      rw [hf] at hst
      simp only at hst
      rw [find_modifyEntry_same, find_modifyEntry_same, hf] at hst
      have := Option.some.inj hst
      rw [← this]
      rfl
  · intro sys' st hwf' hfind hst deltaTime
    obtain ⟨pushed, hq, hp⟩ := Update_loop_queue deltaTime sys'.m_keyStates sys'.m_inputQueue
    refine ⟨?_, ?_, pushed, hq, ?_⟩
    · unfold InputSystem.WellFormed InputSystem.Update
      simp only [Update_loop_keys]
      exact hwf'
    · exact Update_loop_find_unpressed deltaTime key st hst _ _ hfind
    · intro a ha hmem
      obtain ⟨e, he, hpressed, hact⟩ := hp a hmem
      have h1 := KeyToAction_loop_some_mem e.1 a _ hact
      have h2 := KeyToAction_loop_some_mem key a _ ha
      have hkey : e.1 = key := KEY_MAPPINGS_action_injective _ h1 _ h2 rfl
      have hfe := find_of_mem_nodup e.1 e.2 sys'.m_keyStates (WellFormed_nodup sys' hwf') he
      rw [hkey, hfind] at hfe
      rw [← Option.some.inj hfe, hst] at hpressed
      cases hpressed

/-- Witness for C23: on a freshly constructed input system, `KeyDown(VK_LEFT)` enqueues
`MOVE_LEFT`. -/
theorem C23_KeyDown_KeyUp_witness :
    (InputSystem.construct.KeyDown VK_LEFT).m_inputQueue =
      InputSystem.construct.m_inputQueue ++ [.MOVE_LEFT] := by
  obtain ⟨st, hst, h1, -⟩ :=
    (C23_KeyDown_KeyUp InputSystem.construct construct_wellFormed VK_LEFT).1 .MOVE_LEFT
      (by decide)
  have hst' : InputSystem.find VK_LEFT InputSystem.construct.m_keyStates =
      some InputSystem.KeyState.default := rfl
  rw [hst'] at hst
  have hp : st.isPressed = false := by
    rw [← Option.some.inj hst]
    rfl
  exact (h1 hp).1

end Tetris
